import Mathlib

/-!
# pvxs client operation core: GET / PUT / RPC state machine

A shallow embedding of `src/src/clientget.cpp` (`GPROp`, `Connection::handle_GPR`,
the field map `PRBase::Args` and the builders' `exec`), of the discovery tick of
`src/src/clientdiscover.cpp`, and of `MPSCFIFO` in `src/src/pvxs/util.h`.

* Stateful code is written as explicit state passing over a `World` holding the
  heap of operations, the channels and the connection that `handle_GPR` runs on.
* Every method returns the new world together with the list of observable
  actions it performed, in program order: user callbacks invoked, frames
  enqueued, the connection being dropped.
* `std::map` is embedded as a function into `Option` (`find` is application,
  `erase` is `Function.update _ _ none`).
* The read cursor `M` over `segBuf` is embedded by what each decoding step yields
  (`Reply`), `none` standing for a step that sets the sticky fault flag.
-/

namespace pvxs

/-! ## Collaborators whose declarations are not among the sources -/

/-- Modelled from the spec: the exceptions that travel in a `Result` or leave a call.
`Disconnect`, `RemoteError`, `logic_error` and `invalid_argument` are the ones the
source constructs, `bad_function_call` is what calling an empty `std::function`
raises, and `user` is any other `std::exception` raised by a user callback. -/
inductive Exn where
  | Disconnect
  | RemoteError (msg : String)
  | logic_error (what : String)
  | bad_function_call
  | user (what : String)
  | invalid_argument (what : String)
  deriving DecidableEq, Repr

/-- Modelled from the spec: a structured value (`data.h` is not among the sources),
"the type descriptor + empty value": `desc = none` is the empty `Value`
(the one for which `if(data)` is false), `data` the field values it stores. -/
structure Value where
  desc : Option Nat
  data : List Nat
  deriving DecidableEq, Repr

namespace Value

/-- Default-constructed `Value`. -/
def empty : Value := ⟨none, []⟩

/-- The `explicit operator bool` of a `Value`. -/
def valid (v : Value) : Bool := v.desc.isSome

/-- `Value::cloneEmpty()`: same type, no field stored. -/
def cloneEmpty (v : Value) : Value := ⟨v.desc, []⟩

/-- `Value::clone()`: an equal, independent copy. -/
def clone (v : Value) : Value := v

/-- `Value::assign(src)`: store the fields of `src` into `this`, which keeps its type. -/
def assign (dst src : Value) : Value := ⟨dst.desc, src.data⟩

end Value

/-- Modelled from the spec: `Status` as `{ code, msg, trace }`, `code 0 = success`. -/
structure Status where
  code : Nat
  msg : String
  trace : String
  deriving DecidableEq, Repr

/-- `Status::isSuccess()`. -/
def Status.isSuccess (s : Status) : Bool := s.code == 0

/-- Modelled from the spec: `Result`, a value with the peer name or an error;
the default-constructed `Result` carries neither. -/
structure Result where
  value : Value
  peerName : String
  error : Option Exn
  deriving DecidableEq, Repr

namespace Result

/-- `Result()`. -/
def default : Result := ⟨Value.empty, "", none⟩

/-- `Result(Value&&, peerName)`. -/
def ofValue (v : Value) (peer : String) : Result := ⟨v, peer, none⟩

/-- `Result(std::exception_ptr)`. -/
def ofError (e : Exn) : Result := ⟨Value.empty, "", some e⟩

end Result

/-- Command bytes (spec, operation kinds: Get=0x0A, Put=0x0B, RPC=0x14). -/
def CMD_GET : Nat := 0x0A

/-- Command byte of PUT. -/
def CMD_PUT : Nat := 0x0B

/-- Command byte of RPC. -/
def CMD_RPC : Nat := 0x14

/-- Command byte of DESTROY_REQUEST in the PVA protocol. -/
def CMD_DESTROY_REQUEST : Nat := 0x0F

/-- The kinds a `GPROp` is constructed with (`Operation::Get`, `Put`, `RPC`). -/
inductive operation_t where
  | Get
  | Put
  | RPC
  deriving DecidableEq, Repr

/-- `uint8_t(op)`: each kind is its command byte. -/
def operation_t.toByte : operation_t → Nat
  | .Get => CMD_GET
  | .Put => CMD_PUT
  | .RPC => CMD_RPC

/-! ## `GPROp` -/

/-- `GPROp::state_t`. -/
inductive state_t where
  | Connecting
  | Creating
  | GetOPut
  | BuildPut
  | Exec
  | Done
  deriving DecidableEq, Repr

/-- One item written to the send buffer by a `to_wire*` call. -/
inductive Wire where
  | u32 (n : Nat)
  | u8 (n : Nat)
  | desc (d : Option Nat)
  | full (v : Value)
  | valid (v : Value)
  deriving DecidableEq, Repr

/-- What a call does that is visible from outside, tagged with the heap slot of
the operation it is done for. A callback entry records the operation's `state`
at the moment of the call and the argument passed. -/
inductive Action where
  | done (op : Nat) (st : state_t) (arg : Result)
  | onInit (op : Nat) (st : state_t) (arg : Value)
  | builder (op : Nat) (st : state_t) (arg : Value)
  | send (op : Nat) (cmd : Nat) (body : List Wire)
  | bevReset
  | raise (e : Exn)
  deriving DecidableEq, Repr

/-- `struct GPROp : OperationBase`. A user callback is a function of its argument
that returns normally (`none` / `.ok`) or raises a `std::exception`; an empty
`std::function` is `none`. `chan` is the channel's slot in the world. -/
structure GPROp where
  op : operation_t
  chan : Nat
  ioid : Nat
  builder : Option (Value → Except Exn Value)
  done : Option (Result → Option Exn)
  onInit : Option (Value → Option Exn)
  pvRequest : Value
  rpcarg : Value
  result : Result
  getOput : Bool
  state : state_t

/-- `RequestInfo`: cached prototype and weak handle (the operation's heap slot;
`lock()` is the heap lookup). -/
structure RequestInfo where
  prototype : Value
  handle : Nat

/-- The part of `Channel` the operations touch. -/
structure Channel where
  sid : Nat
  pending : List Nat
  opByIOID : Nat → Option Nat

/-- The part of `Connection` that `handle_GPR` and the operations touch;
`bev = false` once `bev.reset()` has run. -/
structure Connection where
  opByIOID : Nat → Option RequestInfo
  bev : Bool
  peerName : String

/-- Operations (by heap slot, `none` where no live operation is), channels, and
the connection under consideration. -/
structure World where
  ops : Nat → Option GPROp
  chans : Nat → Channel
  conn : Connection

namespace World

/-- Write back operation `i`. -/
def setOp (w : World) (i : Nat) (o : GPROp) : World :=
  { w with ops := Function.update w.ops i (some o) }

/-- Write back channel `c`. -/
def setChan (w : World) (c : Nat) (ch : Channel) : World :=
  { w with chans := Function.update w.chans c ch }

/-- The `state` of operation `i`, if it is live. -/
def stateOf (w : World) (i : Nat) : Option state_t := (w.ops i).map GPROp.state

/-- The `result` of operation `i`, if it is live. -/
def resultOf (w : World) (i : Nat) : Option Result := (w.ops i).map GPROp.result

end World

/-- Modelled from the spec: `Connection::sendDestroyRequest(sid, ioid)`, which is
not among the sources: one `CMD_DESTROY_REQUEST` frame with body `(sid, ioid)`. -/
def sendDestroyRequest (self sid ioid : Nat) : List Action :=
  [Action.send self CMD_DESTROY_REQUEST [Wire.u32 sid, Wire.u32 ioid]]

/-- `GPROp::notify()`, lines 152-165, which touches only the operation itself.
The callee is taken not to modify the `Result` it is handed. -/
def notify (self : Nat) (o : GPROp) : GPROp × List Action :=
  match o.done with
  | none => (o, [])
  | some d =>
    match d o.result with
    | none => (o, [Action.done self o.state o.result])
    | some e =>
      -- keep first error (eg. from put builder)
      if o.result.error.isSome then (o, [Action.done self o.state o.result])
      else ({ o with result := Result.ofError e }, [Action.done self o.state o.result])

set_option linter.unusedVariables false in
/-- `GPROp::_cancel(implicit)`, lines 183-199; `implicit` only selects a log line. -/
def _cancel (w : World) (self : Nat) ( implicit : Bool) : (World × List Action) × Bool :=
  match w.ops self with
  | none => ((w, []), false)
  | some o =>
    let ch := w.chans o.chan
    let acts :=
      if o.state = state_t.GetOPut ∨ o.state = state_t.Exec then
        sendDestroyRequest self ch.sid o.ioid
      else []
    let w1 : World :=
      if o.state = state_t.Creating ∨ o.state = state_t.GetOPut ∨ o.state = state_t.Exec then
        { (w.setChan o.chan { ch with opByIOID := Function.update ch.opByIOID o.ioid none }) with
          conn := { w.conn with opByIOID := Function.update w.conn.opByIOID o.ioid none } }
      else w
    let ret := decide (o.state ≠ state_t.Done)
    ((w1.setOp self { o with state := state_t.Done }, acts), ret)

/-- `GPROp::cancel()`, lines 167-180: `_cancel(false)` on the worker, then `done`
and `onInit` are moved out of the operation. -/
def cancel (w : World) (self : Nat) : (World × List Action) × Bool :=
  let r := _cancel w self false
  match r.1.1.ops self with
  | none => r
  | some o => ((r.1.1.setOp self { o with done := none, onInit := none }, r.1.2), r.2)

/-- `GPROp::createOp()`, lines 201-226. -/
def createOp (w : World) (self : Nat) : World × List Action :=
  match w.ops self with
  | none => (w, [])
  | some o =>
    if o.state ≠ state_t.Connecting then (w, [])
    else
      let ch := w.chans o.chan
      let body := [Wire.u32 ch.sid, Wire.u32 o.ioid, Wire.u8 0x08,
                   Wire.desc o.pvRequest.desc, Wire.full o.pvRequest]
      (w.setOp self { o with state := state_t.Creating },
       [Action.send self o.op.toByte body])

/-- `GPROp::disconnected(self)`, lines 228-252. -/
def disconnected (w : World) (self : Nat) : World × List Action :=
  match w.ops self with
  | none => (w, [])
  | some o =>
    if o.state = state_t.Connecting ∨ o.state = state_t.Done then
      -- noop
      (w, [])
    else if o.state = state_t.Creating ∨ o.state = state_t.GetOPut
        ∨ (o.state = state_t.Exec ∧ o.op = operation_t.Get) then
      -- return to pending
      let ch := w.chans o.chan
      ((w.setChan o.chan { ch with pending := ch.pending ++ [self] }).setOp self
          { o with state := state_t.Connecting }, [])
    else if o.state = state_t.Exec then
      -- can't restart as server side-effects may occur
      let o1 : GPROp := { o with state := state_t.Done, result := Result.ofError Exn.Disconnect }
      let n := notify self o1
      (w.setOp self n.1, n.2)
    else
      let e := Exn.logic_error "GPR Disconnect in unexpected state"
      let o1 : GPROp := { o with state := state_t.Done, result := Result.ofError e }
      let n := notify self o1
      (w.setOp self n.1, n.2)

/-! ## `Connection::handle_GPR` -/

/-- The header of a reply: `from_wire(M, ioid); from_wire(M, subcmd); from_wire(M, sts)`. -/
structure Header where
  ioid : Nat
  subcmd : Nat
  sts : Status

/-- `bool init = subcmd&0x08`. -/
def Header.init (h : Header) : Bool := h.subcmd &&& 0x08 != 0

/-- `bool get = subcmd&0x40`. -/
def Header.get (h : Header) : Bool := h.subcmd &&& 0x40 != 0

/-- The message in `segBuf` as the cursor `M` decodes it; `none` is a decoding step
that leaves `M` faulted. `wireFull` and `wireValid` fill the fields of the `Value`
they are handed (its type stays) and may depend on it. -/
structure Reply where
  header : Option Header
  wireType : Option Value
  wireFull : Value → Option (List Nat)
  wireValid : Value → Option (List Nat)

/-- Lines 259-285: header, and the payload in the unambiguous cases.
`none` when `M` is not good afterwards. -/
def readHead (cmd : Nat) (m : Reply) : Option (Header × Value) :=
  match m.header with
  | none => none
  | some hd =>
    if cmd ≠ CMD_RPC ∧ hd.init = true ∧ hd.sts.isSuccess = true then
      -- INIT of PUT or GET, decode type description
      m.wireType.map fun data => (hd, data)
    else if cmd = CMD_RPC ∧ hd.init = false ∧ hd.sts.isSuccess = true then
      -- RPC reply
      match m.wireType with
      | none => none
      | some data =>
        if data.valid = true then (m.wireFull data).map fun d => (hd, ⟨data.desc, d⟩)
        else some (hd, data)
    else some (hd, Value.empty)

/-- Lines 313-323, run on the registry entry found for the IOID.
`none` when `M` is not good afterwards. -/
def readData (cmd : Nat) (hd : Header) (m : Reply) ( info : RequestInfo) (data : Value) :
    Option (RequestInfo × Value) :=
  if cmd ≠ CMD_RPC ∧ hd.init = true ∧ hd.sts.isSuccess = true then
    -- INIT of PUT or GET, store type description
    some ({ info with prototype := data }, data)
  else if hd.init = false ∧ (cmd = CMD_GET ∨ (cmd = CMD_PUT ∧ hd.get = true))
      ∧ hd.sts.isSuccess = true then
    -- GET reply
    let data := info.prototype.cloneEmpty
    if data.valid = true then (m.wireValid data).map fun d => (info, ⟨data.desc, d⟩)
    else some (info, data)
  else some (info, data)

/-- Lines 339-356: `true` when neither `M.fault` is reached. -/
def checkState (gpr : GPROp) (cmd : Nat) (hd : Header) : Bool :=
  if gpr.op.toByte ≠ cmd then
    -- peer mixes up IOID and operation type
    false
  else if gpr.state = state_t.Creating ∧ hd.init = true then true
  else if gpr.state = state_t.GetOPut ∧ hd.init = false ∧ hd.get = true then true
  else if gpr.state = state_t.Exec ∧ hd.init = false ∧ hd.get = false then true
  else false

/-- Lines 376-382: the guarded call of `onInit`. -/
def callOnInit (self : Nat) (gpr : GPROp) (data : Value) : GPROp × List Action :=
  match gpr.onInit with
  | none => (gpr, [])
  | some f =>
    match f data with
    | none => (gpr, [Action.onInit self gpr.state data])
    | some e =>
      ({ gpr with result := Result.ofError e, state := state_t.Done },
       [Action.onInit self gpr.state data])

/-- Lines 366-408, "advance operation state". `none` is the `throw` of line 407. -/
def advance (self cmd : Nat) (hd : Header) (peerName : String) (gpr : GPROp)
    ( info : RequestInfo) (data : Value) : Option (GPROp × RequestInfo × List Action) :=
  if hd.sts.isSuccess = false then
    some ({ gpr with result := Result.ofError (Exn.RemoteError hd.sts.msg),
                     state := state_t.Done }, info, [])
  else if gpr.state = state_t.Creating then
    let r := callOnInit self gpr data
    let st :=
      if cmd = CMD_PUT ∧ r.1.getOput = true then state_t.GetOPut
      else if cmd = CMD_PUT ∧ r.1.getOput = false then state_t.BuildPut
      else state_t.Exec
    some ({ r.1 with state := st }, info, r.2)
  else if gpr.state = state_t.GetOPut then
    some ({ gpr with state := state_t.BuildPut },
          { info with prototype := info.prototype.assign data }, [])
  else if gpr.state = state_t.Exec then
    -- data always empty for CMD_PUT
    some ({ gpr with state := state_t.Done, result := Result.ofValue data peerName }, info, [])
  else
    -- should be avoided above
    none

/-- Lines 410-422, the transient state `BuildPut`. -/
def buildPut (self : Nat) (gpr : GPROp) ( info : RequestInfo) :
    GPROp × RequestInfo × List Action :=
  if gpr.state = state_t.BuildPut then
    let arg := info.prototype.clone
    match gpr.builder with
    | none =>
      ({ gpr with result := Result.ofError Exn.bad_function_call, state := state_t.Done },
       info, [])
    | some b =>
      match b arg with
      | .ok v =>
        ({ gpr with state := state_t.Exec }, { info with prototype := v },
         [Action.builder self gpr.state arg])
      | .error e =>
        ({ gpr with result := Result.ofError e, state := state_t.Done }, info,
         [Action.builder self gpr.state arg])
  else (gpr, info, [])

/-- Lines 429-454: the body written to `txBody` for the new state. -/
def txBodyFor (sid ioid cmd : Nat) (gpr : GPROp) ( info : RequestInfo) : List Wire :=
  [Wire.u32 sid, Wire.u32 ioid] ++
    (if gpr.state = state_t.GetOPut then [Wire.u8 0x40]
     else if gpr.state = state_t.Exec then
       [Wire.u8 0x00] ++
         (if cmd = CMD_PUT then [Wire.valid info.prototype]
          else if cmd = CMD_RPC then
            [Wire.desc gpr.rpcarg.desc] ++
              (if gpr.rpcarg.valid = true then [Wire.full gpr.rpcarg] else [])
          else [])
     else [])

/-- Lines 427-466, "act on new operation state": the operation and the registry
entry are written back (in the source both are updated in place), one frame is
enqueued, and a finished operation is forgotten and notified. -/
def act (w : World) (self cmd ioid : Nat) (gpr : GPROp) ( info : RequestInfo) :
    World × List Action :=
  let frame := Action.send self
    (if gpr.state = state_t.Done then CMD_DESTROY_REQUEST else cmd)
    (txBodyFor (w.chans gpr.chan).sid ioid cmd gpr info)
  if gpr.state = state_t.Done then
    let ch := w.chans gpr.chan
    let n := notify self gpr
    let w2 : World :=
      { (w.setChan gpr.chan { ch with opByIOID := Function.update ch.opByIOID ioid none }) with
        conn := { w.conn with opByIOID := Function.update w.conn.opByIOID ioid none } }
    (w2.setOp self n.1, frame :: n.2)
  else
    let w1 : World :=
      { w with conn := { w.conn with
          opByIOID := Function.update w.conn.opByIOID ioid (some info) } }
    (w1.setOp self gpr, [frame])

/-- Lines 359-364: `bev.reset(); return;`. -/
def dropConn (w : World) : World × List Action :=
  ({ w with conn := { w.conn with bev := false } }, [Action.bevReset])

/-- `Connection::handle_GPR(cmd)`, lines 257-467, on the message `m` in `segBuf`. -/
def handle_GPR (w : World) (cmd : Nat) (m : Reply) : World × List Action :=
  match readHead cmd m with
  | none => dropConn w
  | some (hd, data) =>
    match w.conn.opByIOID hd.ioid with
    | none =>
      -- "uses non-existant IOID.  Ignoring..."
      (w, [])
    | some info0 =>
      match readData cmd hd m info0 data with
      | none => dropConn w
      | some (info1, data1) =>
        let w1 : World :=
          { w with conn := { w.conn with
              opByIOID := Function.update w.conn.opByIOID hd.ioid (some info1) } }
        match w1.ops info1.handle with
        | none =>
          -- assume op has already sent CMD_DESTROY_REQUEST
          (w1, [])
        | some gpr =>
          if checkState gpr cmd hd = false then dropConn w1
          else
            match advance info1.handle cmd hd w1.conn.peerName gpr info1 data1 with
            | none => (w1, [Action.raise (Exn.logic_error "GPR advance state inconsistent")])
            | some (gpr1, info2, a1) =>
              let b := buildPut info1.handle gpr1 info2
              let r := act w1 info1.handle cmd hd.ioid b.1 b.2.1
              (r.1, a1 ++ b.2.2 ++ r.2)

/-! ## Events and runs -/

/-- Modelled from the spec: the part of `Channel::createOperations()` (not among
the sources) that precedes `createOp()`: "Issue IOID", "Register in connection
and channel IOID maps". -/
def register (w : World) (self ioid : Nat) : World × List Action :=
  match w.ops self with
  | none => (w, [])
  | some o =>
    let ch := w.chans o.chan
    let w1 : World :=
      { (w.setChan o.chan
          { ch with opByIOID := Function.update ch.opByIOID ioid (some self) }) with
        conn := { w.conn with
          opByIOID := Function.update w.conn.opByIOID ioid (some ⟨Value.empty, self⟩) } }
    (w1.setOp self { o with ioid := ioid }, [])

/-- What drives an operation: its channel becoming connected (`register`,
`createOp`), an inbound GET/PUT/RPC message, a disconnect, a user `cancel()`, and
the `_cancel(true)` of a dropped handle. -/
inductive Event where
  | register (i ioid : Nat)
  | createOp (i : Nat)
  | reply (cmd : Nat) (m : Reply)
  | disconnected (i : Nat)
  | cancel (i : Nat)
  | implicitCancel (i : Nat)

/-- One event. -/
def step (w : World) : Event → World × List Action
  | .register i ioid => register w i ioid
  | .createOp i => createOp w i
  | .reply cmd m => handle_GPR w cmd m
  | .disconnected i => disconnected w i
  | .cancel i => (cancel w i).1
  | .implicitCancel i => (_cancel w i true).1

/-- A sequence of events, with all the actions performed, in order. -/
def run (w : World) : List Event → World × List Action
  | [] => (w, [])
  | e :: es =>
    let r := step w e
    let r2 := run r.1 es
    (r2.1, r.2 ++ r2.2)

/-- Number of invocations of `done` of operation `i` in a list of actions. -/
def doneCount (i : Nat) (acts : List Action) : Nat :=
  (acts.filter fun a => match a with
    | .done j _ _ => decide (j = i)
    | _ => false).length

/-- Number of invocations of `onInit` of operation `i` in a list of actions. -/
def onInitCount (i : Nat) (acts : List Action) : Nat :=
  (acts.filter fun a => match a with
    | .onInit j _ _ => decide (j = i)
    | _ => false).length

/-- Is the action a user callback of operation `i`? -/
def Action.isCallbackOf (i : Nat) : Action → Bool
  | .done j _ _ => decide (j = i)
  | .onInit j _ _ => decide (j = i)
  | .builder j _ _ => decide (j = i)
  | _ => false


/-! ## Observations on actions, and what one event does to one operation -/

/-- The operation an action is done for, if any. -/
def Action.opOf : Action → Option Nat
  | .done j _ _ => some j
  | .onInit j _ _ => some j
  | .builder j _ _ => some j
  | .send j _ _ => some j
  | .bevReset => none
  | .raise _ => none

/-- Is the action an INIT frame (subcommand byte `0x08`) sent for operation `i`? -/
def Action.isInitSend (i : Nat) : Action → Bool
  | .send j _ body => decide (j = i) && decide (body.get? 2 = some (Wire.u8 0x08))
  | _ => false

/-- Number of INIT frames sent for operation `i` in a list of actions. -/
def initSendCount (i : Nat) (acts : List Action) : Nat :=
  (acts.filter (Action.isInitSend i)).length

/-- `1` while operation `i` is waiting for the reply to INIT, else `0`. -/
def creatingNow (w : World) (i : Nat) : Nat :=
  if w.stateOf i = some state_t.Creating then 1 else 0

/-- The facts about one event `e` that takes the operation in slot `h` from `o` to
`o'` while performing `acts`. -/
structure OpTrans (e : Event) (h : Nat) (o o' : GPROp) (acts : List Action) : Prop where
  kind : o'.op = o.op
  getOput : o'.getOput = o.getOput
  done_keep : o'.done = o.done ∨ (e = Event.cancel h ∧ o'.done = none)
  done_mem : ∀ st r, Action.done h st r ∈ acts →
    st = state_t.Done ∧ o.state ≠ state_t.Done ∧ o'.state = state_t.Done
  done_le : doneCount h acts ≤ 1
  done_exact : o.state ≠ state_t.Done → o'.state = state_t.Done → o.done.isSome = true →
    e ≠ Event.cancel h → e ≠ Event.implicitCancel h → doneCount h acts = 1
  absorb : o.state = state_t.Done →
    o'.state = state_t.Done ∧ o'.result = o.result ∧ acts = []
  write : o.state = state_t.Exec → o.op ≠ operation_t.Get →
    (o'.state = state_t.Exec ∨ o'.state = state_t.Done) ∧
    ∀ cmd body, Action.send h cmd body ∈ acts → cmd = CMD_DESTROY_REQUEST
  onInit_mem : ∀ st v, Action.onInit h st v ∈ acts →
    st = state_t.Creating ∧ o.state = state_t.Creating ∧
    ∃ cmd m hd, e = Event.reply cmd m ∧ m.header = some hd ∧ hd.init = true ∧
      hd.sts.isSuccess = true
  onInit_one : onInitCount h acts ≤ 1
  onInit_le : onInitCount h acts + (if o'.state = state_t.Creating then 1 else 0) ≤
    initSendCount h acts + (if o.state = state_t.Creating then 1 else 0)
  tagged : ∀ a ∈ acts, a.opOf = none ∨ a.opOf = some h
  no_buildPut : o.state ≠ state_t.BuildPut → o'.state ≠ state_t.BuildPut
  getOPut_put : (o.state = state_t.GetOPut → o.op = operation_t.Put ∧ o.getOput = true) →
    o'.state = state_t.GetOPut → o'.op = operation_t.Put ∧ o'.getOput = true


/-! ## Concrete worlds used to exercise the statements -/

/-- An operation of kind `k` in state `st` on channel `0`, registered as IOID `1`,
whose callbacks return normally, except that `onInit` is `oi`. -/
def demoOp (k : operation_t) (st : state_t) (oi : Option (Value → Option Exn)) : GPROp :=
  { op := k, chan := 0, ioid := 1, builder := some fun v => Except.ok v,
    done := some fun _ => none, onInit := oi, pvRequest := ⟨some 0, []⟩,
    rpcarg := Value.empty, result := Result.default, getOput := false, state := st }

/-- The world with the single operation `o` in slot `0`, registered as IOID `1` in
the connection and in its channel (sid `7`). -/
def demoWorld (o : GPROp) : World :=
  { ops := fun i => if i = 0 then some o else none,
    chans := fun _ => ⟨7, [], fun k => if k = 1 then some 0 else none⟩,
    conn := ⟨fun k => if k = 1 then some ⟨Value.empty, 0⟩ else none, true, "srv"⟩ }

/-- A successful INIT reply on IOID `1` carrying the type `5`. -/
def initReply : Reply :=
  ⟨some ⟨1, 0x08, ⟨0, "", ""⟩⟩, some ⟨some 5, []⟩, fun _ => some [], fun _ => some [42]⟩

/-- A successful EXEC reply on IOID `1` whose payload decodes to the field `42`. -/
def execReply : Reply :=
  ⟨some ⟨1, 0x00, ⟨0, "", ""⟩⟩, some ⟨some 5, []⟩, fun _ => some [], fun _ => some [42]⟩

/-- An `onInit` callback that raises. -/
def failingOnInit : Value → Option Exn := fun _ => some (Exn.user "onInit failed")

/-! ## Further observations on actions -/

/-- Is the action a frame handed to `enqueueTxBody`? -/
def Action.isSend : Action → Bool
  | .send _ _ _ => true
  | _ => false

/-- Number of invocations of the builder of operation `i` in a list of actions. -/
def builderCount (i : Nat) (acts : List Action) : Nat :=
  (acts.filter fun a => match a with
    | .builder j _ _ => decide (j = i)
    | _ => false).length

/-! ## Further concrete replies and worlds -/

/-- A successful GET-phase reply (subcmd `0x40`) on IOID `1` decoding to the field `3`. -/
def getPhaseReply : Reply :=
  ⟨some ⟨1, 0x40, ⟨0, "", ""⟩⟩, none, fun _ => none, fun _ => some [3]⟩

/-- An EXEC reply on IOID `1` with a failure status. -/
def failedReply : Reply :=
  ⟨some ⟨1, 0x00, ⟨2, "no access", ""⟩⟩, none, fun _ => none, fun _ => none⟩

/-- A successful INIT reply on IOID `1` whose type descriptor does not decode. -/
def brokenInitReply : Reply :=
  ⟨some ⟨1, 0x08, ⟨0, "", ""⟩⟩, none, fun _ => none, fun _ => none⟩

/-- A PUT builder that raises. -/
def failingBuilder : Value → Except Exn Value := fun _ => Except.error (Exn.user "no value")


/-! ## Observations on runs -/

/-- Number of events of a run at which operation `i` passes from a state other than
`Done` into `Done`. -/
def doneEntries (i : Nat) : World → List Event → Nat
  | _, [] => 0
  | w, e :: es =>
    (if w.stateOf i ≠ some state_t.Done ∧ (step w e).1.stateOf i = some state_t.Done
      then 1 else 0) + doneEntries i (step w e).1 es

/-- Is the action an exception leaving `handle_GPR`? -/
def Action.isRaise : Action → Bool
  | .raise _ => true
  | _ => false

/-- After a call made while operation `i` was `Done` with result `r`: the operation is
still `Done`, its result is `r`, and nothing was done for it (no callback invoked, no
frame sent). -/
def DoneKept (i : Nat) (r : Result) (x : World × List Action) : Prop :=
  x.1.stateOf i = some state_t.Done ∧ x.1.resultOf i = some r ∧
    ∀ a ∈ x.2, a.opOf ≠ some i

/-! ## The field map of `PutBuilder` and `RPCBuilder` (`PRBase::Args`) -/

/-- Modelled from the spec: a value given by the user to `set()` or `arg()`, as
`Value::Helper::build(ptr, type)` holds it: the code of its store type and the datum. -/
structure Arg where
  code : Nat
  datum : Nat
  deriving DecidableEq, Repr

/-- Modelled from the spec: one field of a structure, its type code and, once
assigned, the datum it stores. -/
structure Field where
  code : Nat
  stored : Option Nat
  deriving DecidableEq, Repr

/-- Modelled from the spec: a structure value seen field by field (`data.h` is not
among the sources), in the order of its type.  A dotted path counts as one name. -/
abbrev Members := List (String × Field)

/-- `v[name]`: the field called `name`, `none` standing for the invalid `Value`. -/
def Members.find (s : Members) (name : String) : Option Field := s.lookup name

/-- Store `d` into the field called `name` (every other field is left as it is). -/
def Members.store (s : Members) (name : String) (d : Nat) : Members :=
  s.map fun p => if p.1 = name then (p.1, { p.2 with stored := some d }) else p

/-- `Value::cloneEmpty()` field by field: same fields, none stored. -/
def Members.cloneEmpty (s : Members) : Members :=
  s.map fun p => (p.1, { p.2 with stored := none })

/-- Lexicographic order on character codes. -/
def lexLt : List Nat → List Nat → Bool
  | _, [] => false
  | [], _ :: _ => true
  | a :: r, b :: t => decide (a < b) || (decide (a = b) && lexLt r t)

/-- `std::less<std::string>`, the order of the keys of `values`. -/
def keyLt (a b : String) : Bool :=
  lexLt (a.data.map Char.toNat) (b.data.map Char.toNat)

/-- `std::map::emplace` on the entries kept in key order: the entry is inserted at
its place unless the key is already there. -/
def mapEmplace (name : String) (x : Arg × Bool) :
    List (String × Arg × Bool) → List (String × Arg × Bool)
  | [] => [(name, x)]
  | (n, y) :: r =>
    if keyLt name n then (name, x) :: (n, y) :: r
    else if name = n then (n, y) :: r
    else (n, y) :: mapEmplace name x r

/-- `PRBase::Args`: `values` (a `std::map`, so its entries are met in key order
and no key occurs twice) and `names` (the order the fields were set in). -/
structure Args where
  values : List (String × Arg × Bool)
  names : List String
  deriving DecidableEq, Repr

/-- `values.find(name)`. -/
def Args.find (a : Args) (name : String) : Option (Arg × Bool) := a.values.lookup name

/-- The loop of `Args::build` (lines 31-44) over the entries still to visit.
`copyIn code v` is the datum `Value::copyIn` stores into a field of type `code`
for the user value `v`, `none` when it raises `NoConvert`. -/
def Args.buildLoop (copyIn : Nat → Arg → Option Nat) :
    List (String × Arg × Bool) → Members → Except Exn Members
  | [], ret => Except.ok ret
  | (name, v, required) :: rest, ret =>
    match Members.find ret name with
    | some fld =>
      match copyIn fld.code v with
      | some d => Args.buildLoop copyIn rest (Members.store ret name d)
      | none =>
        -- catch(NoConvert&)
        if required then Except.error (Exn.user "NoConvert")
        else Args.buildLoop copyIn rest ret
    | none =>
      if required then
        Except.error (Exn.user
          ("PutBuilder server type missing required field \x27" ++ name ++ "\x27"))
      else Args.buildLoop copyIn rest ret

/-- The field `f` called `n` once the loop of `build` has gone through the entries
`vs`: it stores the converted user value when there is one for `n`. -/
def Args.fill (copyIn : Nat → Arg → Option Nat) (vs : List (String × Arg × Bool))
    (n : String) (f : Field) : Field :=
  match List.lookup n vs with
  | some x =>
    match copyIn f.code x.1 with
    | some d => { f with stored := some d }
    | none => f
  | none => f

/-- `PRBase::Args::build(prototype)`, lines 27-46. -/
def Args.build (copyIn : Nat → Arg → Option Nat) (a : Args) (prototype : Members) :
    Except Exn Members :=
  Args.buildLoop copyIn a.values (Members.cloneEmpty prototype)

/-- Modelled from the spec: an instance of the NTURI type, "a structure
`{ scheme, path, query:{…named args…} }`" (`nt.h` is not among the sources). -/
structure NTURI where
  scheme : String
  path : String
  query : Members
  deriving DecidableEq, Repr

/-- The first loop of `uriArgs` (lines 54-62): one member of `query` for each name,
of the type of its value; `none` when a name has no value (the `logic_error`). -/
def Args.uriMembers (a : Args) : List String → Option Members
  | [] => some []
  | name :: r =>
    match a.find name with
    | none => none
    | some (value, _) => (Args.uriMembers a r).map fun l => (name, ⟨value.code, none⟩) :: l

/-- `inst["query"][name].assign(value)`: the field takes the datum of a value of
its own type; a query without such a field is left as it is. -/
def Members.assign (q : Members) (name : String) (value : Arg) : Members :=
  match Members.find q name with
  | some fld => if fld.code = value.code then Members.store q name value.datum else q
  | none => q

/-- `PRBase::Args::uriArgs()`, lines 48-73. -/
def Args.uriArgs (a : Args) : Except Exn NTURI :=
  match Args.uriMembers a a.names with
  | none => Except.error (Exn.logic_error "uriArgs() names vs. values mis-match")
  | some arguments =>
    Except.ok
      { scheme := "", path := "",
        query := a.values.foldl (fun q p => Members.assign q p.1 p.2.1) arguments }

/-- `PRBase::_set(name, ptr, type, required)`, lines 90-104, on the member `_args`
(`none` is the null pointer): the new `_args` and the exception raised, if any. -/
def PRBase._set (_args : Option Args) (name : String) (v : Arg) (required : Bool) :
    Option Args × Option Exn :=
  let a : Args := _args.getD ⟨[], []⟩
  if (a.find name).isSome then
    (some a, some (Exn.logic_error
      ("PutBuilder can\x27t assign a second value to field \x27" ++ name ++ "\x27")))
  else
    (some ⟨mapEmplace name (v, required) a.values, a.names ++ [name]⟩, none)

/-- A sequence of `_set` calls, one after the other, whether they raise or not. -/
def PRBase.sets : Option Args → List (String × Arg × Bool) → Option Args
  | _args, [] => _args
  | _args, c :: cs => PRBase.sets (PRBase._set _args c.1 c.2.1 c.2.2).1 cs

/-- Every recorded name has a value: what `uriArgs` checks name by name. -/
def Args.wf (a : Args) : Bool := a.names.all fun n => (a.find n).isSome

/-- The `query` structure the claim describes for the arguments recorded by a
sequence of `_set` calls: one field for each call, in the order of the calls, of the
type of the user value and storing it. -/
def queryOf (calls : List (String × Arg × Bool)) : Members :=
  calls.map fun c => (c.1, ⟨c.2.1.code, some c.2.1.datum⟩)

/-! ## The builders and their `exec` -/

/-- Modelled from the spec: what `data.h` (not among the sources) provides to the
builders.  The operations handle a `Value` as type and stored data; `fields` and
`pack` pass between that and the same value seen field by field, `packURI` gives
an NTURI instance as a `Value`, and `copyIn code v` is the datum `Value::copyIn`
stores into a field of type `code` for the user value `v` (`none`: `NoConvert`). -/
structure DataApi where
  fields : Value → Members
  pack : Members → Value
  packURI : NTURI → Value
  copyIn : Nat → Arg → Option Nat

/-- `GPROp(op, chan)`: the members as their initialisers leave them. -/
def mkGPROp (op : operation_t) (chan : Nat) : GPROp :=
  { op := op, chan := chan, ioid := 0, builder := none, done := none, onInit := none,
    pvRequest := Value.empty, rpcarg := Value.empty, result := Result.default,
    getOput := false, state := state_t.Connecting }

/-- `GPROp::setDone(donecb, initcb)`, lines 137-149.  Without `donecb` the result
goes to a `ResultWaiter`, whose `complete` returns normally. -/
def setDone (o : GPROp) (donecb : Option (Result → Option Exn))
    (initcb : Option (Value → Option Exn)) : GPROp :=
  { o with onInit := initcb,
           done := some (match donecb with
             | some f => f
             | none => fun _ => none) }

/-- The end of each `exec`: `chan->pending.push_back(op); chan->createOperations();`
with the new operation `op` placed in the heap slot `slot`.  `createOperations`
(not among the sources) is a parameter. -/
def enqueue (createOperations : World → Nat → World × List Action) (w : World)
    (chan slot : Nat) (op : GPROp) : World × List Action :=
  let w1 := w.setOp slot op
  createOperations
    (w1.setChan chan { w1.chans chan with pending := (w1.chans chan).pending ++ [slot] }) chan

/-- The members of a `GetBuilder` that `_exec_get` reads: `ctx` (`false` is the null
pointer), the PV name, the callbacks, and the request `_buildReq()` yields. -/
structure GetBuilder where
  ctx : Bool
  _name : String
  _result : Option (Result → Option Exn)
  _onInit : Option (Value → Option Exn)
  _buildReq : Value

/-- The operation `GetBuilder::_exec_get` constructs (lines 507-509). -/
def GetBuilder.mkOp (b : GetBuilder) (chan : Nat) : GPROp :=
  { setDone (mkGPROp operation_t.Get chan) b._result b._onInit with pvRequest := b._buildReq }

/-- `GetBuilder::_exec_get()`, lines 496-519.  `chan` is the channel that
`Channel::build(ctx, _name)` yields and `slot` the heap slot of the new operation;
the result is the world, the actions performed, and the handle returned or the
exception raised. -/
def GetBuilder._exec_get (createOperations : World → Nat → World × List Action)
    (w : World) (b : GetBuilder) (chan slot : Nat) :
    (World × List Action) × Except Exn Nat :=
  if b.ctx = false then ((w, []), Except.error (Exn.logic_error "NULL Builder"))
  else (enqueue createOperations w chan slot (b.mkOp chan), Except.ok slot)

/-- The members of a `PutBuilder` that `exec` reads: as for `GetBuilder`, and the
builder closure, the field map `_args` (`none` is the null pointer) and `_doGet`. -/
structure PutBuilder where
  ctx : Bool
  _name : String
  _result : Option (Result → Option Exn)
  _onInit : Option (Value → Option Exn)
  _buildReq : Value
  _builder : Option (Value → Except Exn Value)
  _args : Option Args
  _doGet : Bool

/-- The operation `PutBuilder::exec` constructs (lines 534-551). -/
def PutBuilder.mkOp (api : DataApi) (b : PutBuilder) (chan : Nat) : GPROp :=
  let op := setDone (mkGPROp operation_t.Put chan) b._result b._onInit
  match b._builder, b._args with
  | some f, _ =>
    { op with builder := some f, getOput := b._doGet, pvRequest := b._buildReq }
  | none, some build =>
    -- PRBase builder doesn't use current value
    { op with builder := some fun prototype =>
                (build.build api.copyIn (api.fields prototype)).map api.pack,
              getOput := false, pvRequest := b._buildReq }
  | none, none =>
    -- handled above
    { op with getOput := b._doGet, pvRequest := b._buildReq }

/-- `PutBuilder::exec()`, lines 521-560; parameters and result as for `_exec_get`. -/
def PutBuilder.exec (api : DataApi) (createOperations : World → Nat → World × List Action)
    (w : World) (b : PutBuilder) (chan slot : Nat) :
    (World × List Action) × Except Exn Nat :=
  if b.ctx = false then ((w, []), Except.error (Exn.logic_error "NULL Builder"))
  else if b._builder.isNone ∧ b._args.isNone then
    ((w, []), Except.error
      (Exn.logic_error "put() needs either a .build() or at least one .set()"))
  else (enqueue createOperations w chan slot (b.mkOp api chan), Except.ok slot)

/-- The members of an `RPCBuilder` that `exec` reads: as for `GetBuilder`, and the
positional argument (the empty `Value` when there is none) and the field map. -/
structure RPCBuilder where
  ctx : Bool
  _name : String
  _result : Option (Result → Option Exn)
  _onInit : Option (Value → Option Exn)
  _buildReq : Value
  _argument : Value
  _args : Option Args

/-- Lines 577-582: the `rpcarg` of the new operation. -/
def RPCBuilder.rpcarg (api : DataApi) (b : RPCBuilder) : Except Exn Value :=
  if b._argument.valid then Except.ok b._argument
  else
    match b._args with
    | some a =>
      match a.uriArgs with
      | Except.ok uri => Except.ok (api.packURI { uri with path := b._name })
      | Except.error e => Except.error e
    | none => Except.ok Value.empty

/-- The operation `RPCBuilder::exec` constructs (lines 575-583), given its `rpcarg`. -/
def RPCBuilder.mkOp (b : RPCBuilder) (chan : Nat) (arg : Value) : GPROp :=
  { setDone (mkGPROp operation_t.RPC chan) b._result b._onInit with
      rpcarg := arg, pvRequest := b._buildReq }

/-- `RPCBuilder::exec()`, lines 562-592; parameters and result as for `_exec_get`.
An exception of `uriArgs` leaves the call before the operation is queued. -/
def RPCBuilder.exec (api : DataApi) (createOperations : World → Nat → World × List Action)
    (w : World) (b : RPCBuilder) (chan slot : Nat) :
    (World × List Action) × Except Exn Nat :=
  if b.ctx = false then ((w, []), Except.error (Exn.logic_error "NULL Builder"))
  else if b._args.isSome ∧ b._argument.valid then
    ((w, []), Except.error (Exn.logic_error
      "Use of rpc() with argument and builder .arg() are mutually exclusive"))
  else
    match b.rpcarg api with
    | Except.error e => ((w, []), Except.error e)
    | Except.ok arg => (enqueue createOperations w chan slot (b.mkOp chan arg), Except.ok slot)

/-- A channel that is not connected yet: `createOperations` has nothing to do. -/
def notConnected : World → Nat → World × List Action := fun w _ => (w, [])

/-- A `DataApi` for the examples: a value shows one field `value` of type `0`,
and `copyIn` converts between equal type codes only. -/
def demoApi : DataApi :=
  { fields := fun v => [("value", ⟨0, v.data.head?⟩)],
    pack := fun s => ⟨some 5, s.filterMap fun p => p.2.stored⟩,
    packURI := fun u => ⟨some 6, u.query.filterMap fun p => p.2.stored⟩,
    copyIn := fun code v => if code = v.code then some v.datum else none }

/-- Put builder for the PV `pv` with the builder closure `f`, the field map `a` and
the fetch-present setting `g`. -/
def demoPut (f : Option (Value → Except Exn Value)) (a : Option Args) (g : Bool) :
    PutBuilder :=
  { ctx := true, _name := "pv", _result := none, _onInit := none,
    _buildReq := ⟨some 0, []⟩, _builder := f, _args := a, _doGet := g }

/-- A field map: `value` (type `0`, required) set to `7`, then `a` (type `2`, not
required) set to `6`. -/
def demoCalls : List (String × Arg × Bool) := [("value", ⟨0, 7⟩, true), ("a", ⟨2, 6⟩, false)]

/-- The field map `demoCalls` leaves behind. -/
def demoArgs : Args := ⟨[("a", ⟨2, 6⟩, false), ("value", ⟨0, 7⟩, true)], ["value", "a"]⟩

/-- A server prototype with the fields `value` (type `0`) and `alarm` (type `1`). -/
def demoProto : Members := [("value", ⟨0, some 3⟩), ("alarm", ⟨1, some 4⟩)]

/-- Get builder for the PV `pv`, with or without context. -/
def demoGet (ctx : Bool) : GetBuilder :=
  { ctx := ctx, _name := "pv", _result := none, _onInit := none, _buildReq := ⟨some 0, []⟩ }

/-- RPC builder for the PV `pv` with the positional argument `arg` and the field
map `a`. -/
def demoRPC (arg : Value) (a : Option Args) : RPCBuilder :=
  { ctx := true, _name := "pv", _result := none, _onInit := none,
    _buildReq := ⟨some 0, []⟩, _argument := arg, _args := a }

/-! ## Discovery (`clientdiscover.cpp`) -/

/-- What the discovery code does that is seen from outside the context: the timer
`discoverTick` armed with an interval in seconds (`event_add`), and a search sent
(`tickSearch(true)`). -/
inductive DAction where
  | arm (secs : Nat)
  | search
  deriving DecidableEq, Repr

/-- The part of `ContextImpl` and of its `Discovery` operations that discovery
touches: the keys of the map `discoverers`, the operations whose `running` flag is
set, and `discoverAge`. -/
structure ContextImpl where
  discoverers : List Nat
  running : List Nat
  discoverAge : Nat
  deriving DecidableEq, Repr

/-- `ContextImpl::onDiscoverTick()`, lines 56-70. -/
def onDiscoverTick (c : ContextImpl) : ContextImpl × List DAction :=
  if c.discoverers.isEmpty then (c, [])
  else
    let age := if c.discoverAge < 10 then c.discoverAge + 1 else c.discoverAge
    ({ c with discoverAge := age }, [DAction.arm age, DAction.search])

/-- The function dispatched by `DiscoverBuilder::exec()` for the new operation `op`,
lines 110-122. -/
def Discovery.start (c : ContextImpl) (op : Nat) : ContextImpl × List DAction :=
  let first := c.discoverers.isEmpty
  let c1 : ContextImpl :=
    { c with discoverers := if op ∈ c.discoverers then c.discoverers
                            else c.discoverers ++ [op],
             running := if op ∈ c.running then c.running else c.running ++ [op] }
  if first then onDiscoverTick { c1 with discoverAge := 0 }
  else (c1, [])

/-- `Discovery::_cancel(implicit)`, lines 40-48: the context and the value returned. -/
def Discovery._cancel (c : ContextImpl) (op : Nat) ( _implicit : Bool) :
    ContextImpl × Bool :=
  let active := decide (op ∈ c.running)
  if active then
    ({ c with discoverers := c.discoverers.erase op, running := c.running.erase op }, active)
  else (c, active)

/-- The handle of the operation `op` dropped by the user, lines 96-105: the erase
on the worker, then `~Discovery()` with its `_cancel(true)`. -/
def Discovery.drop (c : ContextImpl) (op : Nat) : ContextImpl :=
  (Discovery._cancel { c with discoverers := c.discoverers.erase op } op true).1

/-- Modelled from the spec: the context on a clock counting seconds.  `due` is the
time at which the timer `discoverTick` expires, if it is armed; it fires once for
each time it is armed ("reschedule with interval `age` seconds").  `searches` are
the times at which a search was sent, in order. -/
structure Clocked where
  ctx : ContextImpl
  now : Nat
  due : Option Nat
  searches : List Nat
  deriving DecidableEq, Repr

/-- The actions of the context take effect at the current time. -/
def Clocked.perform (s : Clocked) : List DAction → Clocked
  | [] => s
  | DAction.arm secs :: r => Clocked.perform { s with due := some (s.now + secs) } r
  | DAction.search :: r => Clocked.perform { s with searches := s.searches ++ [s.now] } r

/-- What happens on the clocked context: a discoverer is started, cancelled, or its
handle dropped, at the current time; or time passes until the timer expires and
`onDiscoverTick` runs (nothing happens if the timer is not armed). -/
inductive DEvent where
  | start (op : Nat)
  | cancel (op : Nat)
  | drop (op : Nat)
  | fire
  deriving DecidableEq, Repr

/-- One event of the clocked context. -/
def Clocked.step (s : Clocked) : DEvent → Clocked
  | .start op =>
    let r := Discovery.start s.ctx op
    Clocked.perform { s with ctx := r.1 } r.2
  | .cancel op => { s with ctx := (Discovery._cancel s.ctx op false).1 }
  | .drop op => { s with ctx := Discovery.drop s.ctx op }
  | .fire =>
    match s.due with
    | none => s
    | some t =>
      let r := onDiscoverTick s.ctx
      Clocked.perform { s with ctx := r.1, now := t, due := none } r.2

/-- A sequence of events of the clocked context. -/
def Clocked.run (s : Clocked) : List DEvent → Clocked
  | [] => s
  | e :: es => Clocked.run (s.step e) es

/-- A context without discoverers, at time `0`, with the timer not armed. -/
def Clocked.idle (age : Nat) : Clocked :=
  { ctx := ⟨[], [], age⟩, now := 0, due := none, searches := [] }

/-- The time of the search number `k` (counted from `0`) after the first
registration: the intervals `1, 2, …, 10, 10, …` added up. -/
def searchTime (k : Nat) : Nat :=
  if k ≤ 10 then k * (k + 1) / 2 else 55 + 10 * (k - 10)

/-! ## `MPSCFIFO` (`util.h`) -/

/-- `MPSCFIFO<T>`: the deque `Q`, the limit, and the number of writers waiting. -/
structure MPSCFIFO (T : Type) where
  Q : List T
  nlimit : Nat
  nwriters : Nat

/-- `MPSCFIFO(limit)`, lines 201-206. -/
def MPSCFIFO.new (T : Type) (limit : Nat) : Except Exn (MPSCFIFO T) :=
  if limit = 0 then Except.error (Exn.invalid_argument "MPSCFIFO limit must be >0")
  else Except.ok ⟨[], limit, 0⟩

/-- `emplace(args...)`, lines 212-232, as run by one thread: `none` while the queue
is full (the caller waits on `notifyW`); else the queue with the element appended,
and whether `notifyR` is signalled. -/
def MPSCFIFO.emplace {T : Type} (q : MPSCFIFO T) (x : T) : Option (MPSCFIFO T × Bool) :=
  if q.Q.length ≥ q.nlimit then none
  else some ({ q with Q := q.Q ++ [x] }, q.Q.isEmpty)

/-- `push(ent)`, lines 235-244. -/
def MPSCFIFO.push {T : Type} (q : MPSCFIFO T) (ent : T) : Option (MPSCFIFO T × Bool) :=
  q.emplace ent

/-- `pop()`, lines 250-268, as run by one thread: `none` while the queue is empty
(the caller waits on `notifyR`); else the front element, the queue without it, and
whether `notifyW` is signalled. -/
def MPSCFIFO.pop {T : Type} (q : MPSCFIFO T) : Option (T × MPSCFIFO T × Bool) :=
  match q.Q with
  | [] => none
  | ret :: rest => some (ret, { q with Q := rest }, decide (q.nwriters ≠ 0))

/-- A call on the queue. -/
inductive QCall (T : Type) where
  | push (x : T)
  | pop

/-- A sequence of calls, each made after the one before has returned: the queue at
the end and the elements popped, in order; `none` if a call has to wait. -/
def MPSCFIFO.calls {T : Type} (q : MPSCFIFO T) : List (QCall T) → Option (MPSCFIFO T × List T)
  | [] => some (q, [])
  | QCall.push x :: r =>
    match q.push x with
    | none => none
    | some (q1, _) => MPSCFIFO.calls q1 r
  | QCall.pop :: r =>
    match q.pop with
    | none => none
    | some (x, q1, _) => (MPSCFIFO.calls q1 r).map fun p => (p.1, x :: p.2)

/-- The calls of `testFill` (`test/testutil.cpp`): `0, 1, 2, 3` pushed, four pops. -/
def testFill : List (QCall Nat) :=
  [QCall.push 0, QCall.push 1, QCall.push 2, QCall.push 3,
   QCall.pop, QCall.pop, QCall.pop, QCall.pop]

/-- A sequence of calls made by any threads, each one pass through the critical
section of `emplace` or `pop`: a call that has to wait leaves the queue as it is
(it goes through the section again, as another call, once it is woken). -/
def MPSCFIFO.attempts {T : Type} (q : MPSCFIFO T) : List (QCall T) → MPSCFIFO T
  | [] => q
  | QCall.push x :: r =>
    match q.push x with
    | none => MPSCFIFO.attempts q r
    | some (q1, _) => MPSCFIFO.attempts q1 r
  | QCall.pop :: r =>
    match q.pop with
    | none => MPSCFIFO.attempts q r
    | some (_, q1, _) => MPSCFIFO.attempts q1 r

/-- The elements pushed by a sequence of calls, in order. -/
def pushed {T : Type} : List (QCall T) → List T
  | [] => []
  | QCall.push x :: r => x :: pushed r
  | QCall.pop :: r => pushed r

/-- In a sequence of calls on a queue holding `size` elements with limit `limit`,
no push is made on a full queue and no pop on an empty one. -/
def noWait {T : Type} (limit : Nat) : Nat → List (QCall T) → Bool
  | _, [] => true
  | size, QCall.push _ :: r => decide (size < limit) && noWait limit (size + 1) r
  | size, QCall.pop :: r => decide (0 < size) && noWait limit (size - 1) r

/-! ## Further concrete operations and calls -/

/-- A PUT operation as `demoOp`, with `getOput` set, in state `st`. -/
def demoGetOPut (st : state_t) : GPROp :=
  { demoOp operation_t.Put st none with getOput := true }

/-- The field map calls `demoCalls`, then `value` set a second time. -/
def demoCallsAgain : List (String × Arg × Bool) := demoCalls ++ [("value", ⟨1, 1⟩, false)]

/-- Calls on a queue of limit `2`: the third push finds it full. -/
def overfill : List (QCall Nat) :=
  [QCall.push 1, QCall.push 2, QCall.push 3, QCall.pop, QCall.push 4]

/-! ## Theorems -/

theorem notify_state (self : Nat) (o : GPROp) : (notify self o).1.state = o.state := by
  unfold notify
  split
  · rfl
  · split
    · rfl
    · split <;> rfl

theorem notify_fields (self : Nat) (o : GPROp) :
    (notify self o).1.op = o.op ∧ (notify self o).1.getOput = o.getOput ∧
    (notify self o).1.done = o.done ∧ (notify self o).1.onInit = o.onInit := by
  unfold notify
  split
  · simp
  · split
    · simp [*]
    · split <;> simp [*]

theorem notify_acts (self : Nat) (o : GPROp) :
    (notify self o).2 =
      if o.done.isSome = true then [Action.done self o.state o.result] else [] := by
  unfold notify
  split
  · simp [*]
  · split
    · simp [*]
    · split <;> simp [*]

theorem buildPut_fields (self : Nat) (gpr : GPROp) ( info : RequestInfo) :
    (buildPut self gpr info).1.op = gpr.op ∧ (buildPut self gpr info).1.getOput = gpr.getOput ∧
    (buildPut self gpr info).1.done = gpr.done ∧
    (buildPut self gpr info).1.onInit = gpr.onInit := by
  unfold buildPut
  by_cases h : gpr.state = state_t.BuildPut
  · cases hb : gpr.builder with
    | none => simp [h]
    | some b => cases hr : b info.prototype.clone <;> simp [h, hr]
  · simp [h]

theorem buildPut_skip (self : Nat) (gpr : GPROp) ( info : RequestInfo)
    (h : gpr.state ≠ state_t.BuildPut) : buildPut self gpr info = (gpr, info, []) := by
  simp [buildPut, h]

theorem buildPut_run (self : Nat) (gpr : GPROp) ( info : RequestInfo)
    (h : gpr.state = state_t.BuildPut) :
    ((buildPut self gpr info).1.state = state_t.Exec ∨
      (buildPut self gpr info).1.state = state_t.Done) ∧
    ((buildPut self gpr info).2.2 = [] ∨
      (buildPut self gpr info).2.2 =
        [Action.builder self state_t.BuildPut info.prototype.clone]) := by
  unfold buildPut
  cases hb : gpr.builder with
  | none => simp [h]
  | some b => cases hr : b info.prototype.clone <;> simp [h, hr]

theorem callOnInit_fields (self : Nat) (gpr : GPROp) (data : Value) :
    (callOnInit self gpr data).1.op = gpr.op ∧
    (callOnInit self gpr data).1.getOput = gpr.getOput ∧
    (callOnInit self gpr data).1.done = gpr.done ∧
    (callOnInit self gpr data).1.onInit = gpr.onInit ∧
    ((callOnInit self gpr data).2 = [] ∨
      (callOnInit self gpr data).2 = [Action.onInit self gpr.state data]) := by
  unfold callOnInit
  split
  · simp
  · split <;> simp [*]

theorem checkState_true (gpr : GPROp) (cmd : Nat) (hd : Header)
    (h : checkState gpr cmd hd = true) :
    gpr.op.toByte = cmd ∧
    ((gpr.state = state_t.Creating ∧ hd.init = true) ∨
     (gpr.state = state_t.GetOPut ∧ hd.init = false ∧ hd.get = true) ∨
     (gpr.state = state_t.Exec ∧ hd.init = false ∧ hd.get = false)) := by
  unfold checkState at h
  split_ifs at h with h1 h2 h3 h4
  · exact ⟨not_not.mp h1, Or.inl h2⟩
  · exact ⟨not_not.mp h1, Or.inr (Or.inl h3)⟩
  · exact ⟨not_not.mp h1, Or.inr (Or.inr h4)⟩

theorem advance_spec (self cmd : Nat) (hd : Header) (peer : String) (gpr gpr1 : GPROp)
    ( info info2 : RequestInfo) (data : Value) (a1 : List Action)
    (hcs : checkState gpr cmd hd = true)
    (hadv : advance self cmd hd peer gpr info data = some (gpr1, info2, a1)) :
    gpr1.op = gpr.op ∧ gpr1.getOput = gpr.getOput ∧ gpr1.done = gpr.done ∧
    gpr1.onInit = gpr.onInit ∧
    (gpr1.state = state_t.GetOPut ∨ gpr1.state = state_t.BuildPut ∨
      gpr1.state = state_t.Exec ∨ gpr1.state = state_t.Done) ∧
    (gpr.state = state_t.Exec → gpr1.state = state_t.Done) ∧
    (a1 = [] ∨ (a1 = [Action.onInit self state_t.Creating data] ∧
      gpr.state = state_t.Creating ∧ hd.init = true ∧ hd.sts.isSuccess = true)) := by
  obtain ⟨_, hstate⟩ := checkState_true gpr cmd hd hcs
  unfold advance at hadv
  by_cases hs : hd.sts.isSuccess = true
  · simp only [hs, Bool.true_eq_false, if_false] at hadv
    rcases hstate with ⟨hst, hi⟩ | ⟨hst, _, _⟩ | ⟨hst, _, _⟩
    · simp only [hst, if_true, Option.some.injEq, Prod.mk.injEq] at hadv
      obtain ⟨rfl, rfl, rfl⟩ := hadv
      obtain ⟨h1, h2, h3, h4, h5⟩ := callOnInit_fields self gpr data
      refine ⟨h1, h2, h3, h4, ?_, ?_, ?_⟩
      · simp only []
        split_ifs <;> simp
      · simp [hst]
      · rcases h5 with h5 | h5
        · exact Or.inl h5
        · right
          rw [hst] at h5
          exact ⟨h5, hst, hi, hs⟩
    · simp [hst] at hadv
      obtain ⟨rfl, rfl, rfl⟩ := hadv
      simp [hst]
    · simp [hst] at hadv
      obtain ⟨rfl, rfl, rfl⟩ := hadv
      simp [hst]
  · have hs2 : hd.sts.isSuccess = false := by simpa using hs
    simp only [hs2, if_true, Option.some.injEq, Prod.mk.injEq] at hadv
    obtain ⟨rfl, rfl, rfl⟩ := hadv
    simp

theorem advance_isSome (self cmd : Nat) (hd : Header) (peer : String) (gpr : GPROp)
    ( info : RequestInfo) (data : Value) (hcs : checkState gpr cmd hd = true) :
    ∃ r, advance self cmd hd peer gpr info data = some r := by
  obtain ⟨_, hstate⟩ := checkState_true gpr cmd hd hcs
  unfold advance
  rcases hstate with ⟨hst, _⟩ | ⟨hst, _, _⟩ | ⟨hst, _, _⟩ <;>
    by_cases hs : hd.sts.isSuccess = false <;> simp [hst, hs]


theorem toByte_put (k : operation_t) (h : k.toByte = CMD_PUT) : k = operation_t.Put := by
  cases k
  · exact absurd h (by decide)
  · rfl
  · exact absurd h (by decide)

theorem advance_enters_getOPut (self cmd : Nat) (hd : Header) (peer : String)
    (gpr gpr1 : GPROp) ( info info2 : RequestInfo) (data : Value) (a1 : List Action)
    (hcs : checkState gpr cmd hd = true)
    (hadv : advance self cmd hd peer gpr info data = some (gpr1, info2, a1))
    (hg : gpr1.state = state_t.GetOPut) :
    gpr.state = state_t.Creating ∧ gpr.op = operation_t.Put ∧ gpr.getOput = true := by
  obtain ⟨hop, hstate⟩ := checkState_true gpr cmd hd hcs
  obtain ⟨_, c2, _, _, _⟩ := callOnInit_fields self gpr data
  unfold advance at hadv
  by_cases hs : hd.sts.isSuccess = false
  · simp only [hs, if_true, Option.some.injEq, Prod.mk.injEq] at hadv
    obtain ⟨rfl, _, _⟩ := hadv
    cases hg
  · simp only [hs, if_false] at hadv
    rcases hstate with ⟨hst, _⟩ | ⟨hst, _, _⟩ | ⟨hst, _, _⟩
    · simp only [hst, if_true, Option.some.injEq, Prod.mk.injEq] at hadv
      obtain ⟨rfl, _, _⟩ := hadv
      simp only at hg
      split_ifs at hg with h1
      rw [c2] at h1
      refine ⟨hst, toByte_put gpr.op (hop.trans h1.1), h1.2⟩
    · simp [hst] at hadv
      obtain ⟨rfl, _, _⟩ := hadv
      cases hg
    · simp [hst] at hadv
      obtain ⟨rfl, _, _⟩ := hadv
      cases hg

theorem act_ops (w : World) (self cmd ioid : Nat) (gpr : GPROp) ( info : RequestInfo) :
    (act w self cmd ioid gpr info).1.ops = Function.update w.ops self
      (some (if gpr.state = state_t.Done then (notify self gpr).1 else gpr)) := by
  unfold act
  by_cases h : gpr.state = state_t.Done <;> simp [h, World.setOp, World.setChan]

theorem act_acts (w : World) (self cmd ioid : Nat) (gpr : GPROp) ( info : RequestInfo) :
    (act w self cmd ioid gpr info).2 =
      Action.send self (if gpr.state = state_t.Done then CMD_DESTROY_REQUEST else cmd)
        (txBodyFor (w.chans gpr.chan).sid ioid cmd gpr info) ::
      (if gpr.state = state_t.Done then (notify self gpr).2 else []) := by
  unfold act
  by_cases h : gpr.state = state_t.Done <;> simp [h]

theorem gpr_opTrans (cmd : Nat) (m : Reply) (hd : Header) (h : Nat) (gpr gpr1 : GPROp)
    ( info info2 : RequestInfo) (data : Value) (a1 : List Action) (peer : String)
    (frame : List Wire)
    (hm : m.header = some hd) (hcs : checkState gpr cmd hd = true)
    (hadv : advance h cmd hd peer gpr info data = some (gpr1, info2, a1)) :
    OpTrans (Event.reply cmd m) h gpr
      (if (buildPut h gpr1 info2).1.state = state_t.Done
        then (notify h (buildPut h gpr1 info2).1).1 else (buildPut h gpr1 info2).1)
      (a1 ++ (buildPut h gpr1 info2).2.2 ++
        (Action.send h (if (buildPut h gpr1 info2).1.state = state_t.Done
            then CMD_DESTROY_REQUEST else cmd) frame ::
          (if (buildPut h gpr1 info2).1.state = state_t.Done
            then (notify h (buildPut h gpr1 info2).1).2 else []))) := by
  obtain ⟨hk, hg, hdn, hoi, hst1, hex, ha1⟩ := advance_spec h cmd hd peer gpr gpr1 info info2 data a1 hcs hadv
  obtain ⟨_, hstate⟩ := checkState_true gpr cmd hd hcs
  obtain ⟨bk, bg, bd, bo⟩ := buildPut_fields h gpr1 info2
  have hb : ((buildPut h gpr1 info2).1.state = state_t.GetOPut ∨
      (buildPut h gpr1 info2).1.state = state_t.Exec ∨
      (buildPut h gpr1 info2).1.state = state_t.Done) ∧
      (gpr.state = state_t.Exec → (buildPut h gpr1 info2).1.state = state_t.Done) ∧
      ((buildPut h gpr1 info2).2.2 = [] ∨ (buildPut h gpr1 info2).2.2 =
        [Action.builder h state_t.BuildPut info2.prototype.clone]) := by
    by_cases hbp : gpr1.state = state_t.BuildPut
    · obtain ⟨h1, h2⟩ := buildPut_run h gpr1 info2 hbp
      refine ⟨Or.inr h1, ?_, h2⟩
      intro he
      rw [hex he] at hbp
      cases hbp
    · rw [buildPut_skip h gpr1 info2 hbp]
      refine ⟨?_, hex, Or.inl rfl⟩
      rcases hst1 with h1 | h1 | h1 | h1
      · exact Or.inl h1
      · exact absurd h1 hbp
      · exact Or.inr (Or.inl h1)
      · exact Or.inr (Or.inr h1)
  obtain ⟨hbs, hbe, hba⟩ := hb
  have hgo : (buildPut h gpr1 info2).1.state = state_t.GetOPut →
      gpr.op = operation_t.Put ∧ gpr.getOput = true := by
    intro hgs
    by_cases hbp : gpr1.state = state_t.BuildPut
    · rcases (buildPut_run h gpr1 info2 hbp).1 with h1 | h1 <;> rw [h1] at hgs <;> cases hgs
    · rw [buildPut_skip h gpr1 info2 hbp] at hgs
      exact (advance_enters_getOPut h cmd hd peer gpr gpr1 info info2 data a1 hcs hadv hgs).2
  obtain ⟨nk, ng, nd, no⟩ := notify_fields h (buildPut h gpr1 info2).1
  have ns := notify_state h (buildPut h gpr1 info2).1
  have na := notify_acts h (buildPut h gpr1 info2).1
  generalize buildPut h gpr1 info2 = B at *
  generalize notify h B.1 = N at *
  have hnd : gpr.state ≠ state_t.Done := by
    rcases hstate with ⟨hs, _⟩ | ⟨hs, _⟩ | ⟨hs, _⟩ <;> simp [hs]
  have hdk : B.1.done = gpr.done := by rw [bd, hdn]
  by_cases hfin : B.1.state = state_t.Done
  · simp only [hfin, if_true] at na ⊢
    rw [na]
    have hns : N.1.state = state_t.Done := by rw [ns, hfin]
    refine ⟨by rw [nk, bk, hk], by rw [ng, bg, hg], Or.inl (by rw [nd, bd, hdn]),
      ?_, ?_, ?_, ?_, ?_, ?_, ?_, ?_, ?_, fun _ => by simp [hns],
      fun _ hgs => by rw [hns] at hgs; cases hgs⟩
    all_goals
      rcases ha1 with rfl | ⟨rfl, hcr, hin, hsu⟩ <;> rcases hba with hba | hba <;> rw [hba] <;>
      cases hdd : gpr.done <;>
      simp [doneCount, onInitCount, initSendCount, Action.isInitSend, Action.opOf,
        Action.isCallbackOf, hnd, hns, hdk, hdd]
    all_goals first | exact ⟨hcr, cmd, m, ⟨rfl, rfl⟩, hd, hm, hin, hsu⟩ | (rw [if_pos hcr]; omega)
  · simp only [hfin, if_false]
    have hbs2 : B.1.state = state_t.GetOPut ∨ B.1.state = state_t.Exec := by
      rcases hbs with h1 | h1 | h1
      · exact Or.inl h1
      · exact Or.inr h1
      · exact absurd h1 hfin
    have hne : gpr.state ≠ state_t.Exec := fun he => hfin (hbe he)
    have hnc : B.1.state ≠ state_t.Creating := by
      rcases hbs2 with h1 | h1 <;> simp [h1]
    have hnb : B.1.state ≠ state_t.BuildPut := by
      rcases hbs2 with h1 | h1 <;> simp [h1]
    refine ⟨by rw [bk, hk], by rw [bg, hg], Or.inl (by rw [bd, hdn]),
      ?_, ?_, ?_, ?_, ?_, ?_, ?_, ?_, ?_, fun _ => hnb,
      fun _ hgs => by rw [bk, hk, bg, hg]; exact hgo hgs⟩
    all_goals
      rcases ha1 with rfl | ⟨rfl, hcr, hin, hsu⟩ <;> rcases hba with hba | hba <;> rw [hba] <;>
      simp [doneCount, onInitCount, initSendCount, Action.isInitSend, Action.opOf,
        Action.isCallbackOf, hnd, hfin, hne, hnc]
    all_goals first | exact ⟨hcr, cmd, m, ⟨rfl, rfl⟩, hd, hm, hin, hsu⟩ | (rw [if_pos hcr]; omega)


theorem readHead_header (cmd : Nat) (m : Reply) (hd : Header) (data : Value)
    (h : readHead cmd m = some (hd, data)) : m.header = some hd := by
  unfold readHead at h
  cases hh : m.header with
  | none => simp [hh] at h
  | some hd0 =>
    simp only [hh] at h
    split_ifs at h
    · cases ht : m.wireType <;> simp [ht] at h
      rw [h.1]
    · cases ht : m.wireType with
      | none => simp [ht] at h
      | some d =>
        simp only [ht] at h
        split_ifs at h
        · cases hf : m.wireFull d <;> simp [hf] at h
          rw [h.1]
        · simp at h
          rw [h.1]
    · simp at h
      rw [h.1]

theorem readData_handle (cmd : Nat) (hd : Header) (m : Reply) ( info info1 : RequestInfo)
    (data data1 : Value) (h : readData cmd hd m info data = some (info1, data1)) :
    info1.handle = info.handle := by
  unfold readData at h
  split_ifs at h
  · simp only [Option.some.injEq, Prod.mk.injEq] at h
    rw [← h.1]
  · by_cases hvld : info.prototype.cloneEmpty.valid = true
    · cases hv : m.wireValid info.prototype.cloneEmpty with
      | none => simp [hvld, hv] at h
      | some d =>
        simp only [hvld, hv, if_true, Option.map_some', Option.some.injEq, Prod.mk.injEq] at h
        rw [← h.1]
    · simp only [hvld, if_false, Bool.false_eq_true, Option.some.injEq, Prod.mk.injEq] at h
      rw [← h.1]
  · simp only [Option.some.injEq, Prod.mk.injEq] at h
    rw [← h.1]

theorem reply_char (w : World) (cmd : Nat) (m : Reply) :
    ((handle_GPR w cmd m).1.ops = w.ops ∧ ∀ a ∈ (handle_GPR w cmd m).2, a.opOf = none) ∨
    ∃ h o o', w.ops h = some o ∧
      (handle_GPR w cmd m).1.ops = Function.update w.ops h (some o') ∧
      OpTrans (Event.reply cmd m) h o o' (handle_GPR w cmd m).2 := by
  unfold handle_GPR
  cases hrh : readHead cmd m with
  | none => left; simp [dropConn, Action.opOf]
  | some p =>
    obtain ⟨hd, data⟩ := p
    have hm := readHead_header cmd m hd data hrh
    cases hinfo : w.conn.opByIOID hd.ioid with
    | none => left; simp [hinfo]
    | some info0 =>
      cases hrd : readData cmd hd m info0 data with
      | none => left; simp [hinfo, hrd, dropConn, Action.opOf]
      | some q =>
        obtain ⟨info1, data1⟩ := q
        cases hop : w.ops info1.handle with
        | none => left; simp [hinfo, hrd, hop]
        | some gpr =>
          by_cases hcs : checkState gpr cmd hd = true
          · obtain ⟨r, hr⟩ := advance_isSome info1.handle cmd hd w.conn.peerName gpr info1 data1 hcs
            obtain ⟨gpr1, info2, a1⟩ := r
            right
            refine ⟨info1.handle, gpr,
              (if (buildPut info1.handle gpr1 info2).1.state = state_t.Done
                then (notify info1.handle (buildPut info1.handle gpr1 info2).1).1
                else (buildPut info1.handle gpr1 info2).1), hop, ?_, ?_⟩
            · simp [hinfo, hrd, hop, hcs, hr, act_ops]
            · simp only [hinfo, hrd, hop, hcs, hr, act_acts, Bool.true_eq_false, if_false]
              exact gpr_opTrans cmd m hd info1.handle gpr gpr1 info1 info2 data1 a1 _ _ hm hcs hr
          · left
            have hcs2 : checkState gpr cmd hd = false := by simpa using hcs
            simp [hinfo, hrd, hop, hcs2, dropConn, Action.opOf]


theorem createOp_char (w : World) (i : Nat) :
    ((createOp w i).1.ops = w.ops ∧ ∀ a ∈ (createOp w i).2, a.opOf = none) ∨
    ∃ h o o', w.ops h = some o ∧ (createOp w i).1.ops = Function.update w.ops h (some o') ∧
      OpTrans (Event.createOp i) h o o' (createOp w i).2 := by
  unfold createOp
  cases ho : w.ops i with
  | none => simp
  | some o =>
    by_cases hs : o.state = state_t.Connecting
    · right
      refine ⟨i, o, { o with state := state_t.Creating }, ho, ?_, ?_⟩
      · simp [hs, World.setOp]
      · simp only [hs, ne_eq, not_true_eq_false, if_false]
        constructor <;> simp [hs, doneCount, onInitCount, initSendCount, Action.isInitSend,
          Action.opOf, Action.isCallbackOf]
    · simp [hs]

theorem register_char (w : World) (i ioid : Nat) :
    ((register w i ioid).1.ops = w.ops ∧ ∀ a ∈ (register w i ioid).2, a.opOf = none) ∨
    ∃ h o o', w.ops h = some o ∧
      (register w i ioid).1.ops = Function.update w.ops h (some o') ∧
      OpTrans (Event.register i ioid) h o o' (register w i ioid).2 := by
  unfold register
  cases ho : w.ops i with
  | none => simp
  | some o =>
    right
    refine ⟨i, o, { o with ioid := ioid }, ho, ?_, ?_⟩
    · simp [World.setOp, World.setChan]
    · constructor <;> simp [doneCount, onInitCount, initSendCount] <;> tauto

theorem fail_opTrans (e : Event) (h : Nat) (o : GPROp) (R : Result)
    (hnd : o.state ≠ state_t.Done) :
    OpTrans e h o (notify h { o with state := state_t.Done, result := R }).1
      (notify h { o with state := state_t.Done, result := R }).2 := by
  obtain ⟨nk, ng, nd, no⟩ := notify_fields h { o with state := state_t.Done, result := R }
  have ns := notify_state h { o with state := state_t.Done, result := R }
  have na := notify_acts h { o with state := state_t.Done, result := R }
  generalize notify h { o with state := state_t.Done, result := R } = N at *
  simp only at nk ng nd no ns na
  rw [na]
  refine ⟨nk, ng, Or.inl nd, ?_, ?_, ?_, ?_, ?_, ?_, ?_, ?_, ?_, fun _ => by simp [ns],
    fun _ hg => by rw [ns] at hg; cases hg⟩
  all_goals
    cases hdd : o.done <;>
    simp [doneCount, onInitCount, initSendCount, Action.isInitSend, Action.opOf,
      Action.isCallbackOf, hnd, ns]

theorem disconnected_char (w : World) (i : Nat) :
    ((disconnected w i).1.ops = w.ops ∧ ∀ a ∈ (disconnected w i).2, a.opOf = none) ∨
    ∃ h o o', w.ops h = some o ∧
      (disconnected w i).1.ops = Function.update w.ops h (some o') ∧
      OpTrans (Event.disconnected i) h o o' (disconnected w i).2 := by
  unfold disconnected
  cases ho : w.ops i with
  | none => simp
  | some o =>
    by_cases h1 : o.state = state_t.Connecting ∨ o.state = state_t.Done
    · simp [h1]
    · have hnd : o.state ≠ state_t.Done := fun hc => h1 (Or.inr hc)
      have hnc : o.state ≠ state_t.Connecting := fun hc => h1 (Or.inl hc)
      right
      by_cases h2 : o.state = state_t.Creating ∨ o.state = state_t.GetOPut ∨
          (o.state = state_t.Exec ∧ o.op = operation_t.Get)
      · refine ⟨i, o, { o with state := state_t.Connecting }, ho, ?_, ?_⟩
        · simp [h1, h2, World.setOp, World.setChan]
        · simp only [h1, h2, if_true, if_false]
          constructor <;> simp [hnd, doneCount, onInitCount, initSendCount]
          intro he
          rcases h2 with h | h | ⟨_, h⟩
          · rw [he] at h
            cases h
          · rw [he] at h
            cases h
          · exact h
      · by_cases h3 : o.state = state_t.Exec
        · dsimp only
          rw [if_neg h1, if_neg h2, if_pos h3]
          exact ⟨i, o, _, ho, rfl, fail_opTrans _ i o (Result.ofError Exn.Disconnect) hnd⟩
        · dsimp only
          rw [if_neg h1, if_neg h2, if_neg h3]
          exact ⟨i, o, _, ho, rfl, fail_opTrans _ i o
            (Result.ofError (Exn.logic_error "GPR Disconnect in unexpected state")) hnd⟩


theorem _cancel_ops (w : World) (i : Nat) ( implicit : Bool) (o : GPROp)
    (ho : w.ops i = some o) :
    (_cancel w i implicit).1.1.ops =
      Function.update w.ops i (some { o with state := state_t.Done }) := by
  unfold _cancel
  simp only [ho]
  split_ifs <;> simp [World.setOp, World.setChan]

theorem _cancel_acts (w : World) (i : Nat) ( implicit : Bool) (o : GPROp)
    (ho : w.ops i = some o) :
    (_cancel w i implicit).1.2 =
      if o.state = state_t.GetOPut ∨ o.state = state_t.Exec then
        [Action.send i CMD_DESTROY_REQUEST [Wire.u32 (w.chans o.chan).sid, Wire.u32 o.ioid]]
      else [] := by
  unfold _cancel
  simp only [ho, sendDestroyRequest]

theorem _cancel_none (w : World) (i : Nat) ( implicit : Bool) (ho : w.ops i = none) :
    _cancel w i implicit = ((w, []), false) := by
  unfold _cancel
  simp only [ho]

theorem cancel_opTrans (e : Event) (i : Nat) (o o' : GPROp) (acts : List Action)
    (he : e = Event.cancel i ∨ e = Event.implicitCancel i)
    (hk : o'.op = o.op) (hg : o'.getOput = o.getOput) (hs : o'.state = state_t.Done)
    (hr : o'.result = o.result)
    (hd : o'.done = o.done ∨ (e = Event.cancel i ∧ o'.done = none))
    (ha : acts = [] ∨ ((o.state = state_t.GetOPut ∨ o.state = state_t.Exec) ∧
      ∃ body, acts = [Action.send i CMD_DESTROY_REQUEST body])) :
    OpTrans e i o o' acts := by
  refine ⟨hk, hg, hd, ?_, ?_, ?_, ?_, ?_, ?_, ?_, ?_, ?_, fun _ => by simp [hs],
    fun _ hg => by rw [hs] at hg; cases hg⟩
  all_goals
    rcases ha with rfl | ⟨hst, body, rfl⟩ <;>
    simp [doneCount, onInitCount, initSendCount, Action.isInitSend, Action.opOf,
      Action.isCallbackOf, hs, hr]
  all_goals first
    | (intro hc; rcases hst with h | h <;> rw [hc] at h <;> cases h)
    | (intro _ _ h1
       rcases he with rfl | rfl
       · exact absurd rfl h1
       · rfl)

theorem implicitCancel_char (w : World) (i : Nat) :
    ((_cancel w i true).1.1.ops = w.ops ∧ ∀ a ∈ (_cancel w i true).1.2, a.opOf = none) ∨
    ∃ h o o', w.ops h = some o ∧
      (_cancel w i true).1.1.ops = Function.update w.ops h (some o') ∧
      OpTrans (Event.implicitCancel i) h o o' (_cancel w i true).1.2 := by
  cases ho : w.ops i with
  | none => left; simp [_cancel_none w i true ho]
  | some o =>
    right
    refine ⟨i, o, _, ho, _cancel_ops w i true o ho, ?_⟩
    rw [_cancel_acts w i true o ho]
    refine cancel_opTrans (Event.implicitCancel i) i o { o with state := state_t.Done } _
      (Or.inr rfl) rfl rfl rfl rfl (Or.inl rfl) ?_
    split_ifs with hc
    · exact Or.inr ⟨hc, _, rfl⟩
    · exact Or.inl rfl

theorem cancel_char (w : World) (i : Nat) :
    ((cancel w i).1.1.ops = w.ops ∧ ∀ a ∈ (cancel w i).1.2, a.opOf = none) ∨
    ∃ h o o', w.ops h = some o ∧
      (cancel w i).1.1.ops = Function.update w.ops h (some o') ∧
      OpTrans (Event.cancel i) h o o' (cancel w i).1.2 := by
  unfold cancel
  cases ho : w.ops i with
  | none => left; simp [_cancel_none w i false ho, ho]
  | some o =>
    right
    have h1 := _cancel_ops w i false o ho
    have h2 := _cancel_acts w i false o ho
    refine ⟨i, o, { o with state := state_t.Done, done := none, onInit := none }, ho, ?_, ?_⟩
    · simp [h1, World.setOp]
    · simp only [h1, Function.update_same]
      rw [h2]
      refine cancel_opTrans (Event.cancel i) i o
        { o with state := state_t.Done, done := none, onInit := none } _
        (Or.inl rfl) rfl rfl rfl rfl (Or.inr ⟨rfl, rfl⟩) ?_
      split_ifs with hc
      · exact Or.inr ⟨hc, _, rfl⟩
      · exact Or.inl rfl

theorem step_char (w : World) (e : Event) :
    ((step w e).1.ops = w.ops ∧ ∀ a ∈ (step w e).2, a.opOf = none) ∨
    ∃ h o o', w.ops h = some o ∧ (step w e).1.ops = Function.update w.ops h (some o') ∧
      OpTrans e h o o' (step w e).2 := by
  cases e with
  | register i ioid => exact register_char w i ioid
  | createOp i => exact createOp_char w i
  | reply cmd m => exact reply_char w cmd m
  | disconnected i => exact disconnected_char w i
  | cancel i => exact cancel_char w i
  | implicitCancel i => exact implicitCancel_char w i


/-! ### One operation across a step -/

theorem step_none (w : World) (e : Event) (i : Nat) (hi : w.ops i = none) :
    (step w e).1.ops i = none ∧ ∀ a ∈ (step w e).2, a.opOf ≠ some i := by
  rcases step_char w e with ⟨h1, h2⟩ | ⟨h, o, o', ho, h1, ht⟩
  · refine ⟨by rw [h1, hi], ?_⟩
    intro a ha
    rw [h2 a ha]
    simp
  · have hne : i ≠ h := by
      intro hc
      rw [hc, ho] at hi
      cases hi
    refine ⟨by rw [h1, Function.update_noteq hne, hi], ?_⟩
    intro a ha
    rcases ht.tagged a ha with h3 | h3 <;> rw [h3]
    · simp
    · simpa using fun hc => hne hc.symm

theorem step_some (w : World) (e : Event) (i : Nat) (o : GPROp) (hi : w.ops i = some o) :
    ∃ o', (step w e).1.ops i = some o' ∧
      ((o' = o ∧ ∀ a ∈ (step w e).2, a.opOf ≠ some i) ∨ OpTrans e i o o' (step w e).2) := by
  rcases step_char w e with ⟨h1, h2⟩ | ⟨h, oh, oh', ho, h1, ht⟩
  · refine ⟨o, by rw [h1, hi], Or.inl ⟨rfl, ?_⟩⟩
    intro a ha
    rw [h2 a ha]
    simp
  · by_cases hne : i = h
    · subst hne
      rw [hi] at ho
      cases ho
      exact ⟨oh', by rw [h1, Function.update_same], Or.inr ht⟩
    · refine ⟨o, by rw [h1, Function.update_noteq hne, hi], Or.inl ⟨rfl, ?_⟩⟩
      intro a ha
      rcases ht.tagged a ha with h3 | h3 <;> rw [h3]
      · simp
      · simpa using fun hc => hne hc.symm

/-! ### Counting actions -/

theorem doneCount_append (i : Nat) (l1 l2 : List Action) :
    doneCount i (l1 ++ l2) = doneCount i l1 + doneCount i l2 := by
  simp [doneCount]

theorem onInitCount_append (i : Nat) (l1 l2 : List Action) :
    onInitCount i (l1 ++ l2) = onInitCount i l1 + onInitCount i l2 := by
  simp [onInitCount]

theorem initSendCount_append (i : Nat) (l1 l2 : List Action) :
    initSendCount i (l1 ++ l2) = initSendCount i l1 + initSendCount i l2 := by
  simp [initSendCount]

theorem isCallbackOf_of_opOf (i : Nat) (a : Action) (h : a.opOf ≠ some i) :
    a.isCallbackOf i = false := by
  cases a <;> simp [Action.opOf, Action.isCallbackOf] at h ⊢ <;> exact h

theorem doneCount_untagged (i : Nat) (l : List Action) (h : ∀ a ∈ l, a.opOf ≠ some i) :
    doneCount i l = 0 := by
  unfold doneCount
  rw [List.length_eq_zero, List.filter_eq_nil_iff]
  intro a ha
  have := h a ha
  cases a <;> simp [Action.opOf] at this ⊢
  exact this

theorem onInitCount_untagged (i : Nat) (l : List Action) (h : ∀ a ∈ l, a.opOf ≠ some i) :
    onInitCount i l = 0 := by
  unfold onInitCount
  rw [List.length_eq_zero, List.filter_eq_nil_iff]
  intro a ha
  have := h a ha
  cases a <;> simp [Action.opOf] at this ⊢
  exact this

theorem initSendCount_untagged (i : Nat) (l : List Action) (h : ∀ a ∈ l, a.opOf ≠ some i) :
    initSendCount i l = 0 := by
  unfold initSendCount
  rw [List.length_eq_zero, List.filter_eq_nil_iff]
  intro a ha
  have := h a ha
  cases a <;> simp [Action.opOf, Action.isInitSend] at this ⊢
  intro hc
  exact absurd hc this

theorem doneCount_pos (i : Nat) (l : List Action) (h : 0 < doneCount i l) :
    ∃ st r, Action.done i st r ∈ l := by
  unfold doneCount at h
  rw [List.length_pos_iff_exists_mem] at h
  obtain ⟨a, ha⟩ := h
  rw [List.mem_filter] at ha
  obtain ⟨ha1, ha2⟩ := ha
  cases a <;> simp at ha2
  subst ha2
  exact ⟨_, _, ha1⟩

/-! ### Runs -/

theorem run_nil (w : World) : run w [] = (w, []) := rfl

theorem run_cons (w : World) (e : Event) (es : List Event) :
    run w (e :: es) = ((run (step w e).1 es).1, (step w e).2 ++ (run (step w e).1 es).2) := rfl

/-- From `Done` (or for a slot without operation) nothing is ever done for the
operation again, and it stays as it is. -/
theorem run_done (i : Nat) (es : List Event) (w : World)
    (h : ∀ o, w.ops i = some o → o.state = state_t.Done) :
    (∀ o, (run w es).1.ops i = some o → o.state = state_t.Done) ∧
    (run w es).1.resultOf i = w.resultOf i ∧
    ∀ a ∈ (run w es).2, a.opOf ≠ some i := by
  induction es generalizing w with
  | nil => exact ⟨h, rfl, by simp [run_nil]⟩
  | cons e es ih =>
    rw [run_cons]
    have key : (∀ o, (step w e).1.ops i = some o → o.state = state_t.Done) ∧
        (step w e).1.resultOf i = w.resultOf i ∧ ∀ a ∈ (step w e).2, a.opOf ≠ some i := by
      cases hi : w.ops i with
      | none =>
        obtain ⟨h1, h2⟩ := step_none w e i hi
        refine ⟨?_, ?_, h2⟩
        · intro o ho
          rw [h1] at ho
          cases ho
        · simp [World.resultOf, h1, hi]
      | some o =>
        obtain ⟨o', h1, h2⟩ := step_some w e i o hi
        rcases h2 with ⟨rfl, h2⟩ | ht
        · refine ⟨?_, ?_, h2⟩
          · intro o2 ho2
            rw [h1] at ho2
            cases ho2
            exact h _ hi
          · simp [World.resultOf, h1, hi]
        · obtain ⟨a1, a2, a3⟩ := ht.absorb (h o hi)
          refine ⟨?_, ?_, ?_⟩
          · intro o2 ho2
            rw [h1] at ho2
            cases ho2
            exact a1
          · simp [World.resultOf, h1, hi, a2]
          · rw [a3]
            simp
    obtain ⟨k1, k2, k3⟩ := key
    obtain ⟨j1, j2, j3⟩ := ih (step w e).1 k1
    refine ⟨j1, by rw [j2, k2], ?_⟩
    intro a ha
    rcases List.mem_append.mp ha with ha | ha
    · exact k3 a ha
    · exact j3 a ha


theorem step_done_info (w : World) (e : Event) (i : Nat) :
    doneCount i (step w e).2 ≤ 1 ∧
    ∀ st r, Action.done i st r ∈ (step w e).2 →
      st = state_t.Done ∧ ∀ o, (step w e).1.ops i = some o → o.state = state_t.Done := by
  cases hi : w.ops i with
  | none =>
    obtain ⟨_, h2⟩ := step_none w e i hi
    refine ⟨by rw [doneCount_untagged i _ h2]; exact Nat.zero_le 1, ?_⟩
    intro st r hm
    exact absurd rfl (h2 _ hm)
  | some o =>
    obtain ⟨o', h1, h2⟩ := step_some w e i o hi
    rcases h2 with ⟨_, h2⟩ | ht
    · refine ⟨by rw [doneCount_untagged i _ h2]; exact Nat.zero_le 1, ?_⟩
      intro st r hm
      exact absurd rfl (h2 _ hm)
    · refine ⟨ht.done_le, ?_⟩
      intro st r hm
      obtain ⟨d1, _, d3⟩ := ht.done_mem st r hm
      refine ⟨d1, ?_⟩
      intro o2 ho2
      rw [h1] at ho2
      cases ho2
      exact d3

theorem run_done_le (i : Nat) (es : List Event) (w : World) :
    doneCount i (run w es).2 ≤ 1 ∧
    ∀ st r, Action.done i st r ∈ (run w es).2 → st = state_t.Done := by
  induction es generalizing w with
  | nil => simp [run_nil, doneCount]
  | cons e es ih =>
    rw [run_cons]
    obtain ⟨s1, s2⟩ := step_done_info w e i
    obtain ⟨j1, j2⟩ := ih (step w e).1
    constructor
    · rw [doneCount_append]
      by_cases hz : doneCount i (step w e).2 = 0
      · omega
      · obtain ⟨st, r, hm⟩ := doneCount_pos i _ (Nat.pos_of_ne_zero hz)
        obtain ⟨_, _, k3⟩ := run_done i es (step w e).1 (s2 st r hm).2
        rw [doneCount_untagged i _ k3]
        omega
    · intro st r hm
      rcases List.mem_append.mp hm with hm | hm
      · exact (s2 st r hm).1
      · exact j2 st r hm

theorem run_write (i : Nat) (es : List Event) (w : World) (o : GPROp)
    (ho : w.ops i = some o) (hst : o.state = state_t.Exec ∨ o.state = state_t.Done)
    (hk : o.op ≠ operation_t.Get) :
    (∃ o', (run w es).1.ops i = some o' ∧
      (o'.state = state_t.Exec ∨ o'.state = state_t.Done) ∧ o'.op = o.op) ∧
    ∀ cmd body, Action.send i cmd body ∈ (run w es).2 → cmd = CMD_DESTROY_REQUEST := by
  induction es generalizing w o with
  | nil => exact ⟨⟨o, ho, hst, rfl⟩, by simp [run_nil]⟩
  | cons e es ih =>
    rw [run_cons]
    obtain ⟨o', h1, h2⟩ := step_some w e i o ho
    have key : (o'.state = state_t.Exec ∨ o'.state = state_t.Done) ∧ o'.op = o.op ∧
        ∀ cmd body, Action.send i cmd body ∈ (step w e).2 → cmd = CMD_DESTROY_REQUEST := by
      rcases h2 with ⟨rfl, h2⟩ | ht
      · refine ⟨hst, rfl, ?_⟩
        intro cmd body hm
        exact absurd rfl (h2 _ hm)
      · rcases hst with hs | hs
        · obtain ⟨w1, w2⟩ := ht.write hs hk
          exact ⟨w1, ht.kind, w2⟩
        · obtain ⟨a1, _, a3⟩ := ht.absorb hs
          refine ⟨Or.inr a1, ht.kind, ?_⟩
          rw [a3]
          simp
    obtain ⟨k1, k2, k3⟩ := key
    obtain ⟨⟨o2, j1, j2, j3⟩, j4⟩ := ih (step w e).1 o' h1 k1 (by rw [k2]; exact hk)
    refine ⟨⟨o2, j1, j2, by rw [j3, k2]⟩, ?_⟩
    intro cmd body hm
    rcases List.mem_append.mp hm with hm | hm
    · exact k3 cmd body hm
    · exact j4 cmd body hm


theorem run_some (i : Nat) (es : List Event) (w : World) (o : GPROp)
    (ho : w.ops i = some o) : ∃ o', (run w es).1.ops i = some o' := by
  induction es generalizing w o with
  | nil => exact ⟨o, ho⟩
  | cons e es ih =>
    rw [run_cons]
    obtain ⟨o1, h1, _⟩ := step_some w e i o ho
    exact ih (step w e).1 o1 h1

theorem run_done_exact (i : Nat) (es : List Event) (w : World) (o : GPROp)
    (ho : w.ops i = some o) (hnd : o.state ≠ state_t.Done) (hd : o.done.isSome = true)
    (hnc : ∀ e ∈ es, e ≠ Event.cancel i ∧ e ≠ Event.implicitCancel i) :
    ∃ o', (run w es).1.ops i = some o' ∧
      (o'.state = state_t.Done → doneCount i (run w es).2 = 1) ∧
      (o'.state ≠ state_t.Done → doneCount i (run w es).2 = 0) := by
  induction es generalizing w o with
  | nil => exact ⟨o, ho, fun h => absurd h hnd, fun _ => by simp [run_nil, doneCount]⟩
  | cons e es ih =>
    rw [run_cons]
    have hnc' : ∀ e' ∈ es, e' ≠ Event.cancel i ∧ e' ≠ Event.implicitCancel i :=
      fun e' he' => hnc e' (List.mem_cons_of_mem _ he')
    obtain ⟨he1, he2⟩ := hnc e (List.mem_cons_self _ _)
    obtain ⟨o1, h1, h2⟩ := step_some w e i o ho
    rcases h2 with ⟨rfl, h2⟩ | ht
    · obtain ⟨o', j1, j2, j3⟩ := ih (step w e).1 o1 h1 hnd hd hnc'
      refine ⟨o', j1, ?_, ?_⟩
      · intro hs
        rw [doneCount_append, doneCount_untagged i _ h2, j2 hs]
      · intro hs
        rw [doneCount_append, doneCount_untagged i _ h2, j3 hs]
    · have hd1 : o1.done.isSome = true := by
        rcases ht.done_keep with hk | ⟨hk, _⟩
        · rw [hk]
          exact hd
        · exact absurd hk he1
      by_cases hs1 : o1.state = state_t.Done
      · have hc := ht.done_exact hnd hs1 hd he1 he2
        obtain ⟨k1, _, k3⟩ := run_done i es (step w e).1 (by
          intro o2 ho2
          rw [h1] at ho2
          cases ho2
          exact hs1)
        obtain ⟨o', hf⟩ := run_some i es (step w e).1 o1 h1
        refine ⟨o', hf, ?_, ?_⟩
        · intro _
          rw [doneCount_append, hc, doneCount_untagged i _ k3]
        · intro hs
          exact absurd (k1 o' hf) hs
      · have hz : doneCount i (step w e).2 = 0 := by
          by_contra hne
          obtain ⟨st, r, hm⟩ := doneCount_pos i _ (Nat.pos_of_ne_zero hne)
          exact hs1 (ht.done_mem st r hm).2.2
        obtain ⟨o', j1, j2, j3⟩ := ih (step w e).1 o1 h1 hs1 hd1 hnc'
        refine ⟨o', j1, ?_, ?_⟩
        · intro hs
          rw [doneCount_append, hz, j2 hs]
        · intro hs
          rw [doneCount_append, hz, j3 hs]


theorem step_onInit (w : World) (e : Event) (i : Nat) :
    onInitCount i (step w e).2 + creatingNow (step w e).1 i ≤
      initSendCount i (step w e).2 + creatingNow w i ∧
    onInitCount i (step w e).2 ≤ 1 ∧
    ∀ st v, Action.onInit i st v ∈ (step w e).2 →
      st = state_t.Creating ∧ w.stateOf i = some state_t.Creating ∧
      ∃ cmd m hd, e = Event.reply cmd m ∧ m.header = some hd ∧ hd.init = true ∧
        hd.sts.isSuccess = true := by
  cases hi : w.ops i with
  | none =>
    obtain ⟨h1, h2⟩ := step_none w e i hi
    refine ⟨?_, ?_, ?_⟩
    · rw [onInitCount_untagged i _ h2, initSendCount_untagged i _ h2]
      simp [creatingNow, World.stateOf, h1, hi]
    · rw [onInitCount_untagged i _ h2]
      exact Nat.zero_le 1
    · intro st v hm
      exact absurd rfl (h2 _ hm)
  | some o =>
    obtain ⟨o', h1, h2⟩ := step_some w e i o hi
    rcases h2 with ⟨rfl, h2⟩ | ht
    · refine ⟨?_, ?_, ?_⟩
      · rw [onInitCount_untagged i _ h2, initSendCount_untagged i _ h2]
        simp [creatingNow, World.stateOf, h1, hi]
      · rw [onInitCount_untagged i _ h2]
        exact Nat.zero_le 1
      · intro st v hm
        exact absurd rfl (h2 _ hm)
    · refine ⟨?_, ht.onInit_one, ?_⟩
      · have := ht.onInit_le
        simpa [creatingNow, World.stateOf, h1, hi] using this
      · intro st v hm
        obtain ⟨m1, m2, m3⟩ := ht.onInit_mem st v hm
        exact ⟨m1, by simp [World.stateOf, hi, m2], m3⟩

theorem run_onInit (i : Nat) (es : List Event) (w : World) :
    onInitCount i (run w es).2 + creatingNow (run w es).1 i ≤
      initSendCount i (run w es).2 + creatingNow w i ∧
    ∀ st v, Action.onInit i st v ∈ (run w es).2 → st = state_t.Creating := by
  induction es generalizing w with
  | nil => simp [run_nil, onInitCount, initSendCount]
  | cons e es ih =>
    rw [run_cons]
    obtain ⟨s1, _, s3⟩ := step_onInit w e i
    obtain ⟨j1, j2⟩ := ih (step w e).1
    constructor
    · dsimp only
      rw [onInitCount_append, initSendCount_append]
      omega
    · intro st v hm
      rcases List.mem_append.mp hm with hm | hm
      · exact (s3 st v hm).1
      · exact j2 st v hm

theorem cancel_leaves_done (w : World) (i : Nat) :
    ∀ o, (cancel w i).1.1.ops i = some o → o.state = state_t.Done := by
  intro o ho
  rcases cancel_char w i with ⟨h1, _⟩ | ⟨h, o0, o', h0, h1, ht⟩
  · unfold cancel at ho
    cases hi : w.ops i with
    | none =>
      simp [_cancel_none w i false hi, hi] at ho
    | some o1 =>
      have h2 := _cancel_ops w i false o1 hi
      simp only [h2, Function.update_same] at ho
      simp [World.setOp] at ho
      rw [← ho]
  · unfold cancel at ho
    cases hi : w.ops i with
    | none =>
      simp [_cancel_none w i false hi, hi] at ho
    | some o1 =>
      have h2 := _cancel_ops w i false o1 hi
      simp only [h2, Function.update_same] at ho
      simp [World.setOp] at ho
      rw [← ho]

theorem implicitCancel_leaves_done (w : World) (i : Nat) :
    ∀ o, (_cancel w i true).1.1.ops i = some o → o.state = state_t.Done := by
  intro o ho
  cases hi : w.ops i with
  | none =>
    rw [_cancel_none w i true hi, hi] at ho
    cases ho
  | some o1 =>
    rw [_cancel_ops w i true o1 hi, Function.update_same] at ho
    cases ho
    rfl

/-! ### Validation of a reply against the operation state -/

theorem checkState_iff (gpr : GPROp) (cmd : Nat) (hd : Header) :
    checkState gpr cmd hd = true ↔
      (gpr.op.toByte = cmd ∧
        ((gpr.state = state_t.Creating ∧ hd.init = true) ∨
         (gpr.state = state_t.GetOPut ∧ hd.init = false ∧ hd.get = true) ∨
         (gpr.state = state_t.Exec ∧ hd.init = false ∧ hd.get = false))) := by
  constructor
  · exact checkState_true gpr cmd hd
  · rintro ⟨h1, h2⟩
    unfold checkState
    rcases h2 with ⟨a, b⟩ | ⟨a, b, c⟩ | ⟨a, b, c⟩
    · simp [h1, a, b]
    · simp [h1, a, b, c]
    · simp [h1, a, b, c]

theorem readHead_wf (cmd : Nat) (m : Reply) (hd : Header) (hh : m.header = some hd)
    (ht : m.wireType.isSome = true) (hf : ∀ v, (m.wireFull v).isSome = true) :
    ∃ data, readHead cmd m = some (hd, data) := by
  unfold readHead
  obtain ⟨t, ht⟩ := Option.isSome_iff_exists.mp ht
  simp only [hh, ht]
  split_ifs with h1 h2 h3
  · exact ⟨_, rfl⟩
  · obtain ⟨d, hd2⟩ := Option.isSome_iff_exists.mp (hf t)
    rw [hd2]
    exact ⟨_, rfl⟩
  · exact ⟨_, rfl⟩
  · exact ⟨_, rfl⟩

theorem readData_wf (cmd : Nat) (hd : Header) (m : Reply) ( info : RequestInfo) (data : Value)
    (hv : ∀ v, (m.wireValid v).isSome = true) :
    ∃ info1 data1, readData cmd hd m info data = some (info1, data1) ∧
      info1.handle = info.handle := by
  unfold readData
  split_ifs with h1 h2
  · exact ⟨_, _, rfl, rfl⟩
  · obtain ⟨d, hd2⟩ := Option.isSome_iff_exists.mp (hv info.prototype.cloneEmpty)
    by_cases hvld : info.prototype.cloneEmpty.valid = true
    · simp only [hvld, if_true, hd2, Option.map_some']
      exact ⟨_, _, rfl, rfl⟩
    · simp only [hvld, if_false, Bool.false_eq_true]
      exact ⟨_, _, rfl, rfl⟩
  · exact ⟨_, _, rfl, rfl⟩

theorem advance_getOPut (self cmd : Nat) (hd : Header) (peer : String) (gpr gpr1 : GPROp)
    ( info info2 : RequestInfo) (data : Value) (a1 : List Action)
    (hst : gpr.state = state_t.GetOPut)
    (hadv : advance self cmd hd peer gpr info data = some (gpr1, info2, a1)) :
    gpr1.state = state_t.BuildPut ∨ gpr1.state = state_t.Done := by
  unfold advance at hadv
  by_cases hs : hd.sts.isSuccess = false
  · simp [hs] at hadv
    obtain ⟨rfl, _, _⟩ := hadv
    exact Or.inr rfl
  · simp [hs, hst] at hadv
    obtain ⟨rfl, _, _⟩ := hadv
    exact Or.inl rfl

theorem gpr_progress (self cmd : Nat) (hd : Header) (peer : String) (gpr gpr1 : GPROp)
    ( info info2 : RequestInfo) (data : Value) (a1 : List Action)
    (hcs : checkState gpr cmd hd = true)
    (hadv : advance self cmd hd peer gpr info data = some (gpr1, info2, a1)) :
    (buildPut self gpr1 info2).1.state ≠ gpr.state ∧
    Action.bevReset ∉ a1 ++ (buildPut self gpr1 info2).2.2 := by
  obtain ⟨_, _, _, _, hst1, hex, ha1⟩ :=
    advance_spec self cmd hd peer gpr gpr1 info info2 data a1 hcs hadv
  obtain ⟨_, hstate⟩ := checkState_true gpr cmd hd hcs
  have hacts : ∀ l, (l = [] ∨ l = [Action.builder self state_t.BuildPut info2.prototype.clone]) →
      Action.bevReset ∉ a1 ++ l := by
    intro l hl
    rcases ha1 with rfl | ⟨rfl, _⟩ <;> rcases hl with rfl | rfl <;> simp
  by_cases hbp : gpr1.state = state_t.BuildPut
  · obtain ⟨h1, h2⟩ := buildPut_run self gpr1 info2 hbp
    refine ⟨?_, hacts _ h2⟩
    have hne : gpr.state ≠ state_t.Exec := by
      intro he
      rw [hex he] at hbp
      cases hbp
    rcases hstate with ⟨hs, _⟩ | ⟨hs, _⟩ | ⟨hs, _⟩
    · rcases h1 with h1 | h1 <;> rw [h1, hs] <;> simp
    · rcases h1 with h1 | h1 <;> rw [h1, hs] <;> simp
    · exact absurd hs hne
  · rw [buildPut_skip self gpr1 info2 hbp]
    refine ⟨?_, hacts _ (Or.inl rfl)⟩
    rcases hstate with ⟨hs, _⟩ | ⟨hs, _⟩ | ⟨hs, _⟩
    · rcases hst1 with h1 | h1 | h1 | h1
      · rw [h1, hs]; simp
      · exact absurd h1 hbp
      · rw [h1, hs]; simp
      · rw [h1, hs]; simp
    · rcases advance_getOPut self cmd hd peer gpr gpr1 info info2 data a1 hs hadv with h1 | h1
      · exact absurd h1 hbp
      · rw [h1, hs]; simp
    · show gpr1.state ≠ gpr.state
      rw [hex hs, hs]
      simp

theorem act_bev (w : World) (self cmd ioid : Nat) (gpr : GPROp) ( info : RequestInfo) :
    (act w self cmd ioid gpr info).1.conn.bev = w.conn.bev := by
  unfold act
  by_cases h : gpr.state = state_t.Done <;> simp [h, World.setOp, World.setChan]

theorem act_no_reset (w : World) (self cmd ioid : Nat) (gpr : GPROp) ( info : RequestInfo) :
    Action.bevReset ∉ (act w self cmd ioid gpr info).2 := by
  rw [act_acts, notify_acts]
  split_ifs <;> simp


/-! ### An accepted reply, phase by phase -/

theorem handle_GPR_eq (w : World) (cmd : Nat) (m : Reply) (hd : Header) (data data1 : Value)
    ( info0 info1 info2 : RequestInfo) (gpr gpr1 : GPROp) (a1 : List Action)
    (hrh : readHead cmd m = some (hd, data)) (hinfo : w.conn.opByIOID hd.ioid = some info0)
    (hrd : readData cmd hd m info0 data = some (info1, data1))
    (hop : w.ops info1.handle = some gpr) (hcs : checkState gpr cmd hd = true)
    (hadv : advance info1.handle cmd hd w.conn.peerName gpr info1 data1
      = some (gpr1, info2, a1)) :
    handle_GPR w cmd m =
      ((act { w with conn := { w.conn with
              opByIOID := Function.update w.conn.opByIOID hd.ioid (some info1) } }
          info1.handle cmd hd.ioid (buildPut info1.handle gpr1 info2).1
          (buildPut info1.handle gpr1 info2).2.1).1,
       a1 ++ (buildPut info1.handle gpr1 info2).2.2 ++
        (act { w with conn := { w.conn with
              opByIOID := Function.update w.conn.opByIOID hd.ioid (some info1) } }
          info1.handle cmd hd.ioid (buildPut info1.handle gpr1 info2).1
          (buildPut info1.handle gpr1 info2).2.1).2) := by
  unfold handle_GPR
  simp only [hrh, hinfo, hrd, hop, hcs, hadv, Bool.true_eq_false, if_false]

theorem act_conn (w : World) (self cmd ioid : Nat) (gpr : GPROp) ( info : RequestInfo) :
    (act w self cmd ioid gpr info).1.conn.opByIOID =
      Function.update w.conn.opByIOID ioid
        (if gpr.state = state_t.Done then none else some info) ∧
    (act w self cmd ioid gpr info).1.conn.peerName = w.conn.peerName := by
  unfold act
  by_cases h : gpr.state = state_t.Done <;> simp [h, World.setOp, World.setChan]

theorem act_chans (w : World) (self cmd ioid : Nat) (gpr : GPROp) ( info : RequestInfo) :
    (act w self cmd ioid gpr info).1.chans =
      if gpr.state = state_t.Done then
        Function.update w.chans gpr.chan
          { w.chans gpr.chan with
            opByIOID := Function.update (w.chans gpr.chan).opByIOID ioid none }
      else w.chans := by
  unfold act
  by_cases h : gpr.state = state_t.Done <;> simp [h, World.setOp, World.setChan]

theorem txBodyFor_done (sid ioid cmd : Nat) (gpr : GPROp) ( info : RequestInfo)
    (h : gpr.state = state_t.Done) :
    txBodyFor sid ioid cmd gpr info = [Wire.u32 sid, Wire.u32 ioid] := by
  simp [txBodyFor, h]


theorem notify_error (self : Nat) (o : GPROp) (d : Result → Option Exn)
    (hd : o.done = some d) (he : o.result.error.isSome = true) :
    notify self o = (o, [Action.done self o.state o.result]) := by
  unfold notify
  simp only [hd]
  cases d o.result <;> simp [he]

theorem readHead_plain (cmd : Nat) (m : Reply) (hd : Header) (hh : m.header = some hd)
    (h1 : ¬ (cmd ≠ CMD_RPC ∧ hd.init = true ∧ hd.sts.isSuccess = true))
    (h2 : ¬ (cmd = CMD_RPC ∧ hd.init = false ∧ hd.sts.isSuccess = true)) :
    readHead cmd m = some (hd, Value.empty) := by
  unfold readHead
  simp only [hh, h1, h2, if_false]

theorem readData_plain (cmd : Nat) (hd : Header) (m : Reply) ( info : RequestInfo)
    (data : Value)
    (h1 : ¬ (cmd ≠ CMD_RPC ∧ hd.init = true ∧ hd.sts.isSuccess = true))
    (h2 : ¬ (hd.init = false ∧ (cmd = CMD_GET ∨ (cmd = CMD_PUT ∧ hd.get = true))
      ∧ hd.sts.isSuccess = true)) :
    readData cmd hd m info data = some (info, data) := by
  unfold readData
  simp only [h1, h2, if_false]

theorem handle_GPR_fault_head (w : World) (cmd : Nat) (m : Reply)
    (h : readHead cmd m = none) : handle_GPR w cmd m = dropConn w := by
  unfold handle_GPR
  simp only [h]

theorem handle_GPR_fault_data (w : World) (cmd : Nat) (m : Reply) (hd : Header) (data : Value)
    ( info : RequestInfo) (hrh : readHead cmd m = some (hd, data))
    (hinfo : w.conn.opByIOID hd.ioid = some info)
    (hrd : readData cmd hd m info data = none) : handle_GPR w cmd m = dropConn w := by
  unfold handle_GPR
  simp only [hrh, hinfo, hrd]


theorem notify_set (self : Nat) (o : GPROp) (d : Result → Option Exn) (hd : o.done = some d) :
    (notify self o).2 = [Action.done self o.state o.result] := by
  rw [notify_acts, hd]
  rfl

/-! ### Where the IOID registry changes -/

theorem callOnInit_chan (self : Nat) (gpr : GPROp) (data : Value) :
    (callOnInit self gpr data).1.chan = gpr.chan ∧
    (callOnInit self gpr data).1.builder = gpr.builder ∧
    (callOnInit self gpr data).1.rpcarg = gpr.rpcarg := by
  unfold callOnInit
  split
  · simp
  · split <;> simp

theorem advance_chan (self cmd : Nat) (hd : Header) (peer : String) (gpr gpr1 : GPROp)
    ( info info2 : RequestInfo) (data : Value) (a1 : List Action)
    (hadv : advance self cmd hd peer gpr info data = some (gpr1, info2, a1)) :
    gpr1.chan = gpr.chan ∧ gpr1.builder = gpr.builder ∧ gpr1.rpcarg = gpr.rpcarg := by
  unfold advance at hadv
  split_ifs at hadv
  all_goals
    simp only [Option.some.injEq, Prod.mk.injEq] at hadv
    obtain ⟨rfl, _, _⟩ := hadv
  · simp
  · exact callOnInit_chan self gpr data
  · simp
  · simp

theorem buildPut_chan (self : Nat) (gpr : GPROp) ( info : RequestInfo) :
    (buildPut self gpr info).1.chan = gpr.chan ∧
    (buildPut self gpr info).1.rpcarg = gpr.rpcarg := by
  unfold buildPut
  by_cases h : gpr.state = state_t.BuildPut
  · cases hb : gpr.builder with
    | none => simp [h]
    | some b => cases hr : b info.prototype.clone <;> simp [h, hr]
  · simp [h]

theorem handle_GPR_erase (w : World) (cmd : Nat) (m : Reply) (k : Nat)
    (hk : (w.conn.opByIOID k).isSome = true)
    (hn : (handle_GPR w cmd m).1.conn.opByIOID k = none) :
    ∃ h gpr, w.ops h = some gpr ∧
      Action.send h CMD_DESTROY_REQUEST [Wire.u32 (w.chans gpr.chan).sid, Wire.u32 k]
        ∈ (handle_GPR w cmd m).2 := by
  have hk2 : w.conn.opByIOID k ≠ none := by
    intro hc
    rw [hc] at hk
    cases hk
  cases hrh : readHead cmd m with
  | none =>
    rw [handle_GPR_fault_head w cmd m hrh] at hn
    exact absurd hn hk2
  | some p =>
    obtain ⟨hd, data⟩ := p
    cases hinfo : w.conn.opByIOID hd.ioid with
    | none =>
      have : handle_GPR w cmd m = (w, []) := by
        unfold handle_GPR
        simp only [hrh, hinfo]
      rw [this] at hn
      exact absurd hn hk2
    | some info0 =>
      cases hrd : readData cmd hd m info0 data with
      | none =>
        rw [handle_GPR_fault_data w cmd m hd data info0 hrh hinfo hrd] at hn
        exact absurd hn hk2
      | some q =>
        obtain ⟨info1, data1⟩ := q
        have hupd : ∀ v : RequestInfo,
            Function.update w.conn.opByIOID hd.ioid (some v) k ≠ none := by
          intro v hc
          by_cases hkk : k = hd.ioid
          · rw [hkk, Function.update_same] at hc
            cases hc
          · rw [Function.update_noteq hkk] at hc
            exact hk2 hc
        cases hop : w.ops info1.handle with
        | none =>
          exfalso
          unfold handle_GPR at hn
          simp only [hrh, hinfo, hrd, hop] at hn
          exact hupd info1 hn
        | some gpr =>
          by_cases hcs : checkState gpr cmd hd = true
          · obtain ⟨⟨gpr1, info2, a1⟩, hadv⟩ :=
              advance_isSome info1.handle cmd hd w.conn.peerName gpr info1 data1 hcs
            rw [handle_GPR_eq w cmd m hd data data1 info0 info1 info2 gpr gpr1 a1
              hrh hinfo hrd hop hcs hadv] at hn ⊢
            simp only [(act_conn _ _ _ _ _ _).1] at hn
            by_cases hdone : (buildPut info1.handle gpr1 info2).1.state = state_t.Done
            · simp only [hdone, if_true] at hn
              have hkk : k = hd.ioid := by
                by_contra hne
                rw [Function.update_noteq hne] at hn
                exact hupd info1 hn
              refine ⟨info1.handle, gpr, hop, ?_⟩
              apply List.mem_append_right
              rw [act_acts, txBodyFor_done _ _ _ _ _ hdone, hkk]
              simp only [hdone, if_true]
              rw [(buildPut_chan info1.handle gpr1 info2).1,
                (advance_chan _ _ _ _ _ _ _ _ _ _ hadv).1]
              exact List.mem_cons_self _ _
            · exfalso
              simp only [hdone, if_false] at hn
              by_cases hkk : k = hd.ioid
              · rw [hkk, Function.update_same] at hn
                cases hn
              · rw [Function.update_noteq hkk] at hn
                exact hupd info1 hn
          · exfalso
            have hcs2 : checkState gpr cmd hd = false := by simpa using hcs
            unfold handle_GPR at hn
            simp only [hrh, hinfo, hrd, hop, hcs2, if_true, dropConn] at hn
            exact hupd info1 hn

theorem _cancel_erase (w : World) (i k : Nat) ( implicit : Bool) (o : GPROp)
    (ho : w.ops i = some o) (hk : (w.conn.opByIOID k).isSome = true)
    (hn : (_cancel w i implicit).1.1.conn.opByIOID k = none) :
    k = o.ioid ∧
    (o.state = state_t.Creating ∨ o.state = state_t.GetOPut ∨ o.state = state_t.Exec) := by
  have hk2 : w.conn.opByIOID k ≠ none := by
    intro hc
    rw [hc] at hk
    cases hk
  unfold _cancel at hn
  simp only [ho] at hn
  by_cases hs : o.state = state_t.Creating ∨ o.state = state_t.GetOPut ∨ o.state = state_t.Exec
  · refine ⟨?_, hs⟩
    by_contra hne
    simp [hs, World.setOp, World.setChan, Function.update_noteq hne] at hn
    exact hk2 hn
  · exfalso
    simp [hs, World.setOp] at hn
    exact hk2 hn

theorem cancel_same (w : World) (i : Nat) :
    (cancel w i).1.2 = (_cancel w i false).1.2 ∧
    (cancel w i).1.1.conn = (_cancel w i false).1.1.conn ∧
    (cancel w i).1.1.chans = (_cancel w i false).1.1.chans := by
  unfold cancel
  cases h : (_cancel w i false).1.1.ops i <;> simp [h, World.setOp]


/-! ### Replies in the expected order -/

theorem buildPut_eval (self : Nat) (gpr : GPROp) ( info : RequestInfo)
    (b : Value → Except Exn Value) (h : gpr.state = state_t.BuildPut)
    (hb : gpr.builder = some b) :
    (∀ v, b info.prototype.clone = Except.ok v →
      buildPut self gpr info = ({ gpr with state := state_t.Exec }, { info with prototype := v },
        [Action.builder self state_t.BuildPut info.prototype.clone])) ∧
    (∀ e, b info.prototype.clone = Except.error e →
      buildPut self gpr info =
        ({ gpr with result := Result.ofError e, state := state_t.Done }, info,
          [Action.builder self state_t.BuildPut info.prototype.clone])) := by
  constructor
  · intro v hv
    simp [buildPut, h, hb, hv]
  · intro e he
    simp [buildPut, h, hb, he]

theorem init_reply_eq (w : World) (cmd : Nat) (m : Reply) (hd : Header) (P : Value)
    ( info : RequestInfo) (o : GPROp)
    (hh : m.header = some hd) (hi : hd.init = true) (hs : hd.sts.isSuccess = true)
    (hc : cmd ≠ CMD_RPC) (ht : m.wireType = some P)
    (hinfo : w.conn.opByIOID hd.ioid = some info) (hop : w.ops info.handle = some o)
    (hk : o.op.toByte = cmd) (hst : o.state = state_t.Creating) :
    handle_GPR w cmd m =
      ((act { w with conn := { w.conn with
              opByIOID := Function.update w.conn.opByIOID hd.ioid
                (some { info with prototype := P }) } }
          info.handle cmd hd.ioid
          (buildPut info.handle
            { (callOnInit info.handle o P).1 with
              state := if cmd = CMD_PUT ∧ o.getOput = true then state_t.GetOPut
                else if cmd = CMD_PUT ∧ o.getOput = false then state_t.BuildPut
                else state_t.Exec }
            { info with prototype := P }).1
          (buildPut info.handle
            { (callOnInit info.handle o P).1 with
              state := if cmd = CMD_PUT ∧ o.getOput = true then state_t.GetOPut
                else if cmd = CMD_PUT ∧ o.getOput = false then state_t.BuildPut
                else state_t.Exec }
            { info with prototype := P }).2.1).1,
       (callOnInit info.handle o P).2 ++
        (buildPut info.handle
            { (callOnInit info.handle o P).1 with
              state := if cmd = CMD_PUT ∧ o.getOput = true then state_t.GetOPut
                else if cmd = CMD_PUT ∧ o.getOput = false then state_t.BuildPut
                else state_t.Exec }
            { info with prototype := P }).2.2 ++
        (act { w with conn := { w.conn with
              opByIOID := Function.update w.conn.opByIOID hd.ioid
                (some { info with prototype := P }) } }
          info.handle cmd hd.ioid
          (buildPut info.handle
            { (callOnInit info.handle o P).1 with
              state := if cmd = CMD_PUT ∧ o.getOput = true then state_t.GetOPut
                else if cmd = CMD_PUT ∧ o.getOput = false then state_t.BuildPut
                else state_t.Exec }
            { info with prototype := P }).1
          (buildPut info.handle
            { (callOnInit info.handle o P).1 with
              state := if cmd = CMD_PUT ∧ o.getOput = true then state_t.GetOPut
                else if cmd = CMD_PUT ∧ o.getOput = false then state_t.BuildPut
                else state_t.Exec }
            { info with prototype := P }).2.1).2) := by
  have hrh : readHead cmd m = some (hd, P) := by
    simp [readHead, hh, hc, hi, hs, ht]
  have hrd : readData cmd hd m info P = some ({ info with prototype := P }, P) := by
    simp [readData, hc, hi, hs]
  have hcs : checkState o cmd hd = true :=
    (checkState_iff o cmd hd).mpr ⟨hk, Or.inl ⟨hst, hi⟩⟩
  have hg := (callOnInit_fields info.handle o P).2.1
  have hadv : advance info.handle cmd hd w.conn.peerName o { info with prototype := P } P
      = some ({ (callOnInit info.handle o P).1 with
              state := if cmd = CMD_PUT ∧ o.getOput = true then state_t.GetOPut
                else if cmd = CMD_PUT ∧ o.getOput = false then state_t.BuildPut
                else state_t.Exec }, { info with prototype := P },
              (callOnInit info.handle o P).2) := by
    simp [advance, hs, hst, hg]
  exact handle_GPR_eq w cmd m hd P P info { info with prototype := P }
    { info with prototype := P } o _ _ hrh hinfo hrd hop hcs hadv


theorem get_init_step (w : World) (m : Reply) (hd : Header) (P : Value)
    ( info : RequestInfo) (o : GPROp)
    (hh : m.header = some hd) (hi : hd.init = true) (hs : hd.sts.isSuccess = true)
    (ht : m.wireType = some P)
    (hinfo : w.conn.opByIOID hd.ioid = some info) (hop : w.ops info.handle = some o)
    (hk : o.op = operation_t.Get) (hst : o.state = state_t.Creating) :
    (handle_GPR w CMD_GET m).2 = (callOnInit info.handle o P).2 ++
      [Action.send info.handle CMD_GET
        [Wire.u32 (w.chans o.chan).sid, Wire.u32 hd.ioid, Wire.u8 0x00]] ∧
    (handle_GPR w CMD_GET m).1.ops info.handle
      = some { (callOnInit info.handle o P).1 with state := state_t.Exec } ∧
    (handle_GPR w CMD_GET m).1.conn.opByIOID hd.ioid = some { info with prototype := P } ∧
    (handle_GPR w CMD_GET m).1.chans = w.chans ∧
    (handle_GPR w CMD_GET m).1.conn.peerName = w.conn.peerName := by
  have hne : CMD_GET ≠ CMD_PUT := by decide
  have hch := (callOnInit_chan info.handle o P).1
  rw [init_reply_eq w CMD_GET m hd P info o hh hi hs (by decide) ht hinfo hop
    (by rw [hk]; rfl) hst]
  simp only [hne, false_and, if_false]
  rw [buildPut_skip _ _ _ (by simp)]
  refine ⟨?_, ?_, ?_, ?_, ?_⟩
  · have hne2 : CMD_GET ≠ CMD_RPC := by decide
    simp [act_acts, txBodyFor, hne, hne2, hch]
  · simp [act_ops]
  · simp [(act_conn _ _ _ _ _ _).1]
  · simp [act_chans]
  · simp [(act_conn _ _ _ _ _ _).2]

theorem get_exec_step (w : World) (m : Reply) (hd : Header) ( info : RequestInfo)
    (o : GPROp) (d : Result → Option Exn) (dv : List Nat)
    (hh : m.header = some hd) (hi : hd.init = false) (hg : hd.get = false)
    (hs : hd.sts.isSuccess = true)
    (hinfo : w.conn.opByIOID hd.ioid = some info) (hop : w.ops info.handle = some o)
    (hk : o.op = operation_t.Get) (hst : o.state = state_t.Exec)
    (hv : info.prototype.valid = true)
    (hw : m.wireValid info.prototype.cloneEmpty = some dv) (hdn : o.done = some d) :
    (handle_GPR w CMD_GET m).2 =
      [Action.send info.handle CMD_DESTROY_REQUEST
        [Wire.u32 (w.chans o.chan).sid, Wire.u32 hd.ioid],
       Action.done info.handle state_t.Done
        (Result.ofValue ⟨info.prototype.desc, dv⟩ w.conn.peerName)] ∧
    (handle_GPR w CMD_GET m).1.stateOf info.handle = some state_t.Done ∧
    (handle_GPR w CMD_GET m).1.conn.opByIOID hd.ioid = none ∧
    ((handle_GPR w CMD_GET m).1.chans o.chan).opByIOID hd.ioid = none := by
  have hrh : readHead CMD_GET m = some (hd, Value.empty) :=
    readHead_plain CMD_GET m hd hh (by simp [hi]) (by simp [CMD_GET, CMD_RPC])
  have hv2 : info.prototype.cloneEmpty.valid = true := hv
  have hrd : readData CMD_GET hd m info Value.empty
      = some (info, ⟨info.prototype.desc, dv⟩) := by
    simp only [readData, hi, hs, hv2, hw]
    simp [Value.cloneEmpty]
  have hcs : checkState o CMD_GET hd = true :=
    (checkState_iff o CMD_GET hd).mpr ⟨by rw [hk]; rfl, Or.inr (Or.inr ⟨hst, hi, hg⟩)⟩
  have hadv : advance info.handle CMD_GET hd w.conn.peerName o info ⟨info.prototype.desc, dv⟩
      = some ({ o with state := state_t.Done,
                       result := Result.ofValue ⟨info.prototype.desc, dv⟩ w.conn.peerName },
              info, []) := by
    simp [advance, hs, hst]
  rw [handle_GPR_eq w CMD_GET m hd _ _ info info info o _ _ hrh hinfo hrd hop hcs hadv]
  rw [buildPut_skip _ _ _ (by simp)]
  have hna := notify_set info.handle
    { o with state := state_t.Done,
             result := Result.ofValue ⟨info.prototype.desc, dv⟩ w.conn.peerName } d hdn
  have hns := notify_state info.handle
    { o with state := state_t.Done,
             result := Result.ofValue ⟨info.prototype.desc, dv⟩ w.conn.peerName }
  refine ⟨?_, ?_, ?_, ?_⟩
  · simp [act_acts, hna, txBodyFor_done]
  · simp [World.stateOf, act_ops, hns]
  · simp [(act_conn _ _ _ _ _ _).1]
  · simp [act_chans]


theorem init_phases (w : World) (cmd : Nat) (m : Reply) (hd : Header) (P : Value)
    ( info : RequestInfo) (o : GPROp)
    (hh : m.header = some hd) (hi : hd.init = true) (hs : hd.sts.isSuccess = true)
    (hc : cmd ≠ CMD_RPC) (ht : m.wireType = some P)
    (hk : o.op.toByte = cmd) (hst : o.state = state_t.Creating) :
    readHead cmd m = some (hd, P) ∧
    readData cmd hd m info P = some ({ info with prototype := P }, P) ∧
    checkState o cmd hd = true ∧
    advance info.handle cmd hd w.conn.peerName o { info with prototype := P } P
      = some ({ (callOnInit info.handle o P).1 with
              state := if cmd = CMD_PUT ∧ o.getOput = true then state_t.GetOPut
                else if cmd = CMD_PUT ∧ o.getOput = false then state_t.BuildPut
                else state_t.Exec }, { info with prototype := P },
              (callOnInit info.handle o P).2) := by
  have hg := (callOnInit_fields info.handle o P).2.1
  refine ⟨?_, ?_, (checkState_iff o cmd hd).mpr ⟨hk, Or.inl ⟨hst, hi⟩⟩, ?_⟩
  · simp [readHead, hh, hc, hi, hs, ht]
  · simp [readData, hc, hi, hs]
  · simp [advance, hs, hst, hg]

theorem getphase_phases (w : World) (m : Reply) (hd : Header) ( info : RequestInfo)
    (o : GPROp) (dv : List Nat)
    (hh : m.header = some hd) (hi : hd.init = false) (hg : hd.get = true)
    (hs : hd.sts.isSuccess = true) (hk : o.op = operation_t.Put)
    (hst : o.state = state_t.GetOPut) (hv : info.prototype.valid = true)
    (hw : m.wireValid info.prototype.cloneEmpty = some dv) :
    readHead CMD_PUT m = some (hd, Value.empty) ∧
    readData CMD_PUT hd m info Value.empty = some (info, ⟨info.prototype.desc, dv⟩) ∧
    checkState o CMD_PUT hd = true ∧
    advance info.handle CMD_PUT hd w.conn.peerName o info ⟨info.prototype.desc, dv⟩
      = some ({ o with state := state_t.BuildPut },
              { info with prototype := ⟨info.prototype.desc, dv⟩ }, []) := by
  have hv2 : info.prototype.cloneEmpty.valid = true := hv
  refine ⟨readHead_plain CMD_PUT m hd hh (by simp [hi]) (by simp [CMD_PUT, CMD_RPC]), ?_,
    (checkState_iff o CMD_PUT hd).mpr ⟨by rw [hk]; rfl, Or.inr (Or.inl ⟨hst, hi, hg⟩)⟩, ?_⟩
  · simp only [readData, hi, hs, hg, hv2, hw]
    simp [Value.cloneEmpty]
  · simp [advance, hs, hst, Value.assign]

theorem buildPut_stage (w : World) (cmd : Nat) (m : Reply) (hd : Header) (data data1 : Value)
    ( info0 info1 info2 : RequestInfo) (gpr gpr1 : GPROp) (a1 : List Action)
    (b : Value → Except Exn Value)
    (hrh : readHead cmd m = some (hd, data)) (hinfo : w.conn.opByIOID hd.ioid = some info0)
    (hrd : readData cmd hd m info0 data = some (info1, data1))
    (hop : w.ops info1.handle = some gpr) (hcs : checkState gpr cmd hd = true)
    (hadv : advance info1.handle cmd hd w.conn.peerName gpr info1 data1
      = some (gpr1, info2, a1))
    (hbp : gpr1.state = state_t.BuildPut) (hb : gpr1.builder = some b) :
    (∀ B, b info2.prototype.clone = Except.ok B →
      (handle_GPR w cmd m).2 = a1 ++
        [Action.builder info1.handle state_t.BuildPut info2.prototype.clone,
         Action.send info1.handle cmd
          (txBodyFor (w.chans gpr1.chan).sid hd.ioid cmd { gpr1 with state := state_t.Exec }
            { info2 with prototype := B })] ∧
      (handle_GPR w cmd m).1.ops info1.handle = some { gpr1 with state := state_t.Exec } ∧
      (handle_GPR w cmd m).1.conn.opByIOID hd.ioid = some { info2 with prototype := B }) ∧
    (∀ e, b info2.prototype.clone = Except.error e →
      (handle_GPR w cmd m).2 = a1 ++
        [Action.builder info1.handle state_t.BuildPut info2.prototype.clone,
         Action.send info1.handle CMD_DESTROY_REQUEST
          [Wire.u32 (w.chans gpr1.chan).sid, Wire.u32 hd.ioid]] ++
        (notify info1.handle
          { gpr1 with result := Result.ofError e, state := state_t.Done }).2 ∧
      (handle_GPR w cmd m).1.ops info1.handle = some (notify info1.handle
          { gpr1 with result := Result.ofError e, state := state_t.Done }).1 ∧
      (handle_GPR w cmd m).1.conn.opByIOID hd.ioid = none ∧
      ((handle_GPR w cmd m).1.chans gpr1.chan).opByIOID hd.ioid = none) := by
  rw [handle_GPR_eq w cmd m hd data data1 info0 info1 info2 gpr gpr1 a1
    hrh hinfo hrd hop hcs hadv]
  obtain ⟨hok, herr⟩ := buildPut_eval info1.handle gpr1 info2 b hbp hb
  constructor
  · intro B hB
    rw [hok B hB]
    refine ⟨?_, ?_, ?_⟩
    · simp [act_acts]
    · simp [act_ops]
    · simp [(act_conn _ _ _ _ _ _).1]
  · intro e he
    rw [herr e he]
    refine ⟨?_, ?_, ?_, ?_⟩
    · simp [act_acts, txBodyFor_done]
    · simp [act_ops]
    · simp [(act_conn _ _ _ _ _ _).1]
    · simp [act_chans]

theorem builderCount_append (i : Nat) (l1 l2 : List Action) :
    builderCount i (l1 ++ l2) = builderCount i l1 + builderCount i l2 := by
  simp [builderCount]

theorem builderCount_callOnInit (i self : Nat) (gpr : GPROp) (data : Value) :
    builderCount i (callOnInit self gpr data).2 = 0 := by
  rcases (callOnInit_fields self gpr data).2.2.2.2 with h | h <;> rw [h] <;> simp [builderCount]

theorem builderCount_notify (i self : Nat) (o : GPROp) :
    builderCount i (notify self o).2 = 0 := by
  rw [notify_acts]
  split_ifs <;> simp [builderCount]


theorem onInitCount_notify (i self : Nat) (o : GPROp) :
    onInitCount i (notify self o).2 = 0 := by
  rw [notify_acts]
  split_ifs <;> simp [onInitCount]

theorem put_init_get_step (w : World) (m : Reply) (hd : Header) (P : Value)
    ( info : RequestInfo) (o : GPROp)
    (hh : m.header = some hd) (hi : hd.init = true) (hs : hd.sts.isSuccess = true)
    (ht : m.wireType = some P)
    (hinfo : w.conn.opByIOID hd.ioid = some info) (hop : w.ops info.handle = some o)
    (hk : o.op = operation_t.Put) (hst : o.state = state_t.Creating)
    (hg : o.getOput = true) :
    (handle_GPR w CMD_PUT m).2 = (callOnInit info.handle o P).2 ++
      [Action.send info.handle CMD_PUT
        [Wire.u32 (w.chans o.chan).sid, Wire.u32 hd.ioid, Wire.u8 0x40]] ∧
    (handle_GPR w CMD_PUT m).1.ops info.handle
      = some { (callOnInit info.handle o P).1 with state := state_t.GetOPut } ∧
    (handle_GPR w CMD_PUT m).1.conn.opByIOID hd.ioid = some { info with prototype := P } ∧
    (handle_GPR w CMD_PUT m).1.chans = w.chans ∧
    (handle_GPR w CMD_PUT m).1.conn.peerName = w.conn.peerName := by
  have hch := (callOnInit_chan info.handle o P).1
  rw [init_reply_eq w CMD_PUT m hd P info o hh hi hs (by decide) ht hinfo hop
    (by rw [hk]; rfl) hst]
  simp only [hg, and_self, if_true]
  rw [buildPut_skip _ _ _ (by simp)]
  refine ⟨?_, ?_, ?_, ?_, ?_⟩
  · simp [act_acts, txBodyFor, hch]
  · simp [act_ops]
  · simp [(act_conn _ _ _ _ _ _).1]
  · simp [act_chans]
  · simp [(act_conn _ _ _ _ _ _).2]


/-! ### The frame of an accepted reply -/

theorem advance_put_state (self : Nat) (hd : Header) (peer : String) (gpr gpr1 : GPROp)
    ( info info2 : RequestInfo) (data : Value) (a1 : List Action)
    (hcs : checkState gpr CMD_PUT hd = true)
    (hadv : advance self CMD_PUT hd peer gpr info data = some (gpr1, info2, a1)) :
    gpr1.state ≠ state_t.Exec := by
  obtain ⟨_, hstate⟩ := checkState_true gpr CMD_PUT hd hcs
  unfold advance at hadv
  by_cases hs : hd.sts.isSuccess = false
  · simp [hs] at hadv
    obtain ⟨rfl, _, _⟩ := hadv
    simp
  · rcases hstate with ⟨hst, _⟩ | ⟨hst, _⟩ | ⟨hst, _⟩
    · simp [hs, hst] at hadv
      obtain ⟨rfl, _, _⟩ := hadv
      by_cases hg : (callOnInit self gpr data).1.getOput = true <;> simp [hg]
    · simp [hs, hst] at hadv
      obtain ⟨rfl, _, _⟩ := hadv
      simp
    · simp [hs, hst] at hadv
      obtain ⟨rfl, _, _⟩ := hadv
      simp

theorem buildPut_exec (self : Nat) (gpr : GPROp) ( info : RequestInfo)
    (h : gpr.state = state_t.BuildPut)
    (he : (buildPut self gpr info).1.state = state_t.Exec) :
    ∃ b v, gpr.builder = some b ∧ b info.prototype.clone = Except.ok v ∧
      (buildPut self gpr info).2.1.prototype = v ∧
      (buildPut self gpr info).2.2
        = [Action.builder self state_t.BuildPut info.prototype.clone] := by
  unfold buildPut at he ⊢
  cases hb : gpr.builder with
  | none => simp [h, hb] at he
  | some b =>
    cases hr : b info.prototype.clone with
    | error e => simp [h, hb, hr] at he
    | ok v => exact ⟨b, v, rfl, hr, by simp [h, hr], by simp [h, hr]⟩

theorem buildPut_acts_shape (self : Nat) (gpr : GPROp) ( info : RequestInfo) :
    (buildPut self gpr info).2.2 = [] ∨
    (buildPut self gpr info).2.2 = [Action.builder self state_t.BuildPut info.prototype.clone] := by
  by_cases h : gpr.state = state_t.BuildPut
  · exact (buildPut_run self gpr info h).2
  · rw [buildPut_skip self gpr info h]
    exact Or.inl rfl

theorem accepted_sends (self cmd c : Nat) (hd : Header) (peer : String) (gpr gpr1 : GPROp)
    ( info info2 : RequestInfo) (data : Value) (a1 : List Action) (body : List Wire)
    (hcs : checkState gpr cmd hd = true)
    (hadv : advance self cmd hd peer gpr info data = some (gpr1, info2, a1)) :
    (a1 ++ (buildPut self gpr1 info2).2.2 ++
      (Action.send self c body ::
        (if (buildPut self gpr1 info2).1.state = state_t.Done
          then (notify self (buildPut self gpr1 info2).1).2 else []))).filter Action.isSend
      = [Action.send self c body] := by
  have ha1 := (advance_spec self cmd hd peer gpr gpr1 info info2 data a1 hcs hadv).2.2.2.2.2.2
  have hb := buildPut_acts_shape self gpr1 info2
  rw [notify_acts]
  rcases ha1 with rfl | ⟨rfl, _⟩ <;> rcases hb with hb | hb <;> rw [hb] <;>
    split_ifs <;> simp [Action.isSend]


/-! ### `Done` is entered once -/

theorem step_done (w : World) (e : Event) (i : Nat)
    (h : ∀ o, w.ops i = some o → o.state = state_t.Done) :
    (∀ o, (step w e).1.ops i = some o → o.state = state_t.Done) ∧
    (step w e).1.resultOf i = w.resultOf i ∧ ∀ a ∈ (step w e).2, a.opOf ≠ some i := by
  have := run_done i [e] w h
  simpa [run_cons, run_nil] using this

theorem stateOf_done (w : World) (i : Nat) :
    w.stateOf i = some state_t.Done ↔ ∃ o, w.ops i = some o ∧ o.state = state_t.Done := by
  unfold World.stateOf
  cases w.ops i <;> simp

theorem doneEntries_done (i : Nat) (es : List Event) (w : World)
    (h : ∀ o, w.ops i = some o → o.state = state_t.Done) : doneEntries i w es = 0 := by
  induction es generalizing w with
  | nil => rfl
  | cons e es ih =>
    obtain ⟨h1, _, _⟩ := step_done w e i h
    unfold doneEntries
    rw [ih _ h1]
    have : ¬ (w.stateOf i ≠ some state_t.Done ∧
        (step w e).1.stateOf i = some state_t.Done) := by
      rintro ⟨c1, c2⟩
      obtain ⟨o', ho', _⟩ := (stateOf_done _ i).mp c2
      cases hi : w.ops i with
      | none =>
        rw [(step_none w e i hi).1] at ho'
        cases ho'
      | some o => exact c1 ((stateOf_done w i).mpr ⟨o, hi, h o hi⟩)
    rw [if_neg this]

theorem doneEntries_le (i : Nat) (es : List Event) (w : World) : doneEntries i w es ≤ 1 := by
  induction es generalizing w with
  | nil => exact Nat.zero_le 1
  | cons e es ih =>
    unfold doneEntries
    split_ifs with hc
    · obtain ⟨o', ho', hs'⟩ := (stateOf_done _ i).mp hc.2
      have : doneEntries i (step w e).1 es = 0 := by
        apply doneEntries_done
        intro o ho
        rw [ho'] at ho
        cases ho
        exact hs'
      omega
    · have := ih (step w e).1
      omega

theorem doneEntries_one (i : Nat) (es : List Event) (w : World)
    (h0 : w.stateOf i ≠ some state_t.Done)
    (hfin : (run w es).1.stateOf i = some state_t.Done) : doneEntries i w es = 1 := by
  induction es generalizing w with
  | nil => exact absurd hfin h0
  | cons e es ih =>
    rw [run_cons] at hfin
    unfold doneEntries
    by_cases hc : (step w e).1.stateOf i = some state_t.Done
    · obtain ⟨o', ho', hs'⟩ := (stateOf_done _ i).mp hc
      have : doneEntries i (step w e).1 es = 0 := by
        apply doneEntries_done
        intro o ho
        rw [ho'] at ho
        cases ho
        exact hs'
      rw [if_pos ⟨h0, hc⟩, this]
    · have h1 : ¬ (w.stateOf i ≠ some state_t.Done ∧
          (step w e).1.stateOf i = some state_t.Done) := fun c => hc c.2
      rw [if_neg h1, ih _ hc hfin]

theorem doneKept_step (w : World) (e : Event) (i : Nat) (o : GPROp)
    (ho : w.ops i = some o) (hd : o.state = state_t.Done) :
    DoneKept i o.result (step w e) := by
  have h : ∀ o2, w.ops i = some o2 → o2.state = state_t.Done := by
    intro o2 ho2
    rw [ho] at ho2
    cases ho2
    exact hd
  obtain ⟨h1, h2, h3⟩ := step_done w e i h
  obtain ⟨o', ho', _⟩ := step_some w e i o ho
  refine ⟨(stateOf_done _ i).mpr ⟨o', ho', h1 o' ho'⟩, ?_, h3⟩
  rw [h2]
  simp [World.resultOf, ho]

theorem doneKept_run (w : World) (es : List Event) (i : Nat) (o : GPROp)
    (ho : w.ops i = some o) (hd : o.state = state_t.Done) :
    DoneKept i o.result (run w es) := by
  have h : ∀ o2, w.ops i = some o2 → o2.state = state_t.Done := by
    intro o2 ho2
    rw [ho] at ho2
    cases ho2
    exact hd
  obtain ⟨h1, h2, h3⟩ := run_done i es w h
  obtain ⟨o', ho'⟩ := run_some i es w o ho
  refine ⟨(stateOf_done _ i).mpr ⟨o', ho', h1 o' ho'⟩, ?_, h3⟩
  rw [h2]
  simp [World.resultOf, ho]

theorem doneKept__cancel (w : World) (i : Nat) ( implicit : Bool) (o : GPROp)
    (ho : w.ops i = some o) (hd : o.state = state_t.Done) :
    DoneKept i o.result (_cancel w i implicit).1 := by
  refine ⟨?_, ?_, ?_⟩
  · simp [World.stateOf, _cancel_ops w i implicit o ho]
  · simp [World.resultOf, _cancel_ops w i implicit o ho]
  · rw [_cancel_acts w i implicit o ho]
    simp [hd]

/-! ### `BuildPut` is left within the call that enters it -/

theorem step_no_buildPut (w : World) (e : Event) (i : Nat)
    (h : w.stateOf i ≠ some state_t.BuildPut) :
    (step w e).1.stateOf i ≠ some state_t.BuildPut := by
  cases hi : w.ops i with
  | none => simp [World.stateOf, (step_none w e i hi).1]
  | some o =>
    have ho : o.state ≠ state_t.BuildPut := by
      simpa [World.stateOf, hi] using h
    obtain ⟨o', h1, h2⟩ := step_some w e i o hi
    rcases h2 with ⟨rfl, _⟩ | ht
    · simpa [World.stateOf, h1] using ho
    · simpa [World.stateOf, h1] using ht.no_buildPut ho

theorem run_no_buildPut (i : Nat) (es : List Event) (w : World)
    (h : w.stateOf i ≠ some state_t.BuildPut) :
    (run w es).1.stateOf i ≠ some state_t.BuildPut := by
  induction es generalizing w with
  | nil => exact h
  | cons e es ih =>
    rw [run_cons]
    exact ih _ (step_no_buildPut w e i h)

theorem buildPut_acts_noRaise (self : Nat) (gpr : GPROp) ( info : RequestInfo) :
    ∀ a ∈ (buildPut self gpr info).2.2, a.isRaise = false := by
  by_cases hbp : gpr.state = state_t.BuildPut
  · rcases (buildPut_run self gpr info hbp).2 with h | h <;> rw [h] <;> simp [Action.isRaise]
  · rw [buildPut_skip self gpr info hbp]
    simp

theorem handle_GPR_no_raise (w : World) (cmd : Nat) (m : Reply) :
    ∀ a ∈ (handle_GPR w cmd m).2, a.isRaise = false := by
  cases hrh : readHead cmd m with
  | none => simp [handle_GPR, hrh, dropConn, Action.isRaise]
  | some p =>
    obtain ⟨hd, data⟩ := p
    cases hinfo : w.conn.opByIOID hd.ioid with
    | none => simp [handle_GPR, hrh, hinfo]
    | some info0 =>
      cases hrd : readData cmd hd m info0 data with
      | none => simp [handle_GPR, hrh, hinfo, hrd, dropConn, Action.isRaise]
      | some q =>
        obtain ⟨info1, data1⟩ := q
        cases hop : w.ops info1.handle with
        | none => simp [handle_GPR, hrh, hinfo, hrd, hop]
        | some gpr =>
          by_cases hcs : checkState gpr cmd hd = true
          · obtain ⟨r, hr⟩ := advance_isSome info1.handle cmd hd w.conn.peerName gpr info1 data1 hcs
            obtain ⟨gpr1, info2, a1⟩ := r
            rw [handle_GPR_eq w cmd m hd data data1 info0 info1 info2 gpr gpr1 a1 hrh hinfo hrd
              hop hcs hr]
            obtain ⟨_, _, _, _, _, _, ha1⟩ :=
              advance_spec info1.handle cmd hd w.conn.peerName gpr gpr1 info1 info2 data1 a1 hcs hr
            have hb := buildPut_acts_noRaise info1.handle gpr1 info2
            have na := notify_acts info1.handle (buildPut info1.handle gpr1 info2).1
            intro a ha
            simp only [act_acts, List.mem_append, List.mem_cons] at ha
            rcases ha with (ha | ha) | ha | ha
            · rcases ha1 with rfl | ⟨rfl, _⟩
              · cases ha
              · simp only [List.mem_singleton] at ha
                rw [ha]
                rfl
            · exact hb a ha
            · rw [ha]
              rfl
            · split_ifs at ha
              · rw [na] at ha
                split_ifs at ha
                · simp only [List.mem_singleton] at ha
                  rw [ha]
                  rfl
                · cases ha
              · cases ha
          · have hcs2 : checkState gpr cmd hd = false := by simpa using hcs
            simp [handle_GPR, hrh, hinfo, hrd, hop, hcs2, dropConn, Action.isRaise]

theorem disconnected_expected (w : World) (i : Nat) (o : GPROp) (ho : w.ops i = some o)
    (hs : o.state ≠ state_t.BuildPut) :
    disconnected w i = (w, []) ∨
    disconnected w i =
      ((w.setChan o.chan { w.chans o.chan with
          pending := (w.chans o.chan).pending ++ [i] }).setOp i
        { o with state := state_t.Connecting }, []) ∨
    disconnected w i =
      (w.setOp i
        (notify i { o with state := state_t.Done,
                           result := Result.ofError Exn.Disconnect }).1,
       (notify i { o with state := state_t.Done,
                          result := Result.ofError Exn.Disconnect }).2) := by
  unfold disconnected
  simp only [ho]
  by_cases h1 : o.state = state_t.Connecting ∨ o.state = state_t.Done
  · left
    rw [if_pos h1]
  · rw [if_neg h1]
    by_cases h2 : o.state = state_t.Creating ∨ o.state = state_t.GetOPut ∨
        (o.state = state_t.Exec ∧ o.op = operation_t.Get)
    · right; left
      rw [if_pos h2]
    · rw [if_neg h2]
      have h3 : o.state = state_t.Exec := by
        cases hst : o.state <;> simp [hst] at h1 h2 hs ⊢
      right; right
      rw [if_pos h3]

theorem step_no_raise (w : World) (e : Event) : ∀ a ∈ (step w e).2, a.isRaise = false := by
  cases e with
  | register i ioid =>
    cases ho : w.ops i <;> simp [step, register, ho]
  | createOp i =>
    cases ho : w.ops i with
    | none => simp [step, createOp, ho]
    | some o =>
      simp only [step, createOp, ho]
      split_ifs <;> simp [Action.isRaise]
  | reply cmd m => exact handle_GPR_no_raise w cmd m
  | disconnected i =>
    cases ho : w.ops i with
    | none => simp [step, disconnected, ho]
    | some o =>
      have key : ∀ o1 : GPROp, ∀ a ∈ (notify i o1).2, a.isRaise = false := by
        intro o1 a ha
        rw [notify_acts] at ha
        split_ifs at ha
        · simp only [List.mem_singleton] at ha
          rw [ha]
          rfl
        · cases ha
      unfold step disconnected
      simp only [ho]
      split_ifs
      · simp
      · simp
      · exact key _
      · exact key _
  | cancel i =>
    intro a ha
    have h1 : (step w (Event.cancel i)).2 = (_cancel w i false).1.2 := (cancel_same w i).1
    rw [h1] at ha
    cases ho : w.ops i with
    | none =>
      rw [_cancel_none w i false ho] at ha
      cases ha
    | some o =>
      rw [_cancel_acts w i false o ho] at ha
      split_ifs at ha
      · simp only [List.mem_singleton] at ha
        rw [ha]
        rfl
      · cases ha
  | implicitCancel i =>
    intro a ha
    have h1 : (step w (Event.implicitCancel i)).2 = (_cancel w i true).1.2 := rfl
    rw [h1] at ha
    cases ho : w.ops i with
    | none =>
      rw [_cancel_none w i true ho] at ha
      cases ha
    | some o =>
      rw [_cancel_acts w i true o ho] at ha
      split_ifs at ha
      · simp only [List.mem_singleton] at ha
        rw [ha]
        rfl
      · cases ha

theorem run_no_raise (es : List Event) (w : World) :
    ∀ a ∈ (run w es).2, a.isRaise = false := by
  induction es generalizing w with
  | nil => simp [run_nil]
  | cons e es ih =>
    rw [run_cons]
    intro a ha
    rcases List.mem_append.mp ha with ha | ha
    · exact step_no_raise w e a ha
    · exact ih _ a ha

/-! ### `MPSCFIFO` -/

theorem calls_fifo {T : Type} (cs : List (QCall T)) (q : MPSCFIFO T)
    (hw : noWait q.nlimit q.Q.length cs = true) :
    (q.calls cs).map (fun p => p.2 ++ p.1.Q) = some (q.Q ++ pushed cs) ∧
    (q.calls cs).map (fun p => p.1.nlimit) = some q.nlimit := by
  induction cs generalizing q with
  | nil => simp [MPSCFIFO.calls, pushed]
  | cons c r ih =>
    cases c with
    | push x =>
      simp only [noWait, Bool.and_eq_true, decide_eq_true_eq] at hw
      have hlt : ¬ q.Q.length ≥ q.nlimit := by omega
      have h1 := ih { q with Q := q.Q ++ [x] } (by simpa using hw.2)
      simpa [MPSCFIFO.calls, MPSCFIFO.push, MPSCFIFO.emplace, hlt, pushed] using h1
    | pop =>
      simp only [noWait, Bool.and_eq_true, decide_eq_true_eq] at hw
      cases hq : q.Q with
      | nil => simp [hq] at hw
      | cons y t =>
        have h1 := ih { q with Q := t } (by simpa [hq] using hw.2)
        obtain ⟨h1, h2⟩ := h1
        cases hc : MPSCFIFO.calls { q with Q := t } r with
        | none => simp [hc] at h1
        | some p =>
          simp only [hc, Option.map_some', Option.some.injEq] at h1 h2
          simp [MPSCFIFO.calls, MPSCFIFO.pop, hq, hc, pushed, h1, h2]

/-! ### Discovery -/

theorem onDiscoverTick_empty (c : ContextImpl) (h : c.discoverers = []) :
    onDiscoverTick c = (c, []) := by
  simp [onDiscoverTick, h]

theorem onDiscoverTick_nonempty (c : ContextImpl) (h : c.discoverers ≠ [])
    (ha : c.discoverAge ≤ 10) :
    onDiscoverTick c =
      ({ c with discoverAge := min (c.discoverAge + 1) 10 },
       [DAction.arm (min (c.discoverAge + 1) 10), DAction.search]) := by
  have h1 : c.discoverers.isEmpty = false := by
    cases hd : c.discoverers with
    | nil => exact absurd hd h
    | cons _ _ => rfl
  unfold onDiscoverTick
  by_cases hlt : c.discoverAge < 10
  · have : min (c.discoverAge + 1) 10 = c.discoverAge + 1 := by omega
    simp [h1, hlt, this]
  · have : min (c.discoverAge + 1) 10 = c.discoverAge := by omega
    simp [h1, hlt, this]

theorem searchTime_succ (k : Nat) : searchTime (k + 1) = searchTime k + min (k + 1) 10 := by
  unfold searchTime
  by_cases h : k + 1 ≤ 10
  · have hk : k ≤ 9 := by omega
    interval_cases k <;> rfl
  · by_cases h2 : k = 10
    · subst h2
      rfl
    · have h3 : ¬ k ≤ 10 := by omega
      rw [if_neg h, if_neg h3]
      omega

theorem fire_armed (s : Clocked) (t : Nat) (hd : s.due = some t)
    (hne : s.ctx.discoverers ≠ []) (ha : s.ctx.discoverAge ≤ 10) :
    s.step DEvent.fire =
      { ctx := { s.ctx with discoverAge := min (s.ctx.discoverAge + 1) 10 },
        now := t, due := some (t + min (s.ctx.discoverAge + 1) 10),
        searches := s.searches ++ [t] } := by
  simp [Clocked.step, hd, onDiscoverTick_nonempty s.ctx hne ha, Clocked.perform]

theorem start_first (s : Clocked) (op : Nat) (h : s.ctx.discoverers = []) :
    s.step (DEvent.start op) =
      { ctx := { discoverers := [op],
                 running := if op ∈ s.ctx.running then s.ctx.running
                            else s.ctx.running ++ [op],
                 discoverAge := 1 },
        now := s.now, due := some (s.now + 1), searches := s.searches ++ [s.now] } := by
  simp [Clocked.step, Discovery.start, h, onDiscoverTick, Clocked.perform]

theorem run_append (s : Clocked) (es fs : List DEvent) :
    s.run (es ++ fs) = (s.run es).run fs := by
  induction es generalizing s with
  | nil => rfl
  | cons e es ih => exact ih (s.step e)

theorem replicate_succ_fire (k : Nat) :
    List.replicate (k + 1) DEvent.fire = List.replicate k DEvent.fire ++ [DEvent.fire] := by
  rw [List.replicate_succ']

/-- The state after the first registration and `k` expiries of the timer. -/
theorem ticks_state (s : Clocked) (op : Nat) (h : s.ctx.discoverers = []) (k : Nat) :
    ((s.step (DEvent.start op)).run (List.replicate k DEvent.fire)) =
      { ctx := { discoverers := [op],
                 running := if op ∈ s.ctx.running then s.ctx.running
                            else s.ctx.running ++ [op],
                 discoverAge := min (k + 1) 10 },
        now := s.now + searchTime k,
        due := some (s.now + searchTime k + min (k + 1) 10),
        searches := s.searches ++ (List.range (k + 1)).map fun j => s.now + searchTime j } := by
  induction k with
  | zero =>
    rw [start_first s op h]
    simp [Clocked.run, searchTime, List.range_succ]
  | succ k ih =>
    rw [replicate_succ_fire, run_append, ih]
    simp only [Clocked.run]
    rw [fire_armed _ _ rfl (by simp) (by simp)]
    have e1 : min (min (k + 1) 10 + 1) 10 = min (k + 1 + 1) 10 := by omega
    have e2 := searchTime_succ k
    rw [List.range_succ (n := k + 1), List.map_append, ← List.append_assoc]
    simp only [e1, e2, List.map_cons, List.map_nil, Nat.add_assoc]

theorem perform_ctx (acts : List DAction) (t : Clocked) : (t.perform acts).ctx = t.ctx := by
  induction acts generalizing t with
  | nil => rfl
  | cons a r ih => cases a <;> simp [Clocked.perform, ih]

theorem onDiscoverTick_age (c : ContextImpl) (h : c.discoverAge ≤ 10) :
    (onDiscoverTick c).1.discoverAge ≤ 10 := by
  unfold onDiscoverTick
  split_ifs <;> simp <;> omega

theorem age_bounded_step (s : Clocked) (e : DEvent) (h : s.ctx.discoverAge ≤ 10) :
    (s.step e).ctx.discoverAge ≤ 10 := by
  cases e with
  | start op =>
    simp only [Clocked.step, perform_ctx]
    unfold Discovery.start
    by_cases he : s.ctx.discoverers.isEmpty = true
    · simp only [he, if_true]
      exact onDiscoverTick_age _ (Nat.zero_le 10)
    · simp only [he, Bool.false_eq_true, if_false]
      exact h
  | cancel op =>
    simp only [Clocked.step, Discovery._cancel]
    split_ifs <;> exact h
  | drop op =>
    simp only [Clocked.step, Discovery.drop, Discovery._cancel]
    split_ifs <;> exact h
  | fire =>
    simp only [Clocked.step]
    cases hd : s.due with
    | none => exact h
    | some t =>
      simp only [perform_ctx]
      exact onDiscoverTick_age _ h

theorem age_bounded_run (es : List DEvent) (s : Clocked) (h : s.ctx.discoverAge ≤ 10) :
    (s.run es).ctx.discoverAge ≤ 10 := by
  induction es generalizing s with
  | nil => exact h
  | cons e es ih => exact ih _ (age_bounded_step s e h)

theorem removed_last (s : Clocked) (op : Nat) (h1 : s.ctx.discoverers = [op])
    (hr : op ∈ s.ctx.running) :
    (s.step (DEvent.cancel op)).ctx.discoverers = [] ∧
    (s.step (DEvent.drop op)).ctx.discoverers = [] ∧
    (s.step (DEvent.cancel op)).searches = s.searches ∧
    (s.step (DEvent.drop op)).searches = s.searches := by
  simp [Clocked.step, Discovery.drop, Discovery._cancel, h1, hr]

theorem fire_idle (s : Clocked) (h : s.ctx.discoverers = []) :
    (s.step DEvent.fire).ctx = s.ctx ∧ (s.step DEvent.fire).searches = s.searches ∧
    (s.step DEvent.fire).due = none := by
  cases hd : s.due with
  | none => simp [Clocked.step, hd]
  | some t => simp [Clocked.step, hd, onDiscoverTick_empty s.ctx h, Clocked.perform]

theorem fires_idle (s : Clocked) (h : s.ctx.discoverers = []) (n : Nat) :
    s.run (List.replicate (n + 1) DEvent.fire) = s.step DEvent.fire := by
  induction n with
  | zero => rfl
  | succ n ih =>
    rw [replicate_succ_fire, run_append, ih]
    obtain ⟨_, _, h3⟩ := fire_idle s h
    simp only [Clocked.run]
    generalize s.step DEvent.fire = t at *
    simp [Clocked.step, h3]

/-! ### The field map: `Args::build` -/

theorem find_nil (n : String) : Members.find [] n = none := rfl

theorem find_cons (k : String) (f : Field) (s : Members) (n : String) :
    Members.find ((k, f) :: s) n = if n = k then some f else Members.find s n := by
  unfold Members.find
  rw [List.lookup_cons]
  by_cases h : n = k
  · simp [h]
  · have : (n == k) = false := by simpa using h
    simp [h, this]

theorem find_store (s : Members) (k : String) (d : Nat) (n : String) :
    Members.find (Members.store s k d) n =
      if n = k then (Members.find s n).map fun f => { f with stored := some d }
      else Members.find s n := by
  induction s with
  | nil => simp [Members.store, find_nil]
  | cons p r ih =>
    obtain ⟨m, f⟩ := p
    have hs : Members.store ((m, f) :: r) k d =
        (if m = k then (m, { f with stored := some d }) else (m, f)) :: Members.store r k d := by
      simp [Members.store]
    rw [hs]
    by_cases hm : m = k
    · subst hm
      rw [if_pos rfl, find_cons, find_cons, ih]
      by_cases hn : n = m <;> simp [hn]
    · rw [if_neg hm, find_cons, find_cons, ih]
      by_cases hn : n = m
      · subst hn
        simp [hm]
      · simp [hn]

theorem names_store (s : Members) (k : String) (d : Nat) :
    (Members.store s k d).map Prod.fst = s.map Prod.fst := by
  unfold Members.store
  rw [List.map_map]
  apply List.map_congr_left
  intro p _
  by_cases h : p.1 = k <;> simp [h]

theorem find_cloneEmpty (s : Members) (n : String) :
    Members.find (Members.cloneEmpty s) n =
      (Members.find s n).map fun f => { f with stored := none } := by
  induction s with
  | nil => simp [Members.cloneEmpty, find_nil]
  | cons p r ih =>
    obtain ⟨m, f⟩ := p
    have hs : Members.cloneEmpty ((m, f) :: r) =
        (m, { f with stored := none }) :: Members.cloneEmpty r := by
      simp [Members.cloneEmpty]
    rw [hs, find_cons, find_cons, ih]
    by_cases hn : n = m <;> simp [hn]

theorem lookup_cons_key {β : Type} (k : String) (b : β) (l : List (String × β)) (n : String) :
    List.lookup n ((k, b) :: l) = if n = k then some b else List.lookup n l := by
  rw [List.lookup_cons]
  by_cases h : n = k
  · simp [h]
  · have : (n == k) = false := by simpa using h
    simp [h, this]

theorem lookup_none_of_not_mem {β : Type} (l : List (String × β)) (n : String)
    (h : n ∉ l.map Prod.fst) : List.lookup n l = none := by
  induction l with
  | nil => rfl
  | cons p r ih =>
    obtain ⟨k, b⟩ := p
    simp only [List.map_cons, List.mem_cons, not_or] at h
    rw [lookup_cons_key, if_neg h.1]
    exact ih h.2

theorem lookup_of_mem {β : Type} (l : List (String × β)) (hnd : (l.map Prod.fst).Nodup)
    (n : String) (b : β) (h : (n, b) ∈ l) : List.lookup n l = some b := by
  induction l with
  | nil => cases h
  | cons p r ih =>
    obtain ⟨k, c⟩ := p
    simp only [List.map_cons, List.nodup_cons] at hnd
    rw [lookup_cons_key]
    rcases List.mem_cons.mp h with h2 | h2
    · cases h2
      simp
    · have : n ≠ k := by
        intro hc
        subst hc
        exact hnd.1 (List.mem_map.mpr ⟨(n, b), h2, rfl⟩)
      rw [if_neg this]
      exact ih hnd.2 h2

/-- A required entry that `build` cannot honour on the structure `ret`. -/
theorem unmet_store (copyIn : Nat → Arg → Option Nat) (ret : Members) (k : String) (d : Nat)
    (n : String) (v : Arg) :
    (Members.find (Members.store ret k d) n = none ∨
      ∃ f, Members.find (Members.store ret k d) n = some f ∧ copyIn f.code v = none) ↔
    (Members.find ret n = none ∨ ∃ f, Members.find ret n = some f ∧ copyIn f.code v = none) := by
  rw [find_store]
  by_cases hn : n = k
  · rw [if_pos hn]
    cases hf : Members.find ret n with
    | none => simp
    | some f => simp
  · rw [if_neg hn]

theorem buildLoop_error (copyIn : Nat → Arg → Option Nat) (vs : List (String × Arg × Bool))
    (ret : Members) :
    (∃ e, Args.buildLoop copyIn vs ret = Except.error e) ↔
    ∃ n v, (n, v, true) ∈ vs ∧
      (Members.find ret n = none ∨
        ∃ f, Members.find ret n = some f ∧ copyIn f.code v = none) := by
  induction vs generalizing ret with
  | nil => simp [Args.buildLoop]
  | cons x rest ih =>
    obtain ⟨name, v, required⟩ := x
    have tail : ∀ ret2 : Members,
        (∀ n w, (Members.find ret2 n = none ∨
            ∃ f, Members.find ret2 n = some f ∧ copyIn f.code w = none) ↔
          (Members.find ret n = none ∨
            ∃ f, Members.find ret n = some f ∧ copyIn f.code w = none)) →
        ¬ (required = true ∧ (Members.find ret name = none ∨
            ∃ f, Members.find ret name = some f ∧ copyIn f.code v = none)) →
        ((∃ e, Args.buildLoop copyIn rest ret2 = Except.error e) ↔
          ∃ n w, (n, w, true) ∈ (name, v, required) :: rest ∧
            (Members.find ret n = none ∨
              ∃ f, Members.find ret n = some f ∧ copyIn f.code w = none)) := by
      intro ret2 heq hhead
      rw [ih ret2]
      constructor
      · rintro ⟨n, w, hm, hc⟩
        exact ⟨n, w, List.mem_cons_of_mem _ hm, (heq n w).mp hc⟩
      · rintro ⟨n, w, hm, hc⟩
        rcases List.mem_cons.mp hm with hm | hm
        · cases hm
          exact absurd ⟨rfl, hc⟩ hhead
        · exact ⟨n, w, hm, (heq n w).mpr hc⟩
    have head : required = true → (Members.find ret name = none ∨
        ∃ f, Members.find ret name = some f ∧ copyIn f.code v = none) →
        ∃ n w, (n, w, true) ∈ (name, v, required) :: rest ∧
          (Members.find ret n = none ∨
            ∃ f, Members.find ret n = some f ∧ copyIn f.code w = none) := by
      intro hr hc
      subst hr
      exact ⟨name, v, List.mem_cons_self _ _, hc⟩
    unfold Args.buildLoop
    cases hf : Members.find ret name with
    | none =>
      cases required with
      | true =>
        simp only [if_true]
        exact ⟨fun _ => head rfl (Or.inl hf), fun _ => ⟨_, rfl⟩⟩
      | false =>
        simp only [Bool.false_eq_true, if_false]
        exact tail ret (fun _ _ => Iff.rfl) (fun c => Bool.false_ne_true c.1)
    | some fld =>
      cases hc : copyIn fld.code v with
      | some d =>
        simp only [hc]
        refine tail _ (fun n w => unmet_store copyIn ret name d n w) ?_
        rintro ⟨_, h | ⟨f, h1, h2⟩⟩
        · rw [hf] at h
          cases h
        · rw [hf] at h1
          cases h1
          rw [hc] at h2
          cases h2
      | none =>
        cases required with
        | true =>
          simp only [hc, if_true]
          exact ⟨fun _ => head rfl (Or.inr ⟨fld, hf, hc⟩), fun _ => ⟨_, rfl⟩⟩
        | false =>
          simp only [hc, Bool.false_eq_true, if_false]
          exact tail ret (fun _ _ => Iff.rfl) (fun c => Bool.false_ne_true c.1)

theorem fill_code (copyIn : Nat → Arg → Option Nat) (vs : List (String × Arg × Bool))
    (n : String) (f : Field) : (Args.fill copyIn vs n f).code = f.code := by
  unfold Args.fill
  cases List.lookup n vs with
  | none => rfl
  | some x =>
    simp only []
    cases copyIn f.code x.1 <;> rfl

theorem buildLoop_ok (copyIn : Nat → Arg → Option Nat) (vs : List (String × Arg × Bool))
    (hnd : (vs.map Prod.fst).Nodup) (ret r : Members)
    (h : Args.buildLoop copyIn vs ret = Except.ok r) :
    r.map Prod.fst = ret.map Prod.fst ∧
    ∀ n, Members.find r n = (Members.find ret n).map (Args.fill copyIn vs n) := by
  induction vs generalizing ret with
  | nil =>
    simp only [Args.buildLoop, Except.ok.injEq] at h
    subst h
    refine ⟨rfl, fun n => ?_⟩
    cases Members.find ret n <;> simp [Args.fill]
  | cons x rest ih =>
    obtain ⟨name, v, required⟩ := x
    simp only [List.map_cons, List.nodup_cons] at hnd
    have hrest : List.lookup name rest = none := lookup_none_of_not_mem rest name hnd.1
    -- an entry that leaves `ret` as it is
    have skip : (Members.find ret name = none ∨
          ∃ f, Members.find ret name = some f ∧ copyIn f.code v = none) →
        Args.buildLoop copyIn rest ret = Except.ok r →
        r.map Prod.fst = ret.map Prod.fst ∧
        ∀ n, Members.find r n =
          (Members.find ret n).map (Args.fill copyIn ((name, v, required) :: rest) n) := by
      intro hc h2
      obtain ⟨i1, i2⟩ := ih hnd.2 ret h2
      refine ⟨i1, fun n => ?_⟩
      rw [i2 n]
      by_cases hn : n = name
      · subst hn
        rcases hc with hc | ⟨f, hc, hcv⟩
        · rw [hc]
          rfl
        · rw [hc]
          simp [Args.fill, hrest, lookup_cons_key, hcv]
      · cases Members.find ret n with
        | none => rfl
        | some f => simp [Args.fill, lookup_cons_key, hn]
    unfold Args.buildLoop at h
    cases hf : Members.find ret name with
    | none =>
      simp only [hf] at h
      cases required with
      | true => simp at h
      | false =>
        simp only [Bool.false_eq_true, if_false] at h
        exact skip (Or.inl hf) h
    | some fld =>
      simp only [hf] at h
      cases hc : copyIn fld.code v with
      | none =>
        simp only [hc] at h
        cases required with
        | true => simp at h
        | false =>
          simp only [Bool.false_eq_true, if_false] at h
          exact skip (Or.inr ⟨fld, hf, hc⟩) h
      | some d =>
        simp only [hc] at h
        obtain ⟨i1, i2⟩ := ih hnd.2 _ h
        refine ⟨by rw [i1, names_store], fun n => ?_⟩
        rw [i2 n, find_store]
        by_cases hn : n = name
        · subst hn
          rw [if_pos rfl, hf]
          simp [Args.fill, hrest, lookup_cons_key, hc]
        · rw [if_neg hn]
          cases Members.find ret n with
          | none => rfl
          | some f => simp [Args.fill, lookup_cons_key, hn]

theorem build_ok (copyIn : Nat → Arg → Option Nat) (a : Args)
    (hnd : (a.values.map Prod.fst).Nodup) (prototype ret : Members)
    (h : a.build copyIn prototype = Except.ok ret) :
    ret.map Prod.fst = prototype.map Prod.fst ∧
    ∀ n, Members.find ret n = (Members.find prototype n).map fun f =>
      ⟨f.code, (a.find n).bind fun x => copyIn f.code x.1⟩ := by
  obtain ⟨h1, h2⟩ := buildLoop_ok copyIn a.values hnd _ ret h
  refine ⟨by rw [h1]; simp [Members.cloneEmpty], fun n => ?_⟩
  rw [h2 n, find_cloneEmpty]
  cases Members.find prototype n with
  | none => rfl
  | some f =>
    simp only [Option.map_some', Args.fill, Args.find]
    cases List.lookup n a.values with
    | none => rfl
    | some x =>
      simp only [Option.some_bind]
      cases copyIn f.code x.1 <;> rfl

theorem build_error (copyIn : Nat → Arg → Option Nat) (a : Args) (prototype : Members) :
    (∃ e, a.build copyIn prototype = Except.error e) ↔
    ∃ n v, (n, v, true) ∈ a.values ∧
      (Members.find prototype n = none ∨
        ∃ f, Members.find prototype n = some f ∧ copyIn f.code v = none) := by
  unfold Args.build
  rw [buildLoop_error]
  have key : ∀ n v, (Members.find (Members.cloneEmpty prototype) n = none ∨
        ∃ f, Members.find (Members.cloneEmpty prototype) n = some f ∧ copyIn f.code v = none) ↔
      (Members.find prototype n = none ∨
        ∃ f, Members.find prototype n = some f ∧ copyIn f.code v = none) := by
    intro n v
    rw [find_cloneEmpty]
    cases Members.find prototype n <;> simp
  constructor
  · rintro ⟨n, v, hm, hc⟩
    exact ⟨n, v, hm, (key n v).mp hc⟩
  · rintro ⟨n, v, hm, hc⟩
    exact ⟨n, v, hm, (key n v).mpr hc⟩

/-! ### The field map: `_set` and `uriArgs` -/

theorem lookup_isSome_iff {β : Type} (l : List (String × β)) (n : String) :
    (List.lookup n l).isSome = true ↔ n ∈ l.map Prod.fst := by
  induction l with
  | nil => simp
  | cons p r ih =>
    obtain ⟨k, b⟩ := p
    rw [lookup_cons_key]
    by_cases h : n = k
    · simp [h]
    · simp [h, ih]

theorem mapEmplace_perm (name : String) (x : Arg × Bool) (vs : List (String × Arg × Bool))
    (h : name ∉ vs.map Prod.fst) : (mapEmplace name x vs).Perm ((name, x) :: vs) := by
  induction vs with
  | nil => exact List.Perm.refl _
  | cons p r ih =>
    obtain ⟨n, y⟩ := p
    simp only [List.map_cons, List.mem_cons, not_or] at h
    unfold mapEmplace
    by_cases h1 : keyLt name n = true
    · rw [if_pos h1]
    · rw [if_neg h1, if_neg h.1]
      exact ((ih h.2).cons (n, y)).trans (List.Perm.swap _ _ _)

theorem lookup_mapEmplace (name : String) (x : Arg × Bool) (vs : List (String × Arg × Bool))
    (h : name ∉ vs.map Prod.fst) (k : String) :
    List.lookup k (mapEmplace name x vs) = if k = name then some x else List.lookup k vs := by
  induction vs with
  | nil => simp [mapEmplace, lookup_cons_key]
  | cons p r ih =>
    obtain ⟨n, y⟩ := p
    simp only [List.map_cons, List.mem_cons, not_or] at h
    unfold mapEmplace
    by_cases h1 : keyLt name n = true
    · rw [if_pos h1, lookup_cons_key]
    · rw [if_neg h1, if_neg h.1, lookup_cons_key, lookup_cons_key, ih h.2]
      by_cases hk : k = n
      · have : k ≠ name := fun hc => h.1 (hc.symm.trans hk)
        simp [hk, this, Ne.symm h.1]
      · simp [hk]

/-- What `_set` keeps true of the field map: no key twice in `values`, no name twice
in `names`, and the names are the keys. -/
theorem _set_inv (a : Args) (name : String) (v : Arg) (required : Bool)
    (h1 : (a.values.map Prod.fst).Nodup) (h2 : a.names.Nodup)
    (h3 : ∀ n, n ∈ a.names ↔ n ∈ a.values.map Prod.fst) :
    ∃ a', (PRBase._set (some a) name v required).1 = some a' ∧
      (a'.values.map Prod.fst).Nodup ∧ a'.names.Nodup ∧
      (∀ n, n ∈ a'.names ↔ n ∈ a'.values.map Prod.fst) ∧
      (name ∈ a.names → a' = a ∧ ∃ what,
        (PRBase._set (some a) name v required).2 = some (Exn.logic_error what)) ∧
      (name ∉ a.names → a'.names = a.names ++ [name] ∧
        (PRBase._set (some a) name v required).2 = none ∧
        ∀ k, a'.find k = if k = name then some (v, required) else a.find k) := by
  unfold PRBase._set
  simp only [Option.getD_some]
  by_cases hin : name ∈ a.names
  · have hs : (a.find name).isSome = true :=
      (lookup_isSome_iff a.values name).mpr ((h3 name).mp hin)
    simp only [hs, if_true]
    exact ⟨a, rfl, h1, h2, h3, fun _ => ⟨rfl, _, rfl⟩, fun hc => absurd hin hc⟩
  · have hk : name ∉ a.values.map Prod.fst := fun hc => hin ((h3 name).mpr hc)
    have hs : ¬ (a.find name).isSome = true := fun hc =>
      hk ((lookup_isSome_iff a.values name).mp hc)
    simp only [hs, if_false]
    have hp := mapEmplace_perm name (v, required) a.values hk
    have hpk : ((mapEmplace name (v, required) a.values).map Prod.fst).Perm
        (name :: a.values.map Prod.fst) := by
      simpa using hp.map Prod.fst
    refine ⟨_, rfl, ?_, ?_, ?_, fun hc => absurd hc hin, fun _ => ⟨rfl, rfl, ?_⟩⟩
    · exact hpk.nodup_iff.mpr (List.nodup_cons.mpr ⟨hk, h1⟩)
    · refine List.nodup_append.mpr ⟨h2, List.nodup_singleton _, ?_⟩
      intro n hn hn2
      rw [List.mem_singleton] at hn2
      exact hin (hn2 ▸ hn)
    · intro n
      rw [hpk.mem_iff]
      simp only [List.mem_append, List.mem_singleton, List.mem_cons, h3 n]
      tauto
    · intro k
      exact lookup_mapEmplace name (v, required) a.values hk k

theorem _set_none (name : String) (v : Arg) (required : Bool) :
    PRBase._set none name v required = PRBase._set (some ⟨[], []⟩) name v required := rfl

theorem sets_none_cons (c : String × Arg × Bool) (cs : List (String × Arg × Bool)) :
    PRBase.sets none (c :: cs) = PRBase.sets (some ⟨[], []⟩) (c :: cs) := rfl

theorem sets_spec (calls : List (String × Arg × Bool)) (a : Args)
    (h1 : (a.values.map Prod.fst).Nodup) (h2 : a.names.Nodup)
    (h3 : ∀ n, n ∈ a.names ↔ n ∈ a.values.map Prod.fst)
    (hc : (calls.map Prod.fst).Nodup) (hd : ∀ c ∈ calls, c.1 ∉ a.names) :
    ∃ a', PRBase.sets (some a) calls = some a' ∧
      (a'.values.map Prod.fst).Nodup ∧ a'.names.Nodup ∧
      (∀ n, n ∈ a'.names ↔ n ∈ a'.values.map Prod.fst) ∧
      a'.names = a.names ++ calls.map Prod.fst ∧
      ∀ k, a'.find k = match List.lookup k calls with
        | some x => some x
        | none => a.find k := by
  induction calls generalizing a with
  | nil => exact ⟨a, rfl, h1, h2, h3, by simp, fun k => rfl⟩
  | cons c cs ih =>
    obtain ⟨name, v, required⟩ := c
    simp only [List.map_cons, List.nodup_cons] at hc
    have hin : name ∉ a.names := hd _ (List.mem_cons_self _ _)
    obtain ⟨a1, e1, i1, i2, i3, _, i5⟩ := _set_inv a name v required h1 h2 h3
    obtain ⟨n1, _, f1⟩ := i5 hin
    have hd1 : ∀ c ∈ cs, c.1 ∉ a1.names := by
      intro c hcm
      rw [n1]
      simp only [List.mem_append, List.mem_singleton, not_or]
      refine ⟨hd c (List.mem_cons_of_mem _ hcm), ?_⟩
      intro hcn
      exact hc.1 (List.mem_map.mpr ⟨c, hcm, hcn⟩)
    obtain ⟨a2, e2, j1, j2, j3, j4, j5⟩ := ih a1 i1 i2 i3 hc.2 hd1
    refine ⟨a2, ?_, j1, j2, j3, ?_, ?_⟩
    · show PRBase.sets (PRBase._set (some a) name v required).1 cs = some a2
      rw [e1, e2]
    · rw [j4, n1]
      simp
    · intro k
      rw [j5 k, lookup_cons_key, f1 k]
      by_cases hk : k = name
      · subst hk
        rw [lookup_none_of_not_mem cs k hc.1]
        simp
      · simp [hk]

theorem uriMembers_calls (a : Args) (cs : List (String × Arg × Bool))
    (h : ∀ c ∈ cs, a.find c.1 = some c.2) :
    Args.uriMembers a (cs.map Prod.fst) =
      some (cs.map fun c => (c.1, (⟨c.2.1.code, none⟩ : Field))) := by
  induction cs with
  | nil => rfl
  | cons c r ih =>
    have hc := h c (List.mem_cons_self _ _)
    have hr := ih fun c2 hc2 => h c2 (List.mem_cons_of_mem _ hc2)
    simp only [List.map_cons, Args.uriMembers, hc, hr, Option.map_some']

/-- One `assign` of the second loop of `uriArgs`, entry by entry. -/
theorem assign_eq_map (M : Members) (hM : (M.map Prod.fst).Nodup) (k : String) (v : Arg) :
    Members.assign M k v =
      M.map fun m => if m.1 = k ∧ m.2.code = v.code
        then (m.1, { m.2 with stored := some v.datum }) else m := by
  unfold Members.assign
  cases hf : Members.find M k with
  | none =>
    have hk : k ∉ M.map Prod.fst := by
      intro hc
      have := (lookup_isSome_iff M k).mpr hc
      unfold Members.find at hf
      rw [hf] at this
      cases this
    symm
    simp only []
    conv_rhs => rw [← List.map_id M]
    apply List.map_congr_left
    intro m hm
    have : m.1 ≠ k := fun hc => hk (List.mem_map.mpr ⟨m, hm, hc⟩)
    simp [this]
  | some fld =>
    have huniq : ∀ m ∈ M, m.1 = k → m.2 = fld := by
      intro m hm hmk
      have := lookup_of_mem M hM m.1 m.2 hm
      unfold Members.find at hf
      rw [hmk, hf] at this
      exact (Option.some.inj this).symm
    simp only []
    by_cases hcode : fld.code = v.code
    · rw [if_pos hcode]
      unfold Members.store
      apply List.map_congr_left
      intro m hm
      by_cases hmk : m.1 = k
      · have := huniq m hm hmk
        simp [hmk, this, hcode]
      · simp [hmk]
    · rw [if_neg hcode]
      conv_lhs => rw [← List.map_id M]
      apply List.map_congr_left
      intro m hm
      by_cases hmk : m.1 = k
      · have := huniq m hm hmk
        simp [hmk, this, hcode]
      · simp [hmk]

theorem foldl_assign (vs : List (String × Arg × Bool)) (hnd : (vs.map Prod.fst).Nodup)
    (M : Members) (hM : (M.map Prod.fst).Nodup) :
    vs.foldl (fun q p => Members.assign q p.1 p.2.1) M =
      M.map fun m => match List.lookup m.1 vs with
        | some x => if m.2.code = x.1.code
            then (m.1, { m.2 with stored := some x.1.datum }) else m
        | none => m := by
  induction vs generalizing M with
  | nil => simp
  | cons p rest ih =>
    obtain ⟨k, v, required⟩ := p
    simp only [List.map_cons, List.nodup_cons] at hnd
    have hrest : List.lookup k rest = none := lookup_none_of_not_mem rest k hnd.1
    rw [List.foldl_cons, assign_eq_map M hM k v]
    have hM2 : ((M.map fun m => if m.1 = k ∧ m.2.code = v.code
        then (m.1, { m.2 with stored := some v.datum }) else m).map Prod.fst).Nodup := by
      have : ((M.map fun m => if m.1 = k ∧ m.2.code = v.code
          then (m.1, ({ m.2 with stored := some v.datum } : Field)) else m).map Prod.fst)
          = M.map Prod.fst := by
        rw [List.map_map]
        apply List.map_congr_left
        intro m _
        simp only [Function.comp]
        split_ifs <;> rfl
      rw [this]
      exact hM
    rw [ih hnd.2 _ hM2, List.map_map]
    apply List.map_congr_left
    intro m _
    simp only [Function.comp]
    by_cases hmk : m.1 = k
    · by_cases hcode : m.2.code = v.code
      · simp [hmk, hcode, hrest, lookup_cons_key]
      · simp [hmk, hcode, hrest, lookup_cons_key]
    · simp [hmk, lookup_cons_key]

theorem uriArgs_of_calls (a : Args) (cs : List (String × Arg × Bool))
    (h1 : (a.values.map Prod.fst).Nodup) (hc : (cs.map Prod.fst).Nodup)
    (hn : a.names = cs.map Prod.fst) (hf : ∀ c ∈ cs, a.find c.1 = some c.2) :
    a.uriArgs = Except.ok ⟨"", "", queryOf cs⟩ := by
  unfold Args.uriArgs
  rw [hn, uriMembers_calls a cs hf]
  simp only []
  have hM : ((cs.map fun c => (c.1, (⟨c.2.1.code, none⟩ : Field))).map Prod.fst).Nodup := by
    rw [List.map_map]
    exact hc
  rw [foldl_assign a.values h1 _ hM, List.map_map]
  congr 2
  unfold queryOf
  apply List.map_congr_left
  intro c hcm
  have := hf c hcm
  unfold Args.find at this
  simp [Function.comp, this]

theorem sets_uriArgs (calls : List (String × Arg × Bool)) (hc : (calls.map Prod.fst).Nodup)
    (hne : calls ≠ []) :
    ∃ a, PRBase.sets none calls = some a ∧ a.names = calls.map Prod.fst ∧
      (∀ c ∈ calls, a.find c.1 = some c.2) ∧ a.wf = true ∧
      a.uriArgs = Except.ok ⟨"", "", queryOf calls⟩ := by
  obtain ⟨a, e, i1, _, _, i4, i5⟩ := sets_spec calls ⟨[], []⟩ (by simp) (by simp)
    (by simp) hc (by simp)
  have hs : PRBase.sets none calls = some a := by
    cases calls with
    | nil => exact absurd rfl hne
    | cons c cs => rw [sets_none_cons, e]
  have hn : a.names = calls.map Prod.fst := by simpa using i4
  have hf : ∀ c ∈ calls, a.find c.1 = some c.2 := by
    intro c hcm
    rw [i5 c.1, lookup_of_mem calls hc c.1 c.2 hcm]
  refine ⟨a, hs, hn, hf, ?_, uriArgs_of_calls a calls i1 hc hn hf⟩
  unfold Args.wf
  rw [List.all_eq_true, hn]
  intro n hnm
  obtain ⟨c, hcm, rfl⟩ := List.mem_map.mp hnm
  rw [hf c hcm]
  rfl

theorem uriArgs_ok_of_wf (a : Args) (h : a.wf = true) : ∃ u, a.uriArgs = Except.ok u := by
  have key : ∀ ns : List String, (∀ n ∈ ns, (a.find n).isSome = true) →
      ∃ l, Args.uriMembers a ns = some l := by
    intro ns
    induction ns with
    | nil => exact fun _ => ⟨[], rfl⟩
    | cons n r ih =>
      intro hn
      obtain ⟨l, hl⟩ := ih fun m hm => hn m (List.mem_cons_of_mem _ hm)
      have h1 := hn n (List.mem_cons_self _ _)
      cases hf : a.find n with
      | none => simp [hf] at h1
      | some x =>
        refine ⟨(n, ⟨x.1.code, none⟩) :: l, ?_⟩
        simp only [Args.uriMembers, hf, hl, Option.map_some']
  unfold Args.wf at h
  rw [List.all_eq_true] at h
  obtain ⟨l, hl⟩ := key a.names h
  unfold Args.uriArgs
  rw [hl]
  exact ⟨_, rfl⟩

theorem enqueue_ops (w : World) (chan slot : Nat) (op : GPROp) :
    (enqueue notConnected w chan slot op).1.ops slot = some op ∧
    (enqueue notConnected w chan slot op).1.chans chan =
      { w.chans chan with pending := (w.chans chan).pending ++ [slot] } ∧
    (enqueue notConnected w chan slot op).2 = [] := by
  simp [enqueue, notConnected, World.setOp, World.setChan]

/-! ### `GetOPut` is a state of PUT with `getOput` -/

theorem step_getOPut (w : World) (e : Event) (i : Nat)
    (h : ∀ o, w.ops i = some o → o.state = state_t.GetOPut →
      o.op = operation_t.Put ∧ o.getOput = true) :
    ∀ o, (step w e).1.ops i = some o → o.state = state_t.GetOPut →
      o.op = operation_t.Put ∧ o.getOput = true := by
  intro o' ho'
  cases hi : w.ops i with
  | none =>
    rw [(step_none w e i hi).1] at ho'
    cases ho'
  | some o =>
    obtain ⟨o2, h1, h2⟩ := step_some w e i o hi
    rw [h1] at ho'
    cases ho'
    rcases h2 with ⟨rfl, _⟩ | ht
    · exact h _ hi
    · exact ht.getOPut_put (h o hi)

theorem run_getOPut (i : Nat) (es : List Event) (w : World)
    (h : ∀ o, w.ops i = some o → o.state = state_t.GetOPut →
      o.op = operation_t.Put ∧ o.getOput = true) :
    ∀ o, (run w es).1.ops i = some o → o.state = state_t.GetOPut →
      o.op = operation_t.Put ∧ o.getOput = true := by
  induction es generalizing w with
  | nil => exact h
  | cons e es ih =>
    rw [run_cons]
    exact ih _ (step_getOPut w e i h)

theorem checkState_getOPut (gpr : GPROp) (cmd : Nat) (hd : Header)
    (hs : gpr.state = state_t.GetOPut) (hk : gpr.op = operation_t.Put)
    (h : checkState gpr cmd hd = true) :
    cmd = CMD_PUT ∧ hd.init = false ∧ hd.get = true := by
  obtain ⟨h1, h2⟩ := checkState_true gpr cmd hd h
  rw [hk] at h1
  refine ⟨h1.symm, ?_⟩
  rcases h2 with ⟨c, _⟩ | ⟨_, c1, c2⟩ | ⟨c, _⟩
  · rw [hs] at c
    cases c
  · exact ⟨c1, c2⟩
  · rw [hs] at c
    cases c

/-! ### The field map under any sequence of `_set` -/

theorem sets_inv (calls : List (String × Arg × Bool)) (a : Args)
    (h1 : (a.values.map Prod.fst).Nodup) (h2 : a.names.Nodup)
    (h3 : ∀ n, n ∈ a.names ↔ n ∈ a.values.map Prod.fst) :
    ∃ a', PRBase.sets (some a) calls = some a' ∧
      (a'.values.map Prod.fst).Nodup ∧ a'.names.Nodup ∧
      (∀ n, n ∈ a'.names ↔ n ∈ a'.values.map Prod.fst) := by
  induction calls generalizing a with
  | nil => exact ⟨a, rfl, h1, h2, h3⟩
  | cons c cs ih =>
    obtain ⟨a1, e1, i1, i2, i3, _, _⟩ := _set_inv a c.1 c.2.1 c.2.2 h1 h2 h3
    obtain ⟨a2, e2, j⟩ := ih a1 i1 i2 i3
    refine ⟨a2, ?_, j⟩
    show PRBase.sets (PRBase._set (some a) c.1 c.2.1 c.2.2).1 cs = some a2
    rw [e1, e2]

theorem sets_none_inv (calls : List (String × Arg × Bool)) (a : Args)
    (h : PRBase.sets none calls = some a) :
    (a.values.map Prod.fst).Nodup ∧ a.names.Nodup ∧
    (∀ n, n ∈ a.names ↔ n ∈ a.values.map Prod.fst) := by
  cases calls with
  | nil => cases h
  | cons c cs =>
    rw [sets_none_cons] at h
    obtain ⟨a', e, j⟩ := sets_inv (c :: cs) ⟨[], []⟩ (by simp) (by simp) (by simp)
    rw [e] at h
    cases h
    exact j

theorem wf_of_names_keys (a : Args) (h3 : ∀ n, n ∈ a.names ↔ n ∈ a.values.map Prod.fst) :
    a.wf = true := by
  unfold Args.wf
  rw [List.all_eq_true]
  intro n hn
  exact (lookup_isSome_iff a.values n).mpr ((h3 n).mp hn)

theorem _set_again (a : Args) (name : String) (v : Arg) (required : Bool)
    (h3 : ∀ n, n ∈ a.names ↔ n ∈ a.values.map Prod.fst) (hin : name ∈ a.names) :
    PRBase._set (some a) name v required =
      (some a, some (Exn.logic_error
        ("PutBuilder can\x27t assign a second value to field \x27" ++ name ++ "\x27"))) := by
  have hs : (a.find name).isSome = true :=
    (lookup_isSome_iff a.values name).mpr ((h3 name).mp hin)
  simp [PRBase._set, hs]

theorem _set_fresh (a : Args) (name : String) (v : Arg) (required : Bool)
    (h3 : ∀ n, n ∈ a.names ↔ n ∈ a.values.map Prod.fst) (hin : name ∉ a.names) :
    PRBase._set (some a) name v required =
      (some ⟨mapEmplace name (v, required) a.values, a.names ++ [name]⟩, none) := by
  have hs : ¬ (a.find name).isSome = true := fun hc =>
    hin ((h3 name).mpr ((lookup_isSome_iff a.values name).mp hc))
  simp [PRBase._set, hs]

/-! ### `MPSCFIFO` is bounded -/

theorem emplace_some {T : Type} (q q1 : MPSCFIFO T) (x : T) (b : Bool)
    (h : q.emplace x = some (q1, b)) :
    q.Q.length < q.nlimit ∧ q1.Q = q.Q ++ [x] ∧ q1.nlimit = q.nlimit := by
  unfold MPSCFIFO.emplace at h
  split_ifs at h with hc
  simp only [Option.some.injEq, Prod.mk.injEq] at h
  obtain ⟨rfl, _⟩ := h
  exact ⟨by omega, rfl, rfl⟩

theorem emplace_none {T : Type} (q : MPSCFIFO T) (x : T) :
    q.emplace x = none ↔ q.nlimit ≤ q.Q.length := by
  unfold MPSCFIFO.emplace
  split_ifs with hc
  · simp
    omega
  · simp
    omega

theorem pop_some {T : Type} (q q1 : MPSCFIFO T) (x : T) (b : Bool)
    (h : q.pop = some (x, q1, b)) : q.Q = x :: q1.Q ∧ q1.nlimit = q.nlimit := by
  unfold MPSCFIFO.pop at h
  cases hq : q.Q with
  | nil => simp [hq] at h
  | cons y t =>
    simp only [hq, Option.some.injEq, Prod.mk.injEq] at h
    obtain ⟨rfl, rfl, _⟩ := h
    exact ⟨rfl, rfl⟩

theorem attempts_bounded {T : Type} (cs : List (QCall T)) (q : MPSCFIFO T)
    (h : q.Q.length ≤ q.nlimit) :
    (q.attempts cs).Q.length ≤ q.nlimit ∧ (q.attempts cs).nlimit = q.nlimit := by
  induction cs generalizing q with
  | nil => exact ⟨h, rfl⟩
  | cons c r ih =>
    cases c with
    | push x =>
      unfold MPSCFIFO.attempts
      cases hp : q.push x with
      | none => exact ih q h
      | some p =>
        obtain ⟨q1, b⟩ := p
        obtain ⟨e1, e2, e3⟩ := emplace_some q q1 x b hp
        have := ih q1 (by rw [e2, e3, List.length_append]; simpa using e1)
        rw [e3] at this
        exact this
    | pop =>
      unfold MPSCFIFO.attempts
      cases hp : q.pop with
      | none => exact ih q h
      | some p =>
        obtain ⟨x, q1, b⟩ := p
        obtain ⟨e1, e2⟩ := pop_some q q1 x b hp
        have := ih q1 (by rw [e2]; rw [e1] at h; simp at h; omega)
        rw [e2] at this
        exact this

theorem calls_attempts {T : Type} (cs : List (QCall T)) (q : MPSCFIFO T)
    (p : MPSCFIFO T × List T) (h : q.calls cs = some p) : p.1 = q.attempts cs := by
  induction cs generalizing q p with
  | nil =>
    simp only [MPSCFIFO.calls, Option.some.injEq] at h
    subst h
    rfl
  | cons c r ih =>
    cases c with
    | push x =>
      unfold MPSCFIFO.calls at h
      unfold MPSCFIFO.attempts
      cases hp : q.push x with
      | none => simp [hp] at h
      | some p1 =>
        simp only [hp] at h
        exact ih _ p h
    | pop =>
      unfold MPSCFIFO.calls at h
      unfold MPSCFIFO.attempts
      cases hp : q.pop with
      | none => simp [hp] at h
      | some p1 =>
        obtain ⟨x, q1, b⟩ := p1
        simp only [hp] at h
        cases hc : MPSCFIFO.calls q1 r with
        | none => simp [hc] at h
        | some p2 =>
          simp only [hc, Option.map_some', Option.some.injEq] at h
          subst h
          exact ih q1 p2 hc

/-! ## The claims -/

/-- C1: for an operation of kind PUT or RPC in state `Exec` (with its `done`
callback set), `disconnected()` sets the state to `Done`, sets the result to
`Error(Disconnect)`, invokes `done` exactly once with that result (and does nothing
else observable), and leaves every channel, so also the pending queue, as it was. -/
theorem disconnected_exec_write (w : World) (self : Nat) (o : GPROp) (d : Result → Option Exn)
    (ho : w.ops self = some o) (hst : o.state = state_t.Exec)
    (hk : o.op = operation_t.Put ∨ o.op = operation_t.RPC) (hd : o.done = some d) :
    (disconnected w self).1.stateOf self = some state_t.Done ∧
    (disconnected w self).1.resultOf self = some (Result.ofError Exn.Disconnect) ∧
    (disconnected w self).2 = [Action.done self state_t.Done (Result.ofError Exn.Disconnect)] ∧
    (disconnected w self).1.chans = w.chans := by
  have hk2 : o.op ≠ operation_t.Get := by rcases hk with h | h <;> simp [h]
  simp only [disconnected, ho, hst]
  simp [hk2, notify, hd, World.stateOf, World.resultOf, World.setOp, Result.ofError]
  cases hdr : d { value := Value.empty, peerName := "", error := some Exn.Disconnect } <;> simp

/-- C1 at a PUT in `Exec`. -/
theorem disconnected_exec_write_witness :
    (disconnected (demoWorld (demoOp operation_t.Put state_t.Exec none)) 0).1.stateOf 0
        = some state_t.Done ∧
    (disconnected (demoWorld (demoOp operation_t.Put state_t.Exec none)) 0).1.resultOf 0
        = some (Result.ofError Exn.Disconnect) ∧
    (disconnected (demoWorld (demoOp operation_t.Put state_t.Exec none)) 0).2
        = [Action.done 0 state_t.Done (Result.ofError Exn.Disconnect)] ∧
    (disconnected (demoWorld (demoOp operation_t.Put state_t.Exec none)) 0).1.chans
        = (demoWorld (demoOp operation_t.Put state_t.Exec none)).chans :=
  disconnected_exec_write (demoWorld (demoOp operation_t.Put state_t.Exec none)) 0
    (demoOp operation_t.Put state_t.Exec none) (fun _ => none) rfl rfl (Or.inl rfl) rfl

/-- C2: once an operation of kind PUT or RPC is in state `Exec`, then after every
sequence of events (register, createOp, replies, disconnected, explicit and implicit
cancel) its state is `Exec` or `Done`, never again `Connecting` or `Creating`, and
every frame sent for it from then on is a `CMD_DESTROY_REQUEST`: no INIT frame and
no second EXEC frame. -/
theorem write_never_retried (w : World) (es : List Event) (i : Nat) (o : GPROp)
    (ho : w.ops i = some o) (hst : o.state = state_t.Exec)
    (hk : o.op = operation_t.Put ∨ o.op = operation_t.RPC) :
    ((run w es).1.stateOf i = some state_t.Exec ∨
      (run w es).1.stateOf i = some state_t.Done) ∧
    ∀ cmd body, Action.send i cmd body ∈ (run w es).2 → cmd = CMD_DESTROY_REQUEST := by
  have hk2 : o.op ≠ operation_t.Get := by rcases hk with h | h <;> simp [h]
  obtain ⟨⟨o', h1, h2, _⟩, h3⟩ := run_write i es w o ho (Or.inl hst) hk2
  refine ⟨?_, h3⟩
  rcases h2 with h2 | h2
  · exact Or.inl (by simp [World.stateOf, h1, h2])
  · exact Or.inr (by simp [World.stateOf, h1, h2])

/-- C2 at a PUT in `Exec` that sees a disconnect, a reconnect and a late reply. -/
theorem write_never_retried_witness :
    (demoOp operation_t.Put state_t.Exec none).state = state_t.Exec ∧
    ((run (demoWorld (demoOp operation_t.Put state_t.Exec none))
        [Event.disconnected 0, Event.createOp 0, Event.reply CMD_PUT execReply]).1.stateOf 0
          = some state_t.Exec ∨
      (run (demoWorld (demoOp operation_t.Put state_t.Exec none))
        [Event.disconnected 0, Event.createOp 0, Event.reply CMD_PUT execReply]).1.stateOf 0
          = some state_t.Done) :=
  ⟨rfl, (write_never_retried (demoWorld (demoOp operation_t.Put state_t.Exec none))
    [Event.disconnected 0, Event.createOp 0, Event.reply CMD_PUT execReply] 0
    (demoOp operation_t.Put state_t.Exec none) rfl rfl (Or.inl rfl)).1⟩

/-- C3: in state `Creating` or `GetOPut`, or in `Exec` for a GET, `disconnected()`
appends the operation exactly once to its channel's pending queue (other channels
untouched), resets the state to `Connecting`, leaves the result unchanged and
performs no action, so `done` is not invoked; in state `Connecting` or `Done` it
changes nothing. -/
theorem disconnected_requeue (w : World) (self : Nat) (o : GPROp) (ho : w.ops self = some o) :
    ((o.state = state_t.Creating ∨ o.state = state_t.GetOPut
        ∨ (o.state = state_t.Exec ∧ o.op = operation_t.Get)) →
      ((disconnected w self).1.chans o.chan).pending = (w.chans o.chan).pending ++ [self] ∧
      (∀ c, c ≠ o.chan → (disconnected w self).1.chans c = w.chans c) ∧
      (disconnected w self).1.stateOf self = some state_t.Connecting ∧
      (disconnected w self).1.resultOf self = some o.result ∧
      (disconnected w self).2 = []) ∧
    ((o.state = state_t.Connecting ∨ o.state = state_t.Done) →
      disconnected w self = (w, [])) := by
  constructor
  · intro h
    have h1 : ¬ (o.state = state_t.Connecting ∨ o.state = state_t.Done) := by
      rcases h with h | h | ⟨h, _⟩ <;> simp [h]
    simp only [disconnected, ho, h1, h, if_true, if_false]
    simp [World.stateOf, World.resultOf, World.setOp, World.setChan]
    intro c hc
    simp [Function.update, hc]
  · intro h
    simp only [disconnected, ho, h, if_true]

/-- C3 at a GET in `Exec`. -/
theorem disconnected_requeue_witness :
    ((disconnected (demoWorld (demoOp operation_t.Get state_t.Exec none)) 0).1.chans 0).pending
      = [0] ∧
    (disconnected (demoWorld (demoOp operation_t.Get state_t.Exec none)) 0).1.stateOf 0
      = some state_t.Connecting ∧
    (disconnected (demoWorld (demoOp operation_t.Get state_t.Exec none)) 0).2 = [] :=
  have h := (disconnected_requeue (demoWorld (demoOp operation_t.Get state_t.Exec none)) 0
    (demoOp operation_t.Get state_t.Exec none) rfl).1 (Or.inr (Or.inr ⟨rfl, rfl⟩))
  ⟨h.1, h.2.2.1, h.2.2.2.2⟩


/-- C4: for a reply that parses without fault (the decoding steps that `handle_GPR`
runs for it, `readHead` and then `readData` on the registry entry, succeed) and
whose IOID is registered with a live operation, `handle_GPR` advances the operation
(its state changes, one frame is enqueued, the connection is kept) if the command
byte equals the operation's kind and the subcommand bits fit the state (`Creating`
with init, `GetOPut` with get and not init, `Exec` with neither); in every other
case the connection is dropped, that is the only action (no callback, no frame), and
no operation changes, so state and result are unchanged. -/
theorem handle_GPR_validation (w : World) (cmd : Nat) (m : Reply) (hd : Header)
    (data data1 : Value) ( info info1 : RequestInfo) (gpr : GPROp)
    (hrh : readHead cmd m = some (hd, data))
    (hinfo : w.conn.opByIOID hd.ioid = some info)
    (hrd : readData cmd hd m info data = some (info1, data1))
    (hop : w.ops info.handle = some gpr) :
    ((gpr.op.toByte = cmd ∧
        ((gpr.state = state_t.Creating ∧ hd.init = true) ∨
         (gpr.state = state_t.GetOPut ∧ hd.init = false ∧ hd.get = true) ∨
         (gpr.state = state_t.Exec ∧ hd.init = false ∧ hd.get = false))) →
      (handle_GPR w cmd m).1.stateOf info.handle ≠ some gpr.state ∧
      (handle_GPR w cmd m).1.conn.bev = w.conn.bev ∧
      Action.bevReset ∉ (handle_GPR w cmd m).2 ∧
      ∃ c body, Action.send info.handle c body ∈ (handle_GPR w cmd m).2) ∧
    (¬ (gpr.op.toByte = cmd ∧
        ((gpr.state = state_t.Creating ∧ hd.init = true) ∨
         (gpr.state = state_t.GetOPut ∧ hd.init = false ∧ hd.get = true) ∨
         (gpr.state = state_t.Exec ∧ hd.init = false ∧ hd.get = false))) →
      (handle_GPR w cmd m).1.conn.bev = false ∧
      (handle_GPR w cmd m).2 = [Action.bevReset] ∧
      (handle_GPR w cmd m).1.ops = w.ops ∧
      (handle_GPR w cmd m).1.stateOf info.handle = some gpr.state ∧
      (handle_GPR w cmd m).1.resultOf info.handle = some gpr.result) := by
  have h3 := readData_handle cmd hd m info info1 data data1 hrd
  have hop1 : w.ops info1.handle = some gpr := by rw [h3]; exact hop
  unfold handle_GPR
  simp only [hrh, hinfo, hrd, hop1]
  by_cases hcs : checkState gpr cmd hd = true
  · obtain ⟨⟨gpr1, info2, a1⟩, hr⟩ :=
      advance_isSome info1.handle cmd hd w.conn.peerName gpr info1 data1 hcs
    obtain ⟨p1, p2⟩ :=
      gpr_progress info1.handle cmd hd w.conn.peerName gpr gpr1 info1 info2 data1 a1 hcs hr
    simp only [hcs, hr, Bool.true_eq_false, if_false]
    constructor
    · intro _
      refine ⟨?_, ?_, ?_, ?_⟩
      · rw [← h3]
        simp only [World.stateOf, act_ops, Function.update_same, Option.map_some']
        intro hc
        apply p1
        by_cases hdn : (buildPut info1.handle gpr1 info2).1.state = state_t.Done
        · simp only [hdn, if_true, notify_state, Option.some.injEq] at hc
          rw [hdn, hc]
        · simp only [hdn, if_false, Option.some.injEq] at hc
          exact hc
      · rw [act_bev]
      · intro hmem
        rcases List.mem_append.mp hmem with hmem | hmem
        · exact p2 hmem
        · exact act_no_reset _ _ _ _ _ _ hmem
      · rw [← h3]
        exact ⟨_, _, List.mem_append_right _ (by rw [act_acts]; exact List.mem_cons_self _ _)⟩
    · intro hn
      exact absurd ((checkState_iff gpr cmd hd).mp hcs) hn
  · have hcs2 : checkState gpr cmd hd = false := by simpa using hcs
    simp only [hcs2, if_true]
    constructor
    · intro hc
      exact absurd ((checkState_iff gpr cmd hd).mpr hc) hcs
    · intro _
      simp [dropConn, World.stateOf, World.resultOf, hop]

/-- C4 at a GET reply on an IOID registered as PUT, which drops the connection, and
at an EXEC reply with a failure status, carrying neither type nor value, for a GET
in `Exec`, which is accepted. -/
theorem handle_GPR_validation_witness :
    (handle_GPR (demoWorld (demoOp operation_t.Put state_t.Exec none)) CMD_GET execReply).1.conn.bev
      = false ∧
    (handle_GPR (demoWorld (demoOp operation_t.Put state_t.Exec none)) CMD_GET execReply).2
      = [Action.bevReset] ∧
    (handle_GPR (demoWorld (demoOp operation_t.Put state_t.Exec none)) CMD_GET execReply).1.stateOf 0
      = some state_t.Exec ∧
    (handle_GPR (demoWorld (demoOp operation_t.Get state_t.Exec none)) CMD_GET
      failedReply).1.conn.bev = true :=
  have h := (handle_GPR_validation (demoWorld (demoOp operation_t.Put state_t.Exec none))
    CMD_GET execReply ⟨1, 0x00, ⟨0, "", ""⟩⟩ Value.empty Value.empty ⟨Value.empty, 0⟩
    ⟨Value.empty, 0⟩ (demoOp operation_t.Put state_t.Exec none) rfl rfl rfl rfl).2
    (by decide)
  have k := (handle_GPR_validation (demoWorld (demoOp operation_t.Get state_t.Exec none))
    CMD_GET failedReply ⟨1, 0x00, ⟨2, "no access", ""⟩⟩ Value.empty Value.empty
    ⟨Value.empty, 0⟩ ⟨Value.empty, 0⟩ (demoOp operation_t.Get state_t.Exec none)
    rfl rfl rfl rfl).1 ⟨rfl, Or.inr (Or.inr ⟨rfl, rfl, rfl⟩)⟩
  ⟨h.1, h.2.1, h.2.2.2.1, k.2.1⟩

/-- C5: over every sequence of events (register, createOp, replies, disconnected,
explicit and implicit cancel) from any world, `done` of an operation is invoked at
most once, and each time it is invoked the operation's state is `Done`. -/
theorem done_at_most_once (w : World) (es : List Event) (i : Nat) :
    doneCount i (run w es).2 ≤ 1 ∧
    ∀ st r, Action.done i st r ∈ (run w es).2 → st = state_t.Done :=
  run_done_le i es w


/-- C6, as stated, fails: a GET cancelled while `Creating` has reached `Done` and
its `done` callback has not been invoked. -/
theorem done_not_invoked_by_cancel :
    (run (demoWorld (demoOp operation_t.Get state_t.Creating none)) [Event.cancel 0]).1.stateOf 0
      = some state_t.Done ∧
    doneCount 0
      (run (demoWorld (demoOp operation_t.Get state_t.Creating none)) [Event.cancel 0]).2 = 0 := by
  decide

/-- C6, amended: an operation with its `done` callback set that is not yet `Done`,
and that reaches `Done` through a sequence of events without `cancel()` or implicit
cancel of it (so by a reply or a disconnect), has had `done` invoked exactly once. -/
theorem done_exactly_once_unless_cancelled (w : World) (es : List Event) (i : Nat) (o : GPROp)
    (ho : w.ops i = some o) (hnd : o.state ≠ state_t.Done) (hd : o.done.isSome = true)
    (hnc : ∀ e ∈ es, e ≠ Event.cancel i ∧ e ≠ Event.implicitCancel i)
    (hfin : (run w es).1.stateOf i = some state_t.Done) :
    doneCount i (run w es).2 = 1 := by
  obtain ⟨o', h1, h2, _⟩ := run_done_exact i es w o ho hnd hd hnc
  apply h2
  simpa [World.stateOf, h1] using hfin

/-- C6 amended, at a GET completed by its INIT and EXEC replies. -/
theorem done_exactly_once_unless_cancelled_witness :
    (run (demoWorld (demoOp operation_t.Get state_t.Creating none))
      [Event.reply CMD_GET initReply, Event.reply CMD_GET execReply]).1.stateOf 0
        = some state_t.Done ∧
    doneCount 0 (run (demoWorld (demoOp operation_t.Get state_t.Creating none))
      [Event.reply CMD_GET initReply, Event.reply CMD_GET execReply]).2 = 1 :=
  ⟨by decide,
   done_exactly_once_unless_cancelled (demoWorld (demoOp operation_t.Get state_t.Creating none))
    [Event.reply CMD_GET initReply, Event.reply CMD_GET execReply] 0
    (demoOp operation_t.Get state_t.Creating none) rfl (by decide) rfl
    (by
      intro e he
      simp only [List.mem_cons, List.mem_singleton, List.not_mem_nil, or_false] at he
      rcases he with rfl | rfl <;> exact ⟨(fun h => by cases h), (fun h => by cases h)⟩)
    (by decide)⟩

/-- C7, as stated, fails: a GET whose connection is lost after INIT is created again
on reconnect, and `onInit` is invoked a second time by the second INIT reply. -/
theorem onInit_invoked_twice :
    onInitCount 0
      (run (demoWorld (demoOp operation_t.Get state_t.Connecting (some fun _ => none)))
        [Event.createOp 0, Event.reply CMD_GET initReply, Event.disconnected 0,
         Event.createOp 0, Event.reply CMD_GET initReply]).2 = 2 := by
  decide

/-- C7, amended: over every sequence of events `onInit` is invoked at most once per
INIT request sent for the operation (plus one if the sequence starts with the
operation already `Creating`), always in state `Creating`; and a single event
invokes it at most once, only if it is a reply with the init bit and a success
status processed while the operation is `Creating`. -/
theorem onInit_once_per_init (w : World) (es : List Event) (i : Nat) :
    onInitCount i (run w es).2 + creatingNow (run w es).1 i ≤
      initSendCount i (run w es).2 + creatingNow w i ∧
    (∀ st v, Action.onInit i st v ∈ (run w es).2 → st = state_t.Creating) ∧
    ∀ e, onInitCount i (step w e).2 ≤ 1 ∧
      ∀ st v, Action.onInit i st v ∈ (step w e).2 →
        st = state_t.Creating ∧ w.stateOf i = some state_t.Creating ∧
        ∃ cmd m hd, e = Event.reply cmd m ∧ m.header = some hd ∧ hd.init = true ∧
          hd.sts.isSuccess = true :=
  ⟨(run_onInit i es w).1, (run_onInit i es w).2, fun e => (step_onInit w e i).2⟩

/-- C8 fails on the code: a GET in `Creating` whose `onInit` raises on a successful
INIT reply ends the call in `Exec` (the `Done` set in the handler is overwritten)
with the error as result, and the EXEC frame is sent; for a PUT without `getOput`
the builder is run as well. -/
theorem onInit_error_overwritten :
    (handle_GPR (demoWorld (demoOp operation_t.Get state_t.Creating (some failingOnInit)))
      CMD_GET initReply).1.stateOf 0 = some state_t.Exec ∧
    (handle_GPR (demoWorld (demoOp operation_t.Get state_t.Creating (some failingOnInit)))
      CMD_GET initReply).1.resultOf 0 = some (Result.ofError (Exn.user "onInit failed")) ∧
    (handle_GPR (demoWorld (demoOp operation_t.Get state_t.Creating (some failingOnInit)))
      CMD_GET initReply).2 =
        [Action.onInit 0 state_t.Creating ⟨some 5, []⟩,
         Action.send 0 CMD_GET [Wire.u32 7, Wire.u32 1, Wire.u8 0x00]] ∧
    (handle_GPR (demoWorld (demoOp operation_t.Put state_t.Creating (some failingOnInit)))
      CMD_PUT initReply).2 =
        [Action.onInit 0 state_t.Creating ⟨some 5, []⟩,
         Action.builder 0 state_t.BuildPut ⟨some 5, []⟩,
         Action.send 0 CMD_PUT [Wire.u32 7, Wire.u32 1, Wire.u8 0x00,
           Wire.valid ⟨some 5, []⟩]] := by
  decide

/-- C9: `_cancel` (explicit or implicit) sends a DESTROY_REQUEST for `(sid, ioid)`
exactly when the state is `GetOPut` or `Exec`, and performs no other action, so it
never invokes `done`; it removes the IOID from the connection's and the channel's
map exactly when the state is `Creating`, `GetOPut` or `Exec` (both maps are left as
they were otherwise); it always leaves the state `Done`; it returns `true` exactly
when the state was not `Done`. The user entry `cancel()` performs the same actions,
returns the same value and leaves the same maps and the state `Done`. -/
theorem cancel_effect (w : World) (self : Nat) (o : GPROp) ( implicit : Bool)
    (ho : w.ops self = some o) :
    (Action.send self CMD_DESTROY_REQUEST [Wire.u32 (w.chans o.chan).sid, Wire.u32 o.ioid]
        ∈ (_cancel w self implicit).1.2 ↔
      (o.state = state_t.GetOPut ∨ o.state = state_t.Exec)) ∧
    (∀ a ∈ (_cancel w self implicit).1.2,
      a = Action.send self CMD_DESTROY_REQUEST
        [Wire.u32 (w.chans o.chan).sid, Wire.u32 o.ioid]) ∧
    ((o.state = state_t.Creating ∨ o.state = state_t.GetOPut ∨ o.state = state_t.Exec) →
      (_cancel w self implicit).1.1.conn.opByIOID
        = Function.update w.conn.opByIOID o.ioid none ∧
      ((_cancel w self implicit).1.1.chans o.chan).opByIOID
        = Function.update (w.chans o.chan).opByIOID o.ioid none) ∧
    (¬ (o.state = state_t.Creating ∨ o.state = state_t.GetOPut ∨ o.state = state_t.Exec) →
      (_cancel w self implicit).1.1.conn = w.conn ∧
      (_cancel w self implicit).1.1.chans = w.chans) ∧
    (_cancel w self implicit).1.1.stateOf self = some state_t.Done ∧
    ((_cancel w self implicit).2 = true ↔ o.state ≠ state_t.Done) ∧
    ((cancel w self).1.2 = (_cancel w self false).1.2 ∧
      (cancel w self).2 = (_cancel w self false).2 ∧
      (cancel w self).1.1.conn = (_cancel w self false).1.1.conn ∧
      (cancel w self).1.1.chans = (_cancel w self false).1.1.chans ∧
      (cancel w self).1.1.stateOf self = some state_t.Done) := by
  refine ⟨?_, ?_, ?_, ?_, ?_, ?_, ?_⟩
  · rw [_cancel_acts w self implicit o ho]
    split_ifs with h <;> simp [h]
  · rw [_cancel_acts w self implicit o ho]
    split_ifs with h <;> simp
  · intro h
    simp [_cancel, ho, h, World.setOp, World.setChan]
  · intro h
    simp [_cancel, ho, h, World.setOp]
  · simp [World.stateOf, _cancel_ops w self implicit o ho]
  · simp [_cancel, ho]
  · have h1 := _cancel_ops w self false o ho
    unfold cancel
    simp only [h1, Function.update_same]
    simp [World.stateOf, World.setOp]

/-- C9 at a cancel during `Creating`: no DESTROY, the IOID gone from both maps. -/
theorem cancel_effect_witness :
    (_cancel (demoWorld (demoOp operation_t.Get state_t.Creating none)) 0 false).1.2 = [] ∧
    (_cancel (demoWorld (demoOp operation_t.Get state_t.Creating none)) 0 false).1.1.stateOf 0
      = some state_t.Done ∧
    (_cancel (demoWorld (demoOp operation_t.Get state_t.Creating none)) 0 false).2 = true :=
  have h := cancel_effect (demoWorld (demoOp operation_t.Get state_t.Creating none)) 0
    (demoOp operation_t.Get state_t.Creating none) false rfl
  ⟨by decide, h.2.2.2.2.1, h.2.2.2.2.2.1.mpr (by decide)⟩

/-- C10: after `cancel()` has run on an operation (and likewise after the implicit
cancel of a dropped handle), no sequence of events (register, createOp, replies on
any IOID, disconnected, further cancels) invokes any of its callbacks `done`,
`onInit`, `builder`: no action at all is performed for it any more. -/
theorem no_callback_after_cancel (w : World) (i : Nat) (es : List Event) :
    (∀ a ∈ (run (cancel w i).1.1 es).2, a.isCallbackOf i = false ∧ a.opOf ≠ some i) ∧
    (∀ a ∈ (run (_cancel w i true).1.1 es).2, a.isCallbackOf i = false ∧ a.opOf ≠ some i) := by
  constructor
  · intro a ha
    have h := (run_done i es (cancel w i).1.1 (cancel_leaves_done w i)).2.2 a ha
    exact ⟨isCallbackOf_of_opOf i a h, h⟩
  · intro a ha
    have h := (run_done i es (_cancel w i true).1.1 (implicitCancel_leaves_done w i)).2.2 a ha
    exact ⟨isCallbackOf_of_opOf i a h, h⟩


/-- C11, as stated, fails: a cancel during `Creating` removes the IOID from the
connection's registry, sends no DESTROY_REQUEST and leaves the connection up. -/
theorem ioid_removed_without_destroy :
    ((demoWorld (demoOp operation_t.Get state_t.Creating none)).conn.opByIOID 1).isSome = true ∧
    ((cancel (demoWorld (demoOp operation_t.Get state_t.Creating none)) 0).1.1.conn.opByIOID 1).isNone
      = true ∧
    (cancel (demoWorld (demoOp operation_t.Get state_t.Creating none)) 0).1.2 = [] ∧
    (cancel (demoWorld (demoOp operation_t.Get state_t.Creating none)) 0).1.1.conn.bev = true := by
  decide

/-- C11, amended: whenever a registered IOID is removed from the connection's
registry by `handle_GPR` (completion), or by `_cancel` / `cancel()` of an operation
that is not in state `Creating` (so in `GetOPut` or `Exec`), that call has enqueued
a DESTROY_REQUEST frame with body `(sid, ioid)`, `sid` being that of the
operation's channel; a `_cancel` in state `Creating` removes the operation's IOID,
performs no action and leaves `bev` as it was. -/
theorem ioid_removed_destroy_sent (w : World) (k : Nat)
    (hk : (w.conn.opByIOID k).isSome = true) :
    (∀ cmd m, (handle_GPR w cmd m).1.conn.opByIOID k = none →
      ∃ h gpr, w.ops h = some gpr ∧
        Action.send h CMD_DESTROY_REQUEST [Wire.u32 (w.chans gpr.chan).sid, Wire.u32 k]
          ∈ (handle_GPR w cmd m).2) ∧
    (∀ i o implicit, w.ops i = some o → o.state ≠ state_t.Creating →
      (_cancel w i implicit).1.1.conn.opByIOID k = none →
      Action.send i CMD_DESTROY_REQUEST [Wire.u32 (w.chans o.chan).sid, Wire.u32 k]
        ∈ (_cancel w i implicit).1.2) ∧
    (∀ i o, w.ops i = some o → o.state ≠ state_t.Creating →
      (cancel w i).1.1.conn.opByIOID k = none →
      Action.send i CMD_DESTROY_REQUEST [Wire.u32 (w.chans o.chan).sid, Wire.u32 k]
        ∈ (cancel w i).1.2) ∧
    (∀ i o implicit, w.ops i = some o → o.state = state_t.Creating →
      (_cancel w i implicit).1.2 = [] ∧
      (_cancel w i implicit).1.1.conn.opByIOID o.ioid = none ∧
      (_cancel w i implicit).1.1.conn.bev = w.conn.bev) := by
  have hc : ∀ i o implicit, w.ops i = some o → o.state ≠ state_t.Creating →
      (_cancel w i implicit).1.1.conn.opByIOID k = none →
      Action.send i CMD_DESTROY_REQUEST [Wire.u32 (w.chans o.chan).sid, Wire.u32 k]
        ∈ (_cancel w i implicit).1.2 := by
    intro i o implicit ho hnc hn
    obtain ⟨rfl, hs⟩ := _cancel_erase w i k implicit o ho hk hn
    have hs2 : o.state = state_t.GetOPut ∨ o.state = state_t.Exec := by
      rcases hs with h | h | h
      · exact absurd h hnc
      · exact Or.inl h
      · exact Or.inr h
    rw [_cancel_acts w i implicit o ho, if_pos hs2]
    exact List.mem_singleton_self _
  refine ⟨fun cmd m hn => handle_GPR_erase w cmd m k hk hn, hc, ?_, ?_⟩
  · intro i o ho hnc hn
    obtain ⟨h1, h2, _⟩ := cancel_same w i
    rw [h1]
    rw [h2] at hn
    exact hc i o false ho hnc hn
  · intro i o implicit ho hst
    simp [_cancel, ho, hst, World.setOp, World.setChan]

/-- C11 amended, at the cancel of a PUT in `Exec`. -/
theorem ioid_removed_destroy_sent_witness :
    ((demoWorld (demoOp operation_t.Put state_t.Exec none)).conn.opByIOID 1).isSome = true ∧
    Action.send 0 CMD_DESTROY_REQUEST [Wire.u32 7, Wire.u32 1]
      ∈ (_cancel (demoWorld (demoOp operation_t.Put state_t.Exec none)) 0 false).1.2 :=
  ⟨by decide,
   (ioid_removed_destroy_sent (demoWorld (demoOp operation_t.Put state_t.Exec none)) 1
      (by decide)).2.1 0 (demoOp operation_t.Put state_t.Exec none) false rfl (by decide) (by
        have h : ((_cancel (demoWorld (demoOp operation_t.Put state_t.Exec none)) 0
          false).1.1.conn.opByIOID 1).isNone = true := by decide
        exact Option.isNone_iff_eq_none.mp h)⟩


/-- C12: a reply whose header and inline payload parse without fault (`readHead`,
the decoding that `handle_GPR` runs before it looks the IOID up, succeeds) and whose
IOID is not in the connection's registry is ignored: `handle_GPR` returns the world
as it was (no operation, channel or registry entry changes, the connection is kept)
and performs no action (no callback, no frame, no `bev` reset), for every command
byte, subcommand and status. -/
theorem unknown_ioid_ignored (w : World) (cmd : Nat) (m : Reply) (hd : Header)
    (data : Value) (hrh : readHead cmd m = some (hd, data))
    (hreg : w.conn.opByIOID hd.ioid = none) :
    handle_GPR w cmd m = (w, []) := by
  unfold handle_GPR
  simp only [hrh, hreg]

/-- C12 at a stale INIT reply on IOID `1` after the GET has been cancelled, and at a
reply with a failure status, which carries neither type nor value. -/
theorem unknown_ioid_ignored_witness :
    ((cancel (demoWorld (demoOp operation_t.Get state_t.Creating none)) 0).1.1.conn.opByIOID 1).isNone
      = true ∧
    (handle_GPR (cancel (demoWorld (demoOp operation_t.Get state_t.Creating none)) 0).1.1
      CMD_GET initReply).2 = [] ∧
    (handle_GPR (cancel (demoWorld (demoOp operation_t.Get state_t.Creating none)) 0).1.1
      CMD_GET failedReply).2 = [] :=
  ⟨by decide,
   congrArg Prod.snd (unknown_ioid_ignored
    (cancel (demoWorld (demoOp operation_t.Get state_t.Creating none)) 0).1.1
    CMD_GET initReply ⟨1, 0x08, ⟨0, "", ""⟩⟩ ⟨some 5, []⟩ rfl (by
      show (cancel (demoWorld (demoOp operation_t.Get state_t.Creating none)) 0).1.1.conn.opByIOID 1
        = none
      simp [cancel, _cancel, demoWorld, demoOp, World.setOp, World.setChan])),
   congrArg Prod.snd (unknown_ioid_ignored
    (cancel (demoWorld (demoOp operation_t.Get state_t.Creating none)) 0).1.1
    CMD_GET failedReply ⟨1, 0x00, ⟨2, "no access", ""⟩⟩ Value.empty rfl (by
      show (cancel (demoWorld (demoOp operation_t.Get state_t.Creating none)) 0).1.1.conn.opByIOID 1
        = none
      simp [cancel, _cancel, demoWorld, demoOp, World.setOp, World.setChan]))⟩

/-- C16: a reply that passes validation (kind and subcommand bits fit the state
`Creating`, `GetOPut` or `Exec`) and carries a non-success status leaves the
operation `Done` with result `Error(RemoteError, status.msg)`; the actions are
exactly the DESTROY_REQUEST frame `(sid, ioid)` followed by one call of `done` with
that error, so neither `onInit` nor the builder runs; the IOID is gone from the
connection's and the channel's map. -/
theorem remote_error_terminal (w : World) (cmd : Nat) (m : Reply) (hd : Header)
    ( info : RequestInfo) (gpr : GPROp) (d : Result → Option Exn)
    (hh : m.header = some hd) (hs : hd.sts.isSuccess = false)
    (hinfo : w.conn.opByIOID hd.ioid = some info) (hop : w.ops info.handle = some gpr)
    (hkind : gpr.op.toByte = cmd)
    (hst : (gpr.state = state_t.Creating ∧ hd.init = true) ∨
      (gpr.state = state_t.GetOPut ∧ hd.init = false ∧ hd.get = true) ∨
      (gpr.state = state_t.Exec ∧ hd.init = false ∧ hd.get = false))
    (hdn : gpr.done = some d) :
    (handle_GPR w cmd m).1.stateOf info.handle = some state_t.Done ∧
    (handle_GPR w cmd m).1.resultOf info.handle
      = some (Result.ofError (Exn.RemoteError hd.sts.msg)) ∧
    (handle_GPR w cmd m).2 =
      [Action.send info.handle CMD_DESTROY_REQUEST
        [Wire.u32 (w.chans gpr.chan).sid, Wire.u32 hd.ioid],
       Action.done info.handle state_t.Done (Result.ofError (Exn.RemoteError hd.sts.msg))] ∧
    (handle_GPR w cmd m).1.conn.opByIOID hd.ioid = none ∧
    ((handle_GPR w cmd m).1.chans gpr.chan).opByIOID hd.ioid = none := by
  have hcs : checkState gpr cmd hd = true := (checkState_iff gpr cmd hd).mpr ⟨hkind, hst⟩
  have hrh : readHead cmd m = some (hd, Value.empty) :=
    readHead_plain cmd m hd hh (by simp [hs]) (by simp [hs])
  have hrd : readData cmd hd m info Value.empty = some (info, Value.empty) :=
    readData_plain cmd hd m info _ (by simp [hs]) (by simp [hs])
  have hadv : advance info.handle cmd hd w.conn.peerName gpr info Value.empty
      = some ({ gpr with result := Result.ofError (Exn.RemoteError hd.sts.msg),
                         state := state_t.Done }, info, []) := by
    simp [advance, hs]
  rw [handle_GPR_eq w cmd m hd _ _ info info info gpr _ _ hrh hinfo hrd hop hcs hadv]
  have hb := buildPut_skip info.handle
    { gpr with result := Result.ofError (Exn.RemoteError hd.sts.msg), state := state_t.Done }
    info (by simp)
  have hn := notify_error info.handle
    { gpr with result := Result.ofError (Exn.RemoteError hd.sts.msg), state := state_t.Done }
    d hdn (by simp [Result.ofError])
  simp only [hb]
  refine ⟨?_, ?_, ?_, ?_, ?_⟩
  · simp [World.stateOf, act_ops, hn]
  · simp [World.resultOf, act_ops, hn]
  · simp [act_acts, hn, txBodyFor_done]
  · simp [(act_conn _ _ _ _ _ _).1]
  · simp [act_chans]


/-- C16 at a PUT in `Exec` whose EXEC reply carries a failure status. -/
theorem remote_error_terminal_witness :
    (handle_GPR (demoWorld (demoOp operation_t.Put state_t.Exec none)) CMD_PUT failedReply).1.stateOf 0
      = some state_t.Done ∧
    (handle_GPR (demoWorld (demoOp operation_t.Put state_t.Exec none)) CMD_PUT failedReply).2 =
      [Action.send 0 CMD_DESTROY_REQUEST [Wire.u32 7, Wire.u32 1],
       Action.done 0 state_t.Done (Result.ofError (Exn.RemoteError "no access"))] :=
  have h := remote_error_terminal (demoWorld (demoOp operation_t.Put state_t.Exec none))
    CMD_PUT failedReply ⟨1, 0x00, ⟨2, "no access", ""⟩⟩ ⟨Value.empty, 0⟩
    (demoOp operation_t.Put state_t.Exec none) (fun _ => none) rfl rfl rfl rfl rfl
    (Or.inr (Or.inr ⟨rfl, rfl, rfl⟩)) rfl
  ⟨h.1, h.2.2.1⟩

/-- C19: on an operation in state `Connecting`, `createOp` enqueues exactly one
frame, under the command byte of the operation's kind, with body
`(sid, ioid, 0x08, descOf(pvRequest), full encoding of pvRequest)`, and sets the
state to `Creating`; in any other state it changes nothing and enqueues nothing. -/
theorem createOp_effect (w : World) (self : Nat) (o : GPROp) (ho : w.ops self = some o) :
    (o.state = state_t.Connecting →
      (createOp w self).2 =
        [Action.send self o.op.toByte
          [Wire.u32 (w.chans o.chan).sid, Wire.u32 o.ioid, Wire.u8 0x08,
           Wire.desc o.pvRequest.desc, Wire.full o.pvRequest]] ∧
      (createOp w self).1.stateOf self = some state_t.Creating) ∧
    (o.state ≠ state_t.Connecting → createOp w self = (w, [])) := by
  constructor
  · intro h
    simp [createOp, ho, h, World.stateOf, World.setOp]
  · intro h
    simp [createOp, ho, h]

/-- C19 at a GET waiting for its channel. -/
theorem createOp_effect_witness :
    (createOp (demoWorld (demoOp operation_t.Get state_t.Connecting none)) 0).2 =
      [Action.send 0 CMD_GET
        [Wire.u32 7, Wire.u32 1, Wire.u8 0x08, Wire.desc (some 0), Wire.full ⟨some 0, []⟩]] ∧
    (createOp (demoWorld (demoOp operation_t.Get state_t.Connecting none)) 0).1.stateOf 0
      = some state_t.Creating :=
  (createOp_effect (demoWorld (demoOp operation_t.Get state_t.Connecting none)) 0
    (demoOp operation_t.Get state_t.Connecting none) rfl).1 rfl

/-- C20: when the read cursor faults, whether in the header, in the type descriptor
of an INIT reply (GET/PUT) or of an RPC reply, in the full-encoded RPC value, or in
the valid-encoded value of a GET or PUT-get reply on a registered IOID,
`handle_GPR` resets `bev` and does nothing else: that is its only action (no
callback, no frame) and no operation, channel or registry entry changes. -/
theorem fault_drops_connection (w : World) (cmd : Nat) (m : Reply)
    (hfault : m.header = none ∨
      ∃ hd, m.header = some hd ∧
        ((cmd ≠ CMD_RPC ∧ hd.init = true ∧ hd.sts.isSuccess = true ∧ m.wireType = none) ∨
         (cmd = CMD_RPC ∧ hd.init = false ∧ hd.sts.isSuccess = true ∧
            (m.wireType = none ∨
              ∃ t, m.wireType = some t ∧ t.valid = true ∧ m.wireFull t = none)) ∨
         (∃ info, w.conn.opByIOID hd.ioid = some info ∧ hd.init = false ∧
            (cmd = CMD_GET ∨ (cmd = CMD_PUT ∧ hd.get = true)) ∧ hd.sts.isSuccess = true ∧
            info.prototype.cloneEmpty.valid = true ∧
            m.wireValid info.prototype.cloneEmpty = none))) :
    (handle_GPR w cmd m).2 = [Action.bevReset] ∧
    (handle_GPR w cmd m).1.conn.bev = false ∧
    (handle_GPR w cmd m).1.ops = w.ops ∧
    (handle_GPR w cmd m).1.chans = w.chans ∧
    (handle_GPR w cmd m).1.conn.opByIOID = w.conn.opByIOID := by
  have key : handle_GPR w cmd m = dropConn w := by
    rcases hfault with hh | ⟨hd, hh, h | h | h⟩
    · exact handle_GPR_fault_head w cmd m (by simp [readHead, hh])
    · obtain ⟨h1, h2, h3, h4⟩ := h
      exact handle_GPR_fault_head w cmd m (by simp [readHead, hh, h1, h2, h3, h4])
    · obtain ⟨h1, h2, h3, h4⟩ := h
      apply handle_GPR_fault_head
      rcases h4 with h4 | ⟨t, h4, h5, h6⟩
      · simp [readHead, hh, h1, h2, h3, h4]
      · simp [readHead, hh, h1, h2, h3, h4, h5, h6]
    · obtain ⟨info, h0, h1, h2, h3, h4, h5⟩ := h
      have hne : cmd ≠ CMD_RPC := by
        rcases h2 with h2 | ⟨h2, _⟩ <;> rw [h2] <;> decide
      have hrh : readHead cmd m = some (hd, Value.empty) :=
        readHead_plain cmd m hd hh (by simp [h1]) (by simp [hne])
      apply handle_GPR_fault_data w cmd m hd Value.empty info hrh h0
      unfold readData
      simp [h1, h2, h3, h4, h5]
  rw [key]
  simp [dropConn]

/-- C20 at an INIT reply whose type descriptor does not decode. -/
theorem fault_drops_connection_witness :
    (handle_GPR (demoWorld (demoOp operation_t.Get state_t.Creating none)) CMD_GET
      brokenInitReply).2 = [Action.bevReset] ∧
    (handle_GPR (demoWorld (demoOp operation_t.Get state_t.Creating none)) CMD_GET
      brokenInitReply).1.conn.bev = false :=
  have h := fault_drops_connection (demoWorld (demoOp operation_t.Get state_t.Creating none))
    CMD_GET brokenInitReply
    (Or.inr ⟨⟨1, 0x08, ⟨0, "", ""⟩⟩, rfl, Or.inl ⟨by decide, by decide, by decide, rfl⟩⟩)
  ⟨h.1, h.2.1⟩


/-- C13 (happy GET): for a GET in `Creating` registered under an IOID (with `done`
set), a successful INIT reply carrying the prototype `P` followed by a successful
EXEC reply (neither init nor get bit, as subcmd `0x00`) whose payload decodes
against `P` to the value `v = ⟨P.desc, dv⟩` performs, after the possible call of
`onInit`, exactly: the EXEC frame `(sid, ioid, 0x00)` under `CMD_GET`, the
DESTROY_REQUEST frame `(sid, ioid)`, and one call of `done` with
`Result.Value(v, peerName)`; the operation is `Done` and the IOID is in neither the
connection's nor the channel's map. -/
theorem happy_get (w : World) (m1 m2 : Reply) (hd1 hd2 : Header) (P : Value)
    ( info : RequestInfo) (o : GPROp) (d : Result → Option Exn) (dv : List Nat)
    (h1 : m1.header = some hd1) (hi1 : hd1.init = true) (hs1 : hd1.sts.isSuccess = true)
    (ht1 : m1.wireType = some P) (hP : P.valid = true)
    (h2 : m2.header = some hd2) (hio : hd2.ioid = hd1.ioid) (hi2 : hd2.init = false)
    (hg2 : hd2.get = false) (hs2 : hd2.sts.isSuccess = true)
    (hw : m2.wireValid P.cloneEmpty = some dv)
    (hinfo : w.conn.opByIOID hd1.ioid = some info) (hop : w.ops info.handle = some o)
    (hk : o.op = operation_t.Get) (hst : o.state = state_t.Creating)
    (hdn : o.done = some d) :
    (run w [Event.reply CMD_GET m1, Event.reply CMD_GET m2]).2 =
      (callOnInit info.handle o P).2 ++
        [Action.send info.handle CMD_GET
          [Wire.u32 (w.chans o.chan).sid, Wire.u32 hd1.ioid, Wire.u8 0x00],
         Action.send info.handle CMD_DESTROY_REQUEST
          [Wire.u32 (w.chans o.chan).sid, Wire.u32 hd1.ioid],
         Action.done info.handle state_t.Done
          (Result.ofValue ⟨P.desc, dv⟩ w.conn.peerName)] ∧
    (run w [Event.reply CMD_GET m1, Event.reply CMD_GET m2]).1.stateOf info.handle
      = some state_t.Done ∧
    (run w [Event.reply CMD_GET m1, Event.reply CMD_GET m2]).1.conn.opByIOID hd1.ioid = none ∧
    ((run w [Event.reply CMD_GET m1, Event.reply CMD_GET m2]).1.chans o.chan).opByIOID hd1.ioid
      = none := by
  obtain ⟨s1, s2, s3, s4, s5⟩ := get_init_step w m1 hd1 P info o h1 hi1 hs1 ht1 hinfo hop hk hst
  obtain ⟨c1, c2, c3, _⟩ := callOnInit_fields info.handle o P
  have c5 := (callOnInit_chan info.handle o P).1
  rw [← hio] at s3
  obtain ⟨e1, e2, e3, e4⟩ := get_exec_step (handle_GPR w CMD_GET m1).1 m2 hd2
    { info with prototype := P } { (callOnInit info.handle o P).1 with state := state_t.Exec }
    d dv h2 hi2 hg2 hs2 s3 s2 (c1.trans hk) rfl hP hw (c3.trans hdn)
  simp only [run, step, List.append_nil]
  rw [hio] at e1 e3 e4
  simp only [s4, s5, c5] at e1 e4
  exact ⟨by rw [s1, e1]; simp, e2, e3, e4⟩

/-- C13 at a GET whose EXEC reply decodes to the field `42`. -/
theorem happy_get_witness :
    (run (demoWorld (demoOp operation_t.Get state_t.Creating none))
      [Event.reply CMD_GET initReply, Event.reply CMD_GET execReply]).2 =
        [Action.send 0 CMD_GET [Wire.u32 7, Wire.u32 1, Wire.u8 0x00],
         Action.send 0 CMD_DESTROY_REQUEST [Wire.u32 7, Wire.u32 1],
         Action.done 0 state_t.Done (Result.ofValue ⟨some 5, [42]⟩ "srv")] ∧
    (run (demoWorld (demoOp operation_t.Get state_t.Creating none))
      [Event.reply CMD_GET initReply, Event.reply CMD_GET execReply]).1.stateOf 0
        = some state_t.Done :=
  have h := happy_get (demoWorld (demoOp operation_t.Get state_t.Creating none))
    initReply execReply ⟨1, 0x08, ⟨0, "", ""⟩⟩ ⟨1, 0x00, ⟨0, "", ""⟩⟩ ⟨some 5, []⟩
    ⟨Value.empty, 0⟩ (demoOp operation_t.Get state_t.Creating none) (fun _ => none) [42]
    rfl rfl rfl rfl rfl rfl rfl rfl rfl rfl rfl rfl rfl rfl rfl rfl
  ⟨h.1, h.2.1⟩


/-- C15: for a PUT with `getOput = false` in `Creating`, a successful INIT reply
carrying the prototype `P` makes `handle_GPR` invoke the builder exactly once, with
a clone of `P`, in the same call; if the builder returns `B` the operation ends the
call in `Exec`, the registered prototype is `B`, and the actions are, after the
possible call of `onInit`, the builder call and the frame
`(sid, ioid, 0x00, validEncode(B))` under `CMD_PUT`. -/
theorem put_init_builds (w : World) (m : Reply) (hd : Header) (P : Value)
    ( info : RequestInfo) (o : GPROp) (b : Value → Except Exn Value)
    (hh : m.header = some hd) (hi : hd.init = true) (hs : hd.sts.isSuccess = true)
    (ht : m.wireType = some P)
    (hinfo : w.conn.opByIOID hd.ioid = some info) (hop : w.ops info.handle = some o)
    (hk : o.op = operation_t.Put) (hst : o.state = state_t.Creating)
    (hg : o.getOput = false) (hb : o.builder = some b) :
    builderCount info.handle (handle_GPR w CMD_PUT m).2 = 1 ∧
    Action.builder info.handle state_t.BuildPut P.clone ∈ (handle_GPR w CMD_PUT m).2 ∧
    ∀ B, b P.clone = Except.ok B →
      (handle_GPR w CMD_PUT m).1.stateOf info.handle = some state_t.Exec ∧
      (handle_GPR w CMD_PUT m).1.conn.opByIOID hd.ioid = some { info with prototype := B } ∧
      (handle_GPR w CMD_PUT m).2 = (callOnInit info.handle o P).2 ++
        [Action.builder info.handle state_t.BuildPut P.clone,
         Action.send info.handle CMD_PUT
          [Wire.u32 (w.chans o.chan).sid, Wire.u32 hd.ioid, Wire.u8 0x00, Wire.valid B]] := by
  obtain ⟨p1, p2, p3, p4⟩ := init_phases w CMD_PUT m hd P info o hh hi hs (by decide) ht
    (by rw [hk]; rfl) hst
  simp only [hg, true_and, Bool.false_eq_true, and_false, if_false, if_true] at p4
  obtain ⟨c1, c2, c3⟩ := callOnInit_chan info.handle o P
  obtain ⟨hok, herr⟩ := buildPut_stage w CMD_PUT m hd P P info { info with prototype := P }
    { info with prototype := P } o _ _ b p1 hinfo p2 hop p3 p4 rfl (c2.trans hb)
  have hmem : ∀ l1 l2 : List Action, ∀ a, a ∈ l1 ++ a :: l2 := by
    intro l1 l2 a
    simp
  cases hr : b P.clone with
  | ok B =>
    obtain ⟨a1, a2, a3⟩ := hok B hr
    have hacts : (handle_GPR w CMD_PUT m).2 = (callOnInit info.handle o P).2 ++
        [Action.builder info.handle state_t.BuildPut P.clone,
         Action.send info.handle CMD_PUT
          [Wire.u32 (w.chans o.chan).sid, Wire.u32 hd.ioid, Wire.u8 0x00, Wire.valid B]] := by
      rw [a1]
      simp [txBodyFor, c1]
    refine ⟨?_, ?_, ?_⟩
    · rw [hacts, builderCount_append, builderCount_callOnInit]
      simp [builderCount]
    · rw [hacts]
      exact hmem _ _ _
    · intro B' hB'
      cases hB'
      exact ⟨by simp [World.stateOf, a2], a3, hacts⟩
  | error e =>
    obtain ⟨a1, _, _, _⟩ := herr e hr
    refine ⟨?_, ?_, ?_⟩
    · rw [a1, builderCount_append, builderCount_append, builderCount_callOnInit,
        builderCount_notify]
      simp [builderCount]
    · rw [a1, List.append_assoc]
      exact hmem _ _ _
    · intro B' hB'
      cases hB'


/-- C15 at a PUT whose builder returns the prototype it is given. -/
theorem put_init_builds_witness :
    builderCount 0
      (handle_GPR (demoWorld (demoOp operation_t.Put state_t.Creating none)) CMD_PUT initReply).2
      = 1 ∧
    (handle_GPR (demoWorld (demoOp operation_t.Put state_t.Creating none)) CMD_PUT
      initReply).1.stateOf 0 = some state_t.Exec :=
  have h := put_init_builds (demoWorld (demoOp operation_t.Put state_t.Creating none))
    initReply ⟨1, 0x08, ⟨0, "", ""⟩⟩ ⟨some 5, []⟩ ⟨Value.empty, 0⟩
    (demoOp operation_t.Put state_t.Creating none) (fun v => Except.ok v)
    rfl rfl rfl rfl rfl rfl rfl rfl rfl rfl
  ⟨h.1, (h.2.2 ⟨some 5, []⟩ rfl).1⟩


/-- C14: for a PUT with `getOput = true` in `Creating` (builder set), a successful
INIT reply carrying the prototype `P` followed by a successful GET-phase reply (get
bit without init bit, as subcmd `0x40`) whose payload decodes against `P` to
`v = ⟨P.desc, dv⟩` performs, in this order: the possible call of `onInit`, the
GET-phase frame `(sid, ioid, 0x40)` under `CMD_PUT`, the call of the builder with
`v`, and then actions among which there is no further call of the builder or of
`onInit`; so the builder is invoked exactly once, after `onInit`, with `v`. When
`onInit` is set, its call is the single action `onInit(P)` made in state `Creating`. -/
theorem put_get_then_build (w : World) (m1 m2 : Reply) (hd1 hd2 : Header) (P : Value)
    ( info : RequestInfo) (o : GPROp) (b : Value → Except Exn Value) (dv : List Nat)
    (h1 : m1.header = some hd1) (hi1 : hd1.init = true) (hs1 : hd1.sts.isSuccess = true)
    (ht1 : m1.wireType = some P) (hP : P.valid = true)
    (h2 : m2.header = some hd2) (hio : hd2.ioid = hd1.ioid) (hi2 : hd2.init = false)
    (hg2 : hd2.get = true) (hs2 : hd2.sts.isSuccess = true)
    (hw : m2.wireValid P.cloneEmpty = some dv)
    (hinfo : w.conn.opByIOID hd1.ioid = some info) (hop : w.ops info.handle = some o)
    (hk : o.op = operation_t.Put) (hst : o.state = state_t.Creating)
    (hg : o.getOput = true) (hb : o.builder = some b) :
    (∃ tail, (run w [Event.reply CMD_PUT m1, Event.reply CMD_PUT m2]).2 =
        (callOnInit info.handle o P).2 ++
          [Action.send info.handle CMD_PUT
            [Wire.u32 (w.chans o.chan).sid, Wire.u32 hd1.ioid, Wire.u8 0x40],
           Action.builder info.handle state_t.BuildPut ⟨P.desc, dv⟩] ++ tail ∧
      builderCount info.handle tail = 0 ∧ onInitCount info.handle tail = 0) ∧
    builderCount info.handle (run w [Event.reply CMD_PUT m1, Event.reply CMD_PUT m2]).2 = 1 ∧
    (∀ f, o.onInit = some f →
      (callOnInit info.handle o P).2 = [Action.onInit info.handle state_t.Creating P]) := by
  have honInit : ∀ f, o.onInit = some f →
      (callOnInit info.handle o P).2 = [Action.onInit info.handle state_t.Creating P] := by
    intro f hf
    unfold callOnInit
    simp only [hf]
    cases f P <;> simp [hst]
  obtain ⟨s1, s2, s3, s4, s5⟩ :=
    put_init_get_step w m1 hd1 P info o h1 hi1 hs1 ht1 hinfo hop hk hst hg
  obtain ⟨c1, _, _, _⟩ := callOnInit_fields info.handle o P
  obtain ⟨_, c6, _⟩ := callOnInit_chan info.handle o P
  rw [← hio] at s3
  obtain ⟨p1, p2, p3, p4⟩ := getphase_phases (handle_GPR w CMD_PUT m1).1 m2 hd2
    { info with prototype := P }
    { (callOnInit info.handle o P).1 with state := state_t.GetOPut } dv
    h2 hi2 hg2 hs2 (c1.trans hk) rfl hP hw
  obtain ⟨hok, herr⟩ := buildPut_stage (handle_GPR w CMD_PUT m1).1 CMD_PUT m2 hd2 _ _
    { info with prototype := P } { info with prototype := P } _ _ _ _ b
    p1 s3 p2 s2 p3 p4 rfl (c6.trans hb)
  have key : ∃ tail, (handle_GPR (handle_GPR w CMD_PUT m1).1 CMD_PUT m2).2 =
      Action.builder info.handle state_t.BuildPut ⟨P.desc, dv⟩ :: tail ∧
      builderCount info.handle tail = 0 ∧ onInitCount info.handle tail = 0 := by
    cases hr : b ⟨P.desc, dv⟩ with
    | ok B =>
      obtain ⟨a1, _, _⟩ := hok B hr
      exact ⟨_, by rw [a1]; rfl, by simp [builderCount], by simp [onInitCount]⟩
    | error e =>
      obtain ⟨a1, _, _, _⟩ := herr e hr
      refine ⟨_, by rw [a1]; rfl, ?_, ?_⟩
      · simpa [builderCount] using builderCount_notify info.handle info.handle _
      · simpa [onInitCount] using onInitCount_notify info.handle info.handle _
  obtain ⟨tail, k1, k2, k3⟩ := key
  have hacts : (run w [Event.reply CMD_PUT m1, Event.reply CMD_PUT m2]).2 =
      (callOnInit info.handle o P).2 ++
        [Action.send info.handle CMD_PUT
          [Wire.u32 (w.chans o.chan).sid, Wire.u32 hd1.ioid, Wire.u8 0x40],
         Action.builder info.handle state_t.BuildPut ⟨P.desc, dv⟩] ++ tail := by
    simp only [run, step, List.append_nil]
    rw [s1, k1]
    simp
  refine ⟨⟨tail, hacts, k2, k3⟩, ?_, honInit⟩
  rw [hacts, builderCount_append, builderCount_append, builderCount_callOnInit, k2]
  simp [builderCount]

/-- C14 at a PUT that fetches the field `3` before building. -/
theorem put_get_then_build_witness :
    builderCount 0
      (run (demoWorld { demoOp operation_t.Put state_t.Creating none with getOput := true })
        [Event.reply CMD_PUT initReply, Event.reply CMD_PUT getPhaseReply]).2 = 1 ∧
    Action.builder 0 state_t.BuildPut ⟨some 5, [3]⟩ ∈
      (run (demoWorld { demoOp operation_t.Put state_t.Creating none with getOput := true })
        [Event.reply CMD_PUT initReply, Event.reply CMD_PUT getPhaseReply]).2 :=
  ⟨(put_get_then_build
      (demoWorld { demoOp operation_t.Put state_t.Creating none with getOput := true })
      initReply getPhaseReply ⟨1, 0x08, ⟨0, "", ""⟩⟩ ⟨1, 0x40, ⟨0, "", ""⟩⟩ ⟨some 5, []⟩
      ⟨Value.empty, 0⟩ { demoOp operation_t.Put state_t.Creating none with getOput := true }
      (fun v => Except.ok v) [3]
      rfl rfl rfl rfl rfl rfl rfl rfl rfl rfl rfl rfl rfl rfl rfl rfl rfl).2.1,
   by decide⟩


/-- C17: when a PUT (with `done` set) reaches `BuildPut`, either from `Creating` by
a successful INIT reply without `getOput`, or from `GetOPut` by a successful
GET-phase reply, and the builder raises `e`, the operation ends the call `Done` with
result `e`; after the possible call of `onInit` the actions are exactly the builder
call, the DESTROY_REQUEST frame `(sid, ioid)` and one call of `done` with `e`, so no
EXEC frame is enqueued; the IOID is gone from the connection's and the channel's
map. -/
theorem builder_error_terminal (w : World) (m : Reply) (hd : Header) ( info : RequestInfo)
    (o : GPROp) (b : Value → Except Exn Value) (d : Result → Option Exn) (e : Exn)
    (hh : m.header = some hd) (hs : hd.sts.isSuccess = true)
    (hinfo : w.conn.opByIOID hd.ioid = some info) (hop : w.ops info.handle = some o)
    (hk : o.op = operation_t.Put) (hb : o.builder = some b) (hdn : o.done = some d) :
    (∀ P, hd.init = true → m.wireType = some P → o.state = state_t.Creating →
      o.getOput = false → b P.clone = Except.error e →
      (handle_GPR w CMD_PUT m).1.stateOf info.handle = some state_t.Done ∧
      (handle_GPR w CMD_PUT m).1.resultOf info.handle = some (Result.ofError e) ∧
      (handle_GPR w CMD_PUT m).2 = (callOnInit info.handle o P).2 ++
        [Action.builder info.handle state_t.BuildPut P.clone,
         Action.send info.handle CMD_DESTROY_REQUEST
          [Wire.u32 (w.chans o.chan).sid, Wire.u32 hd.ioid],
         Action.done info.handle state_t.Done (Result.ofError e)] ∧
      (handle_GPR w CMD_PUT m).1.conn.opByIOID hd.ioid = none ∧
      ((handle_GPR w CMD_PUT m).1.chans o.chan).opByIOID hd.ioid = none) ∧
    (∀ dv, hd.init = false → hd.get = true → o.state = state_t.GetOPut →
      info.prototype.valid = true → m.wireValid info.prototype.cloneEmpty = some dv →
      b ⟨info.prototype.desc, dv⟩ = Except.error e →
      (handle_GPR w CMD_PUT m).1.stateOf info.handle = some state_t.Done ∧
      (handle_GPR w CMD_PUT m).1.resultOf info.handle = some (Result.ofError e) ∧
      (handle_GPR w CMD_PUT m).2 =
        [Action.builder info.handle state_t.BuildPut ⟨info.prototype.desc, dv⟩,
         Action.send info.handle CMD_DESTROY_REQUEST
          [Wire.u32 (w.chans o.chan).sid, Wire.u32 hd.ioid],
         Action.done info.handle state_t.Done (Result.ofError e)] ∧
      (handle_GPR w CMD_PUT m).1.conn.opByIOID hd.ioid = none ∧
      ((handle_GPR w CMD_PUT m).1.chans o.chan).opByIOID hd.ioid = none) := by
  constructor
  · intro P hi ht hst hg he
    obtain ⟨p1, p2, p3, p4⟩ := init_phases w CMD_PUT m hd P info o hh hi hs (by decide) ht
      (by rw [hk]; rfl) hst
    simp only [hg, true_and, Bool.false_eq_true, and_false, if_false, if_true] at p4
    obtain ⟨c1, c2, _⟩ := callOnInit_chan info.handle o P
    obtain ⟨_, _, c5, _⟩ := callOnInit_fields info.handle o P
    obtain ⟨_, herr⟩ := buildPut_stage w CMD_PUT m hd P P info { info with prototype := P }
      { info with prototype := P } o _ _ b p1 hinfo p2 hop p3 p4 rfl (c2.trans hb)
    obtain ⟨a1, a2, a3, a4⟩ := herr e he
    have hn := notify_error info.handle
      { ({ (callOnInit info.handle o P).1 with state := state_t.BuildPut } : GPROp) with
        result := Result.ofError e, state := state_t.Done } d (c5.trans hdn) rfl
    rw [hn] at a1 a2
    refine ⟨by simp [World.stateOf, a2], by simp [World.resultOf, a2], ?_, a3, ?_⟩
    · rw [a1]
      simp [c1]
    · simpa [c1] using a4
  · intro dv hi hg hst hv hw he
    obtain ⟨p1, p2, p3, p4⟩ := getphase_phases w m hd info o dv hh hi hg hs hk hst hv hw
    obtain ⟨_, herr⟩ := buildPut_stage w CMD_PUT m hd _ _ info info _ o _ _ b
      p1 hinfo p2 hop p3 p4 rfl hb
    obtain ⟨a1, a2, a3, a4⟩ := herr e he
    have hn := notify_error info.handle
      { ({ o with state := state_t.BuildPut } : GPROp) with
        result := Result.ofError e, state := state_t.Done } d hdn rfl
    rw [hn] at a1 a2
    refine ⟨by simp [World.stateOf, a2], by simp [World.resultOf, a2], ?_, a3, a4⟩
    rw [a1]
    rfl

/-- C17 at a PUT without `getOput` whose builder raises on the INIT reply. -/
theorem builder_error_terminal_witness :
    (handle_GPR
      (demoWorld { demoOp operation_t.Put state_t.Creating none with
        builder := some failingBuilder })
      CMD_PUT initReply).1.stateOf 0 = some state_t.Done ∧
    (handle_GPR
      (demoWorld { demoOp operation_t.Put state_t.Creating none with
        builder := some failingBuilder })
      CMD_PUT initReply).2 =
        [Action.builder 0 state_t.BuildPut ⟨some 5, []⟩,
         Action.send 0 CMD_DESTROY_REQUEST [Wire.u32 7, Wire.u32 1],
         Action.done 0 state_t.Done (Result.ofError (Exn.user "no value"))] :=
  have h := (builder_error_terminal
    (demoWorld { demoOp operation_t.Put state_t.Creating none with
      builder := some failingBuilder })
    initReply ⟨1, 0x08, ⟨0, "", ""⟩⟩ ⟨Value.empty, 0⟩
    { demoOp operation_t.Put state_t.Creating none with builder := some failingBuilder }
    failingBuilder (fun _ => none) (Exn.user "no value") rfl rfl rfl rfl rfl rfl rfl).1
    ⟨some 5, []⟩ rfl rfl rfl rfl rfl
  ⟨h.1, h.2.2.1⟩


/-- C18: an accepted reply (the decoding steps that `handle_GPR` runs for it,
`readHead` and then `readData` on the registry entry, succeed; its IOID is
registered with a live operation; kind and subcommand bits fit the state) makes
`handle_GPR` enqueue exactly one
frame, determined by the operation's new state `s`, which is `GetOPut`, `Exec` or
`Done`: for `GetOPut` the body `(sid, ioid, 0x40)` under the operation's command
byte; for `Exec`, under the operation's command byte, the body `(sid, ioid, 0x00)`
followed for a GET by nothing, for an RPC by the descriptor of `rpcarg` and, when
`rpcarg` is not empty, its full encoding, and for a PUT by the valid encoding of the
value the builder returned in this call; for `Done` the body `(sid, ioid)` under
`CMD_DESTROY_REQUEST`. -/
theorem frame_by_new_state (w : World) (cmd : Nat) (m : Reply) (hd : Header)
    (data data1 : Value) ( info info1 : RequestInfo) (gpr : GPROp)
    (hrh : readHead cmd m = some (hd, data))
    (hinfo : w.conn.opByIOID hd.ioid = some info)
    (hrd : readData cmd hd m info data = some (info1, data1))
    (hop : w.ops info.handle = some gpr)
    (hkind : gpr.op.toByte = cmd)
    (hst : (gpr.state = state_t.Creating ∧ hd.init = true) ∨
      (gpr.state = state_t.GetOPut ∧ hd.init = false ∧ hd.get = true) ∨
      (gpr.state = state_t.Exec ∧ hd.init = false ∧ hd.get = false)) :
    ∃ s body,
      (handle_GPR w cmd m).1.stateOf info.handle = some s ∧
      (handle_GPR w cmd m).2.filter Action.isSend =
        [Action.send info.handle (if s = state_t.Done then CMD_DESTROY_REQUEST else cmd) body] ∧
      (s = state_t.GetOPut ∨ s = state_t.Exec ∨ s = state_t.Done) ∧
      (s = state_t.GetOPut →
        body = [Wire.u32 (w.chans gpr.chan).sid, Wire.u32 hd.ioid, Wire.u8 0x40]) ∧
      (s = state_t.Done → body = [Wire.u32 (w.chans gpr.chan).sid, Wire.u32 hd.ioid]) ∧
      (s = state_t.Exec → gpr.op = operation_t.Get →
        body = [Wire.u32 (w.chans gpr.chan).sid, Wire.u32 hd.ioid, Wire.u8 0x00]) ∧
      (s = state_t.Exec → gpr.op = operation_t.RPC →
        body = [Wire.u32 (w.chans gpr.chan).sid, Wire.u32 hd.ioid, Wire.u8 0x00,
                Wire.desc gpr.rpcarg.desc] ++
          (if gpr.rpcarg.valid = true then [Wire.full gpr.rpcarg] else [])) ∧
      (s = state_t.Exec → gpr.op = operation_t.Put →
        ∃ b arg B, gpr.builder = some b ∧ b arg = Except.ok B ∧
          Action.builder info.handle state_t.BuildPut arg ∈ (handle_GPR w cmd m).2 ∧
          body = [Wire.u32 (w.chans gpr.chan).sid, Wire.u32 hd.ioid, Wire.u8 0x00,
                  Wire.valid B]) := by
  have h3 := readData_handle cmd hd m info info1 data data1 hrd
  have hop1 : w.ops info1.handle = some gpr := by rw [h3]; exact hop
  have hcs : checkState gpr cmd hd = true := (checkState_iff gpr cmd hd).mpr ⟨hkind, hst⟩
  obtain ⟨⟨gpr1, info2, a1⟩, hadv⟩ :=
    advance_isSome info1.handle cmd hd w.conn.peerName gpr info1 data1 hcs
  obtain ⟨_, _, _, _, hst1, hex, _⟩ :=
    advance_spec info1.handle cmd hd w.conn.peerName gpr gpr1 info1 info2 data1 a1 hcs hadv
  obtain ⟨k1, k2, k3⟩ := advance_chan _ _ _ _ _ _ _ _ _ _ hadv
  obtain ⟨b1, b2⟩ := buildPut_chan info1.handle gpr1 info2
  have hsends := accepted_sends info1.handle cmd
    (if (buildPut info1.handle gpr1 info2).1.state = state_t.Done
      then CMD_DESTROY_REQUEST else cmd) hd w.conn.peerName gpr gpr1 info1 info2 data1 a1
    (txBodyFor (w.chans (buildPut info1.handle gpr1 info2).1.chan).sid hd.ioid cmd
      (buildPut info1.handle gpr1 info2).1 (buildPut info1.handle gpr1 info2).2.1) hcs hadv
  have hacts := congrArg Prod.snd (handle_GPR_eq w cmd m hd data data1 info info1 info2
    gpr gpr1 a1 hrh hinfo hrd hop1 hcs hadv)
  have hops := congrArg (fun r => r.1.ops) (handle_GPR_eq w cmd m hd data data1 info info1
    info2 gpr gpr1 a1 hrh hinfo hrd hop1 hcs hadv)
  simp only [act_acts] at hacts
  simp only [act_ops] at hops
  have hstate : (handle_GPR w cmd m).1.stateOf info.handle
      = some (buildPut info1.handle gpr1 info2).1.state := by
    rw [← h3]
    simp only [World.stateOf, hops, Function.update_same, Option.map_some']
    by_cases hdn : (buildPut info1.handle gpr1 info2).1.state = state_t.Done
    · simp only [hdn, if_true, notify_state]
    · simp only [hdn, if_false]
  have hbs : (buildPut info1.handle gpr1 info2).1.state = state_t.GetOPut ∨
      (buildPut info1.handle gpr1 info2).1.state = state_t.Exec ∨
      (buildPut info1.handle gpr1 info2).1.state = state_t.Done := by
    by_cases hbp : gpr1.state = state_t.BuildPut
    · exact Or.inr (buildPut_run info1.handle gpr1 info2 hbp).1
    · rw [buildPut_skip info1.handle gpr1 info2 hbp]
      rcases hst1 with h | h | h | h
      · exact Or.inl h
      · exact absurd h hbp
      · exact Or.inr (Or.inl h)
      · exact Or.inr (Or.inr h)
  refine ⟨(buildPut info1.handle gpr1 info2).1.state,
    txBodyFor (w.chans gpr.chan).sid hd.ioid cmd
      (buildPut info1.handle gpr1 info2).1 (buildPut info1.handle gpr1 info2).2.1,
    hstate, ?_, hbs, ?_, ?_, ?_, ?_, ?_⟩
  · rw [hacts, ← h3, b1, k1]
    rw [b1, k1] at hsends
    exact hsends
  · intro hs
    simp [txBodyFor, hs]
  · intro hs
    simp [txBodyFor, hs]
  · intro hs hk
    have hc : cmd = CMD_GET := by rw [← hkind, hk]; rfl
    simp [txBodyFor, hs, hc, CMD_GET, CMD_PUT, CMD_RPC]
  · intro hs hk
    have hc : cmd = CMD_RPC := by rw [← hkind, hk]; rfl
    simp [txBodyFor, hs, hc, CMD_PUT, CMD_RPC, b2, k3]
  · intro hs hk
    have hc : cmd = CMD_PUT := by rw [← hkind, hk]; rfl
    subst hc
    have hne := advance_put_state info1.handle hd w.conn.peerName gpr gpr1 info1 info2 data1 a1
      hcs hadv
    have hbp : gpr1.state = state_t.BuildPut := by
      by_contra hbp
      rw [buildPut_skip info1.handle gpr1 info2 hbp] at hs
      exact hne hs
    obtain ⟨b, v, e1, e2, e3, e4⟩ := buildPut_exec info1.handle gpr1 info2 hbp hs
    refine ⟨b, info2.prototype.clone, v, by rw [← k2, e1], e2, ?_, ?_⟩
    · rw [hacts, e4, ← h3]
      simp
    · simp [txBodyFor, hs, e3]


/-- C18 at the INIT reply of an RPC without argument (the EXEC frame carries the
null descriptor only) and at an EXEC reply with a failure status, carrying neither
type nor value, for a GET (the frame is the DESTROY_REQUEST). -/
theorem frame_by_new_state_witness :
    (handle_GPR (demoWorld (demoOp operation_t.RPC state_t.Creating none)) CMD_RPC
      initReply).2.filter Action.isSend =
        [Action.send 0 CMD_RPC [Wire.u32 7, Wire.u32 1, Wire.u8 0x00, Wire.desc none]] ∧
    (handle_GPR (demoWorld (demoOp operation_t.Get state_t.Exec none)) CMD_GET
      failedReply).2.filter Action.isSend =
        [Action.send 0 CMD_DESTROY_REQUEST [Wire.u32 7, Wire.u32 1]] := by
  constructor
  · obtain ⟨s, body, h1, h2, _, _, _, _, h7, _⟩ :=
      frame_by_new_state (demoWorld (demoOp operation_t.RPC state_t.Creating none)) CMD_RPC
        initReply ⟨1, 0x08, ⟨0, "", ""⟩⟩ Value.empty Value.empty ⟨Value.empty, 0⟩
        ⟨Value.empty, 0⟩ (demoOp operation_t.RPC state_t.Creating none) rfl rfl rfl
        rfl rfl (Or.inl ⟨rfl, rfl⟩)
    have hs : (handle_GPR (demoWorld (demoOp operation_t.RPC state_t.Creating none)) CMD_RPC
        initReply).1.stateOf 0 = some state_t.Exec := by decide
    have hse : s = state_t.Exec := by
      have h := h1.symm.trans hs
      exact Option.some.inj h
    subst hse
    rw [h2, h7 rfl rfl]
    rfl
  · obtain ⟨s, body, h1, h2, _, _, h5, _⟩ :=
      frame_by_new_state (demoWorld (demoOp operation_t.Get state_t.Exec none)) CMD_GET
        failedReply ⟨1, 0x00, ⟨2, "no access", ""⟩⟩ Value.empty Value.empty
        ⟨Value.empty, 0⟩ ⟨Value.empty, 0⟩ (demoOp operation_t.Get state_t.Exec none)
        rfl rfl rfl rfl rfl (Or.inr (Or.inr ⟨rfl, rfl, rfl⟩))
    have hs : (handle_GPR (demoWorld (demoOp operation_t.Get state_t.Exec none)) CMD_GET
        failedReply).1.stateOf 0 = some state_t.Done := by decide
    have hse : s = state_t.Done := by
      have h := h1.symm.trans hs
      exact Option.some.inj h
    subst hse
    rw [h2, h5 rfl]
    rfl


/-- C21: the field-map builder `Args::build`, for every field map (no key twice, as
in any `std::map`) and every prototype.  It fails exactly when some entry marked
required names a field that the prototype does not have or whose type the user
value cannot be converted to.  Otherwise it returns the prototype's fields, in the
prototype's order, where a field stores the converted user value if the map has
an entry for it that converts, and nothing if not (entries not marked required
that are missing or do not convert are passed over). -/
theorem build_contract (copyIn : Nat → Arg → Option Nat) (a : Args)
    (hnd : (a.values.map Prod.fst).Nodup) (prototype : Members) :
    ((∃ e, a.build copyIn prototype = Except.error e) ↔
      ∃ n v, (n, v, true) ∈ a.values ∧
        (Members.find prototype n = none ∨
          ∃ f, Members.find prototype n = some f ∧ copyIn f.code v = none)) ∧
    ∀ ret, a.build copyIn prototype = Except.ok ret →
      ret.map Prod.fst = prototype.map Prod.fst ∧
      ∀ n, Members.find ret n = (Members.find prototype n).map fun f =>
        ⟨f.code, (a.find n).bind fun x => copyIn f.code x.1⟩ :=
  ⟨build_error copyIn a prototype, fun ret h => build_ok copyIn a hnd prototype ret h⟩

theorem build_contract_witness :
    demoArgs.build demoApi.copyIn demoProto
      = Except.ok [("value", ⟨0, some 7⟩), ("alarm", ⟨1, none⟩)] ∧
    Members.find [("value", ⟨0, some 7⟩), ("alarm", ⟨1, none⟩)] "value"
      = some ⟨0, some 7⟩ ∧
    Members.find [("value", ⟨0, some 7⟩), ("alarm", ⟨1, none⟩)] "alarm"
      = some ⟨1, none⟩ :=
  ⟨rfl,
   ((build_contract demoApi.copyIn demoArgs (by decide) demoProto).2
      [("value", ⟨0, some 7⟩), ("alarm", ⟨1, none⟩)] rfl).2 "value",
   ((build_contract demoApi.copyIn demoArgs (by decide) demoProto).2
      [("value", ⟨0, some 7⟩), ("alarm", ⟨1, none⟩)] rfl).2 "alarm"⟩

/-- C22, as stated, fails: a `PutBuilder` with a field map and a builder closure,
and fetch-present requested, creates an operation with `getOput = true`. -/
theorem getOput_kept_with_closure :
    ((PutBuilder.exec demoApi notConnected
        (demoWorld (demoOp operation_t.Get state_t.Done none))
        (demoPut (some fun v => Except.ok v) (some demoArgs) true) 0 3).1.1.ops 3).map
      GPROp.getOput = some true := by
  decide

/-- C22, amended: for a `PutBuilder` with a context and a field map, `exec()` queues
the operation `mkOp`.  Without a builder closure its `getOput` is `false`, whatever
the fetch-present setting; with a builder closure, the closure is the operation's
builder (the field map is not used) and `getOput` is the fetch-present setting. -/
theorem fieldmap_getOput (api : DataApi) (co : World → Nat → World × List Action)
    (w : World) (b : PutBuilder) (chan slot : Nat) (a : Args)
    (hctx : b.ctx = true) (ha : b._args = some a) :
    b.exec api co w chan slot = (enqueue co w chan slot (b.mkOp api chan), Except.ok slot) ∧
    (enqueue notConnected w chan slot (b.mkOp api chan)).1.ops slot
      = some (b.mkOp api chan) ∧
    (b._builder = none → (b.mkOp api chan).getOput = false) ∧
    ∀ f, b._builder = some f →
      (b.mkOp api chan).getOput = b._doGet ∧ (b.mkOp api chan).builder = some f := by
  refine ⟨?_, (enqueue_ops w chan slot _).1, ?_, ?_⟩
  · simp [PutBuilder.exec, hctx, ha]
  · intro hb
    simp [PutBuilder.mkOp, hb, ha]
  · intro f hb
    simp [PutBuilder.mkOp, hb]

theorem fieldmap_getOput_witness :
    (PutBuilder.mkOp demoApi (demoPut none (some demoArgs) true) 0).getOput = false :=
  (fieldmap_getOput demoApi notConnected
    (demoWorld (demoOp operation_t.Get state_t.Done none))
    (demoPut none (some demoArgs) true) 0 3 demoArgs rfl rfl).2.2.1 rfl

/-- C23: validation by the builders' `exec()`.  `PutBuilder::exec` raises a logic
error exactly when the context is null or there is neither builder closure nor
field map; `RPCBuilder::exec` (its field map, if any, having a value for each
recorded name, as `_set` leaves it) exactly when the context is null or both a field
map and a positional argument are present; `GetBuilder::_exec_get` exactly when the
context is null.  Whenever any of them raises, the world is as before and nothing
was done: no operation constructed, none queued. -/
theorem exec_validation (api : DataApi) (co : World → Nat → World × List Action)
    (w : World) (chan slot : Nat) (g : GetBuilder) (p : PutBuilder) (r : RPCBuilder)
    (hwf : ∀ a, r._args = some a → a.wf = true) :
    ((∃ what, (g._exec_get co w chan slot).2 = Except.error (Exn.logic_error what)) ↔
      g.ctx = false) ∧
    ((∃ what, (p.exec api co w chan slot).2 = Except.error (Exn.logic_error what)) ↔
      (p.ctx = false ∨ (p._builder = none ∧ p._args = none))) ∧
    ((∃ what, (r.exec api co w chan slot).2 = Except.error (Exn.logic_error what)) ↔
      (r.ctx = false ∨ (r._args.isSome = true ∧ r._argument.valid = true))) ∧
    (∀ e, (g._exec_get co w chan slot).2 = Except.error e →
      (g._exec_get co w chan slot).1 = (w, [])) ∧
    (∀ e, (p.exec api co w chan slot).2 = Except.error e →
      (p.exec api co w chan slot).1 = (w, [])) ∧
    (∀ e, (r.exec api co w chan slot).2 = Except.error e →
      (r.exec api co w chan slot).1 = (w, [])) := by
  have hrpc : (r._args.isSome = true ∧ r._argument.valid = true) ∨
      ∃ arg, r.rpcarg api = Except.ok arg := by
    unfold RPCBuilder.rpcarg
    by_cases hv : r._argument.valid = true
    · cases ha : r._args with
      | none => exact Or.inr ⟨r._argument, by simp [hv]⟩
      | some a => exact Or.inl ⟨rfl, hv⟩
    · right
      simp only [hv, Bool.false_eq_true, if_false]
      cases ha : r._args with
      | none => exact ⟨_, rfl⟩
      | some a =>
        obtain ⟨u, hu⟩ := uriArgs_ok_of_wf a (hwf a ha)
        exact ⟨api.packURI { u with path := r._name }, by simp only [hu]⟩
  refine ⟨?_, ?_, ?_, ?_, ?_, ?_⟩
  · unfold GetBuilder._exec_get
    by_cases hc : g.ctx = false <;> simp [hc]
  · unfold PutBuilder.exec
    by_cases hc : p.ctx = false
    · simp [hc]
    · by_cases hb : p._builder.isNone = true ∧ p._args.isNone = true
      · have hb2 : p._builder = none ∧ p._args = none := by
          simpa [Option.isNone_iff_eq_none] using hb
        simp [hc, hb2]
      · have hb2 : ¬ (p._builder = none ∧ p._args = none) := by
          simpa [Option.isNone_iff_eq_none] using hb
        simp only [hc, hb, if_false]
        simp [hc, hb2]
  · unfold RPCBuilder.exec
    by_cases hc : r.ctx = false
    · simp [hc]
    · by_cases hb : r._args.isSome = true ∧ r._argument.valid = true
      · simp [hc, hb]
      · rcases hrpc with h | ⟨arg, harg⟩
        · exact absurd h hb
        · simp only [hc, hb, if_false, harg]
          simp [hc, hb]
  · intro e
    unfold GetBuilder._exec_get
    split_ifs <;> simp
  · intro e
    unfold PutBuilder.exec
    split_ifs <;> simp
  · intro e
    unfold RPCBuilder.exec
    split_ifs
    · simp
    · simp
    · cases r.rpcarg api <;> simp

theorem exec_validation_witness :
    (PutBuilder.exec demoApi notConnected
        (demoWorld (demoOp operation_t.Get state_t.Done none)) (demoPut none none true) 0 3).1
      = (demoWorld (demoOp operation_t.Get state_t.Done none), []) ∧
    ((demoRPC ⟨some 1, []⟩ (some demoArgs)).ctx = false ∨
      ((demoRPC ⟨some 1, []⟩ (some demoArgs))._args.isSome = true ∧
        (demoRPC ⟨some 1, []⟩ (some demoArgs))._argument.valid = true)) :=
  ⟨(exec_validation demoApi notConnected
      (demoWorld (demoOp operation_t.Get state_t.Done none)) 0 3 (demoGet true)
      (demoPut none none true) (demoRPC ⟨some 1, []⟩ (some demoArgs))
      (fun a h => by cases h; decide)).2.2.2.2.1 _ rfl,
   (exec_validation demoApi notConnected
      (demoWorld (demoOp operation_t.Get state_t.Done none)) 0 3 (demoGet true)
      (demoPut none none true) (demoRPC ⟨some 1, []⟩ (some demoArgs))
      (fun a h => by cases h; decide)).2.2.1.mp ⟨_, rfl⟩⟩

/-- C24: NTURI construction.  For every non-empty sequence of `_set` calls with
distinct names, `uriArgs()` on the field map they record yields the structure whose
`query` is `queryOf calls`: its fields are the names of the calls, in the order of
the calls, and the field of each call stores the user value.  `RPCBuilder::exec`
with that field map and no positional argument queues an operation whose `rpcarg`
is that structure with `path` set to the PV name. -/
theorem uriArgs_query (calls : List (String × Arg × Bool))
    (hc : (calls.map Prod.fst).Nodup) (hne : calls ≠ [])
    (api : DataApi) (co : World → Nat → World × List Action) (w : World)
    (chan slot : Nat) (b : RPCBuilder) (hctx : b.ctx = true)
    (harg : b._argument.valid = false) (hargs : b._args = PRBase.sets none calls) :
    (PRBase.sets none calls).map Args.uriArgs
      = some (Except.ok ⟨"", "", queryOf calls⟩) ∧
    (queryOf calls).map Prod.fst = calls.map Prod.fst ∧
    (∀ c ∈ calls, Members.find (queryOf calls) c.1
      = some ⟨c.2.1.code, some c.2.1.datum⟩) ∧
    b.exec api co w chan slot =
      (enqueue co w chan slot
        (b.mkOp chan (api.packURI ⟨"", b._name, queryOf calls⟩)), Except.ok slot) := by
  obtain ⟨a, hs, _, _, _, hu⟩ := sets_uriArgs calls hc hne
  have hq : (queryOf calls).map Prod.fst = calls.map Prod.fst := by
    simp [queryOf, List.map_map, Function.comp]
  refine ⟨by rw [hs, Option.map_some', hu], hq, ?_, ?_⟩
  · intro c hcm
    apply lookup_of_mem (queryOf calls) (by rw [hq]; exact hc)
    exact List.mem_map.mpr ⟨c, hcm, rfl⟩
  · rw [hs] at hargs
    have hr : b.rpcarg api = Except.ok (api.packURI ⟨"", b._name, queryOf calls⟩) := by
      simp [RPCBuilder.rpcarg, harg, hargs, hu]
    simp [RPCBuilder.exec, hctx, harg, hr]

theorem uriArgs_query_witness :
    (PRBase.sets none demoCalls).map Args.uriArgs
      = some (Except.ok ⟨"", "", [("value", ⟨0, some 7⟩), ("a", ⟨2, some 6⟩)]⟩) ∧
    ((RPCBuilder.exec demoApi notConnected
        (demoWorld (demoOp operation_t.Get state_t.Done none))
        (demoRPC Value.empty (PRBase.sets none demoCalls)) 0 3).1.1.ops 3).map GPROp.rpcarg
      = some (demoApi.packURI ⟨"", "pv", [("value", ⟨0, some 7⟩), ("a", ⟨2, some 6⟩)]⟩) :=
  ⟨(uriArgs_query demoCalls (by decide) (by decide) demoApi notConnected
      (demoWorld (demoOp operation_t.Get state_t.Done none)) 0 3
      (demoRPC Value.empty (PRBase.sets none demoCalls)) rfl rfl rfl).1,
   by rw [(uriArgs_query demoCalls (by decide) (by decide) demoApi notConnected
      (demoWorld (demoOp operation_t.Get state_t.Done none)) 0 3
      (demoRPC Value.empty (PRBase.sets none demoCalls)) rfl rfl rfl).2.2.2]; rfl⟩

/-- C25: with discoverers present (and the age at most 10, as it is in every state
after a first registration), `onDiscoverTick` sets the age to `min (age + 1) 10`,
arms the timer with exactly the new age in seconds, and sends one search.  After a
first registration, which resets the age to `0`, the tick number `k ≥ 1` (the one
run by the registration itself being number `1`) leaves the age at `min k 10` and
the timer due `min k 10` seconds later, with `k` searches sent; and whatever happens
after a first registration the age is at most `10`. -/
theorem discover_backoff (c : ContextImpl) (hne : c.discoverers ≠ [])
    (ha : c.discoverAge ≤ 10) :
    onDiscoverTick c =
      ({ c with discoverAge := min (c.discoverAge + 1) 10 },
       [DAction.arm (min (c.discoverAge + 1) 10), DAction.search]) ∧
    (∀ (s : Clocked) (op k : Nat), s.ctx.discoverers = [] →
      ((s.step (DEvent.start op)).run (List.replicate k DEvent.fire)).ctx.discoverAge
          = min (k + 1) 10 ∧
      ((s.step (DEvent.start op)).run (List.replicate k DEvent.fire)).due
          = some (((s.step (DEvent.start op)).run (List.replicate k DEvent.fire)).now
              + min (k + 1) 10) ∧
      ((s.step (DEvent.start op)).run (List.replicate k DEvent.fire)).searches.length
          = s.searches.length + (k + 1)) ∧
    (∀ (s : Clocked) (op : Nat) (es : List DEvent), s.ctx.discoverers = [] →
      ((s.step (DEvent.start op)).run es).ctx.discoverAge ≤ 10) := by
  refine ⟨onDiscoverTick_nonempty c hne ha, ?_, ?_⟩
  · intro s op k h
    rw [ticks_state s op h k]
    simp
  · intro s op es h
    apply age_bounded_run
    rw [start_first s op h]
    exact (by decide : 1 ≤ 10)

theorem discover_backoff_witness :
    onDiscoverTick ⟨[1], [1], 10⟩ = (⟨[1], [1], 10⟩, [DAction.arm 10, DAction.search]) ∧
    onDiscoverTick ⟨[1], [1], 3⟩ = (⟨[1], [1], 4⟩, [DAction.arm 4, DAction.search]) :=
  ⟨(discover_backoff ⟨[1], [1], 10⟩ (by decide) (by decide)).1,
   (discover_backoff ⟨[1], [1], 3⟩ (by decide) (by decide)).1⟩

/-- C26, as stated, fails: with one discoverer registered at `t = 0` the third
search is sent at `t = 3`, not at `t = 2`. -/
theorem third_search_at_three :
    ((Clocked.idle 0).run [DEvent.start 1, DEvent.fire, DEvent.fire]).searches = [0, 1, 3] := by
  decide

/-- C26, amended: with one discoverer registered at `t = 0` on a context without
discoverers, and the timer left to expire `k` times, the searches are sent at the
times `searchTime 0, …, searchTime k`, the intervals `1, 2, …, 10, 10, …` added up:
`t = 0, 1, 3, 6, 10, 15, 21, 28, 36, 45, 55`, then every ten seconds
(`65, 75, …`). -/
theorem search_times (s : Clocked) (op k : Nat) (h : s.ctx.discoverers = [])
    (h0 : s.now = 0) (hs : s.searches = []) :
    ((s.step (DEvent.start op)).run (List.replicate k DEvent.fire)).searches
      = (List.range (k + 1)).map searchTime ∧
    (List.range 13).map searchTime = [0, 1, 3, 6, 10, 15, 21, 28, 36, 45, 55, 65, 75] := by
  refine ⟨?_, by decide⟩
  rw [ticks_state s op h k]
  simp [h0, hs]

theorem search_times_witness :
    (((Clocked.idle 0).step (DEvent.start 1)).run (List.replicate 4 DEvent.fire)).searches
      = [0, 1, 3, 6, 10] :=
  (search_times (Clocked.idle 0) 1 4 rfl rfl rfl).1

/-- C27: without discoverers `onDiscoverTick` does not arm the timer, sends no
search and leaves the context (so the age) as it is.  Hence once the last
discoverer `op` has been removed, by `cancel` or by dropping its handle, letting the
timer expire any number of times is the same as letting it expire once: the tick
that was pending, which sends nothing, changes nothing in the context and leaves
the timer not armed. -/
theorem tick_without_discoverers (s : Clocked) (op : Nat) (h1 : s.ctx.discoverers = [op])
    (hr : op ∈ s.ctx.running) (n : Nat) :
    (∀ c : ContextImpl, c.discoverers = [] → onDiscoverTick c = (c, [])) ∧
    (∀ t : Clocked, t = s.step (DEvent.cancel op) ∨ t = s.step (DEvent.drop op) →
      t.ctx.discoverers = [] ∧
      t.run (List.replicate (n + 1) DEvent.fire) = t.step DEvent.fire ∧
      (t.step DEvent.fire).searches = s.searches ∧
      (t.step DEvent.fire).ctx = t.ctx ∧
      (t.step DEvent.fire).due = none) := by
  refine ⟨onDiscoverTick_empty, ?_⟩
  obtain ⟨r1, r2, r3, r4⟩ := removed_last s op h1 hr
  intro t ht
  have key : t.ctx.discoverers = [] ∧ t.searches = s.searches := by
    rcases ht with rfl | rfl
    · exact ⟨r1, r3⟩
    · exact ⟨r2, r4⟩
  obtain ⟨f1, f2, f3⟩ := fire_idle t key.1
  exact ⟨key.1, fires_idle t key.1 n, by rw [f2, key.2], f1, f3⟩

theorem tick_without_discoverers_witness :
    (((Clocked.idle 0).run [DEvent.start 1, DEvent.fire]).step (DEvent.cancel 1)).run
        (List.replicate 3 DEvent.fire)
      = (((Clocked.idle 0).run [DEvent.start 1, DEvent.fire]).step (DEvent.cancel 1)).step
          DEvent.fire ∧
    ((((Clocked.idle 0).run [DEvent.start 1, DEvent.fire]).step (DEvent.drop 1)).step
        DEvent.fire).searches = [0, 1] :=
  ⟨((tick_without_discoverers ((Clocked.idle 0).run [DEvent.start 1, DEvent.fire]) 1
      (by decide) (by decide) 2).2 _ (Or.inl rfl)).2.1,
   ((tick_without_discoverers ((Clocked.idle 0).run [DEvent.start 1, DEvent.fire]) 1
      (by decide) (by decide) 2).2 _ (Or.inr rfl)).2.2.1⟩

/-- C28: `MPSCFIFO` is first-in first-out, without loss or duplication.  On a queue
constructed with a limit `n > 0`, every sequence of pushes and pops in which no push
is made on a full queue and no pop on an empty one runs to its end, and the elements
popped, in order, followed by those left in the queue, are the elements pushed, in
order: the popped sequence is a prefix of the pushed one. -/
theorem fifo_order {T : Type} (n : Nat) (hn : 0 < n) (cs : List (QCall T))
    (hw : noWait n 0 cs = true) :
    MPSCFIFO.new T n = Except.ok ⟨[], n, 0⟩ ∧
    ((⟨[], n, 0⟩ : MPSCFIFO T).calls cs).map (fun p => p.2 ++ p.1.Q) = some (pushed cs) ∧
    ∀ p, (⟨[], n, 0⟩ : MPSCFIFO T).calls cs = some p → p.2 <+: pushed cs := by
  have h1 := (calls_fifo cs (⟨[], n, 0⟩ : MPSCFIFO T) hw).1
  refine ⟨?_, by simpa using h1, ?_⟩
  · have : n ≠ 0 := by omega
    simp [MPSCFIFO.new, this]
  · intro p hp
    rw [hp] at h1
    simp only [Option.map_some', List.nil_append, Option.some.injEq] at h1
    exact ⟨p.1.Q, h1⟩

theorem fifo_order_witness :
    ((⟨[], 4, 0⟩ : MPSCFIFO Nat).calls testFill).map (fun p => p.2 ++ p.1.Q)
      = some [0, 1, 2, 3] ∧
    ((⟨[], 4, 0⟩ : MPSCFIFO Nat).calls testFill).map Prod.snd = some [0, 1, 2, 3] :=
  ⟨(fifo_order 4 (by decide) testFill (by decide)).2.1, by decide⟩

/-- C29: `Done` is absorbing.  For an operation in state `Done`, each of `createOp`,
`disconnected`, `_cancel` (explicit or implicit), `cancel` and `handle_GPR` (for any
message), and any sequence of events, leaves the state `Done` and the result as it
was, and does nothing for the operation: no `done`, `onInit` or builder is invoked
and no frame is sent.  So in every run there is at most one event at which the
operation passes into `Done`, and exactly one when it starts elsewhere and ends in
`Done`. -/
theorem done_absorbing (w : World) (i : Nat) (o : GPROp) (ho : w.ops i = some o)
    (hd : o.state = state_t.Done) ( implicit : Bool) (cmd : Nat) (m : Reply)
    (es : List Event) :
    DoneKept i o.result (createOp w i) ∧ DoneKept i o.result (disconnected w i) ∧
    DoneKept i o.result (_cancel w i implicit).1 ∧ DoneKept i o.result (cancel w i).1 ∧
    DoneKept i o.result (handle_GPR w cmd m) ∧ DoneKept i o.result (run w es) ∧
    ∀ w0 es0, doneEntries i w0 es0 ≤ 1 ∧
      (w0.stateOf i ≠ some state_t.Done → (run w0 es0).1.stateOf i = some state_t.Done →
        doneEntries i w0 es0 = 1) :=
  ⟨doneKept_step w (Event.createOp i) i o ho hd,
   doneKept_step w (Event.disconnected i) i o ho hd,
   doneKept__cancel w i implicit o ho hd,
   doneKept_step w (Event.cancel i) i o ho hd,
   doneKept_step w (Event.reply cmd m) i o ho hd,
   doneKept_run w es i o ho hd,
   fun w0 es0 => ⟨doneEntries_le i es0 w0, doneEntries_one i es0 w0⟩⟩

theorem done_absorbing_witness :
    (handle_GPR (demoWorld (demoOp operation_t.Get state_t.Done none)) CMD_GET execReply).1.stateOf 0
      = some state_t.Done ∧
    doneEntries 0 (demoWorld (demoOp operation_t.Get state_t.Exec none))
      [Event.reply CMD_GET execReply, Event.disconnected 0, Event.cancel 0] = 1 :=
  ⟨(done_absorbing (demoWorld (demoOp operation_t.Get state_t.Done none)) 0
      (demoOp operation_t.Get state_t.Done none) rfl rfl true CMD_GET execReply []).2.2.2.2.1.1,
   ((done_absorbing (demoWorld (demoOp operation_t.Get state_t.Done none)) 0
      (demoOp operation_t.Get state_t.Done none) rfl rfl true CMD_GET execReply []).2.2.2.2.2.2
      (demoWorld (demoOp operation_t.Get state_t.Exec none))
      [Event.reply CMD_GET execReply, Event.disconnected 0, Event.cancel 0]).2
      (by decide) (by decide)⟩

/-- C30: `BuildPut` is not observable between events.  From a world in which the
operation is not in `BuildPut` (in particular from `Connecting`), after any sequence
of events (register, createOp, replies, disconnected, explicit and implicit cancel)
the operation's state is not `BuildPut`; `disconnected` then takes one of its first
three branches (no-op, return to pending, fail with `Disconnect`), never the one for
an unexpected state; and no event of the run, nor any further reply, makes
`handle_GPR` throw. -/
theorem buildPut_never_observed (w : World) (es : List Event) (i : Nat) (o : GPROp)
    (ho : w.ops i = some o) (hs : o.state ≠ state_t.BuildPut) :
    (run w es).1.stateOf i ≠ some state_t.BuildPut ∧
    (∃ o', (run w es).1.ops i = some o' ∧ o'.state ≠ state_t.BuildPut ∧
      (disconnected (run w es).1 i = ((run w es).1, []) ∨
       disconnected (run w es).1 i =
        (((run w es).1.setChan o'.chan { (run w es).1.chans o'.chan with
            pending := ((run w es).1.chans o'.chan).pending ++ [i] }).setOp i
          { o' with state := state_t.Connecting }, []) ∨
       disconnected (run w es).1 i =
        ((run w es).1.setOp i
          (notify i { o' with state := state_t.Done,
                              result := Result.ofError Exn.Disconnect }).1,
         (notify i { o' with state := state_t.Done,
                             result := Result.ofError Exn.Disconnect }).2))) ∧
    (∀ a ∈ (run w es).2, a.isRaise = false) ∧
    ∀ cmd m, ∀ a ∈ (handle_GPR (run w es).1 cmd m).2, a.isRaise = false := by
  have h0 : w.stateOf i ≠ some state_t.BuildPut := by
    simpa [World.stateOf, ho] using hs
  have h1 := run_no_buildPut i es w h0
  obtain ⟨o', ho'⟩ := run_some i es w o ho
  have hs' : o'.state ≠ state_t.BuildPut := by
    simpa [World.stateOf, ho'] using h1
  exact ⟨h1, ⟨o', ho', hs', disconnected_expected _ i o' ho' hs'⟩, run_no_raise es w,
    fun cmd m => handle_GPR_no_raise _ cmd m⟩

theorem buildPut_never_observed_witness :
    (run (demoWorld (demoOp operation_t.Put state_t.Connecting none))
      [Event.createOp 0, Event.reply CMD_PUT initReply]).1.stateOf 0
        ≠ some state_t.BuildPut :=
  (buildPut_never_observed (demoWorld (demoOp operation_t.Put state_t.Connecting none))
    [Event.createOp 0, Event.reply CMD_PUT initReply] 0
    (demoOp operation_t.Put state_t.Connecting none) rfl (by decide)).1

/-- C31: in every state reached from `Connecting` by a sequence of events (register,
createOp, replies, disconnected, explicit and implicit cancel), an operation in
state `GetOPut` is a PUT with `getOput` set.  So when the validity check of
`handle_GPR`, which compares the command with the kind and then tests the state
without the kind, accepts a reply for it, the command is `CMD_PUT` and the reply is
that of the GET phase. -/
theorem getOPut_only_put (w : World) (es : List Event) (i : Nat) (o o' : GPROp)
    (ho : w.ops i = some o) (hs : o.state = state_t.Connecting)
    (ho' : (run w es).1.ops i = some o') (hg : o'.state = state_t.GetOPut) :
    o'.op = operation_t.Put ∧ o'.getOput = true ∧
    ∀ cmd hd, checkState o' cmd hd = true →
      cmd = CMD_PUT ∧ hd.init = false ∧ hd.get = true := by
  have h0 : ∀ o2, w.ops i = some o2 → o2.state = state_t.GetOPut →
      o2.op = operation_t.Put ∧ o2.getOput = true := by
    intro o2 ho2 hc
    rw [ho] at ho2
    cases ho2
    rw [hs] at hc
    cases hc
  obtain ⟨h1, h2⟩ := run_getOPut i es w h0 o' ho' hg
  exact ⟨h1, h2, fun cmd hd hc => checkState_getOPut o' cmd hd hg h1 hc⟩

theorem getOPut_only_put_witness :
    (run (demoWorld (demoGetOPut state_t.Connecting))
      [Event.createOp 0, Event.reply CMD_PUT initReply]).1.stateOf 0
        = some state_t.GetOPut ∧
    (demoGetOPut state_t.GetOPut).op = operation_t.Put ∧
    (demoGetOPut state_t.GetOPut).getOput = true :=
  ⟨by decide,
   (getOPut_only_put (demoWorld (demoGetOPut state_t.Connecting))
      [Event.createOp 0, Event.reply CMD_PUT initReply] 0
      (demoGetOPut state_t.Connecting) (demoGetOPut state_t.GetOPut) rfl rfl rfl rfl).1,
   (getOPut_only_put (demoWorld (demoGetOPut state_t.Connecting))
      [Event.createOp 0, Event.reply CMD_PUT initReply] 0
      (demoGetOPut state_t.Connecting) (demoGetOPut state_t.GetOPut) rfl rfl rfl rfl).2.1⟩

/-- C32: after every sequence of `_set` calls, those that raise included, no name
occurs twice in `names`, no key twice in `values`, and the names are the keys of
`values`.  A further `_set` of a name already recorded raises a logic error and
leaves the field map as it is; of a new name it raises nothing, adds the entry and
appends the name.  Hence `uriArgs()` returns a structure, and does not raise its
"names vs. values mis-match" error. -/
theorem set_keeps_names_and_values (calls : List (String × Arg × Bool)) (a : Args)
    (h : PRBase.sets none calls = some a) (name : String) (v : Arg) (required : Bool) :
    a.names.Nodup ∧ (a.values.map Prod.fst).Nodup ∧
    (∀ n, n ∈ a.names ↔ n ∈ a.values.map Prod.fst) ∧
    (name ∈ a.names →
      PRBase._set (some a) name v required =
        (some a, some (Exn.logic_error
          ("PutBuilder can\x27t assign a second value to field \x27" ++ name ++ "\x27")))) ∧
    (name ∉ a.names →
      PRBase._set (some a) name v required =
        (some ⟨mapEmplace name (v, required) a.values, a.names ++ [name]⟩, none)) ∧
    (∃ u, a.uriArgs = Except.ok u) ∧
    a.uriArgs ≠ Except.error (Exn.logic_error "uriArgs() names vs. values mis-match") := by
  obtain ⟨h1, h2, h3⟩ := sets_none_inv calls a h
  obtain ⟨u, hu⟩ := uriArgs_ok_of_wf a (wf_of_names_keys a h3)
  refine ⟨h2, h1, h3, _set_again a name v required h3, _set_fresh a name v required h3,
    ⟨u, hu⟩, ?_⟩
  rw [hu]
  intro hc
  cases hc

theorem set_keeps_names_and_values_witness :
    PRBase.sets none demoCallsAgain = some demoArgs ∧
    (PRBase._set (some demoArgs) "value" ⟨1, 1⟩ false).1 = some demoArgs ∧
    (PRBase._set (some demoArgs) "b" ⟨1, 1⟩ false).2 = none :=
  ⟨by decide,
   congrArg Prod.fst ((set_keeps_names_and_values demoCallsAgain demoArgs (by decide)
      "value" ⟨1, 1⟩ false).2.2.2.1 (by decide)),
   congrArg Prod.snd ((set_keeps_names_and_values demoCallsAgain demoArgs (by decide)
      "b" ⟨1, 1⟩ false).2.2.2.2.1 (by decide))⟩

/-- C33: `MPSCFIFO` is bounded.  Construction with limit `0` raises
`invalid_argument`; with a limit `n > 0` it gives the empty queue, and after any
sequence of `push` (which is `emplace`) and `pop` calls, whether they return or have
to wait, the queue holds at most `n` elements.  For `emplace` waits exactly when
the size has reached the limit, and when it returns it has appended one element to
a queue whose size was below the limit. -/
theorem fifo_bounded {T : Type} (n : Nat) (hn : 0 < n) (cs : List (QCall T)) :
    MPSCFIFO.new T 0 = Except.error (Exn.invalid_argument "MPSCFIFO limit must be >0") ∧
    MPSCFIFO.new T n = Except.ok ⟨[], n, 0⟩ ∧
    ((⟨[], n, 0⟩ : MPSCFIFO T).attempts cs).Q.length ≤ n ∧
    (∀ p, (⟨[], n, 0⟩ : MPSCFIFO T).calls cs = some p → p.1.Q.length ≤ n) ∧
    ∀ (q : MPSCFIFO T) (x : T),
      (q.emplace x = none ↔ q.nlimit ≤ q.Q.length) ∧ q.push x = q.emplace x ∧
      ∀ q1 b, q.emplace x = some (q1, b) →
        q.Q.length < q.nlimit ∧ q1.Q = q.Q ++ [x] ∧ q1.nlimit = q.nlimit := by
  have hb := (attempts_bounded cs (⟨[], n, 0⟩ : MPSCFIFO T) (Nat.zero_le n)).1
  refine ⟨rfl, ?_, hb, ?_, ?_⟩
  · have : n ≠ 0 := by omega
    simp [MPSCFIFO.new, this]
  · intro p hp
    rw [calls_attempts cs _ p hp]
    exact hb
  · intro q x
    exact ⟨emplace_none q x, rfl, fun q1 b h => emplace_some q q1 x b h⟩

theorem fifo_bounded_witness :
    ((⟨[], 2, 0⟩ : MPSCFIFO Nat).attempts overfill).Q.length ≤ 2 ∧
    ((⟨[], 2, 0⟩ : MPSCFIFO Nat).attempts overfill).Q = [2, 4] :=
  ⟨(fifo_bounded 2 (by decide) overfill).2.2.1, by decide⟩

end pvxs
